import Mathlib

/-!
# Particle / animation subsystem of `script.js`

A shallow embedding of the four canvas particle systems (stars, nebula, clouds,
interactive particles), their initialisers, their per-frame update rules and the
page lifecycle (`init`, `setupCanvas`, `handleResize`) that drives them.

JavaScript numbers are read as elements of a linearly ordered field `α`
(exact arithmetic; `ℝ` where the values of `Math.sqrt` and `Math.sin` matter).
The functions of the `Math` object are collected in `JsMath`; `Math.random()` is a
source of draws that is threaded through every function that consumes it.
-/

set_option linter.unusedSectionVars false

namespace Portfolio

/-! ## Environment -/

/-- The members of the JavaScript `Math` object that the script calls. -/
structure JsMath (α : Type) where
  sqrt : α → α
  sin : α → α
  cos : α → α
  floor : α → Int
  PI : α

/-- The interpretation of `Math` over the real numbers. -/
noncomputable def realMath : JsMath ℝ where
  sqrt := Real.sqrt
  sin := Real.sin
  cos := Real.cos
  floor := Int.floor
  PI := Real.pi

/-- The source of `Math.random()`: the sequence of all draws and the number of draws
consumed so far. -/
structure Rng (α : Type) where
  draws : Nat → α
  pos : Nat

/-- The value the `i`-th next call of `Math.random()` returns. -/
def Rng.get {α : Type} (g : Rng α) (i : Nat) : α := g.draws (g.pos + i)

/-- The source after `k` calls of `Math.random()`. -/
def Rng.drop {α : Type} (g : Rng α) (k : Nat) : Rng α := { g with pos := g.pos + k }

/-- Every draw of `Math.random()` lies in `[0, 1)`. -/
def Rng.Unit {α : Type} [LinearOrderedField α] (g : Rng α) : Prop :=
  ∀ i, 0 ≤ g.draws i ∧ g.draws i < 1

/-- How a function body ends: normally, or by a thrown exception. Both carry the
global state at that point, since a `catch` continues from the mutated state. -/
inductive Completion (σ : Type) where
  | normal : σ → Completion σ
  | thrown : σ → Completion σ

/-- Sequencing of statements: a thrown exception skips what follows. -/
def Completion.andThen {σ : Type} (c : Completion σ) (f : σ → Completion σ) :
    Completion σ :=
  match c with
  | .normal s => f s
  | .thrown s => .thrown s

/-- The state a completion carries. -/
def Completion.state {σ : Type} : Completion σ → σ
  | .normal s => s
  | .thrown s => s

/-! ## Particle records -/

/-- An entry of the `colors` palette. -/
structure RGB where
  r : Nat
  g : Nat
  b : Nat
  deriving DecidableEq, Repr

/-- The `colors` palette. -/
def colors : List RGB :=
  [⟨120, 80, 255⟩, ⟨80, 180, 255⟩, ⟨150, 50, 200⟩, ⟨110, 231, 183⟩, ⟨255, 107, 180⟩]

/-- The entry `colors[k]`; `none` stands for `undefined`. -/
def colorAt (k : Int) : Option RGB :=
  if 0 ≤ k then colors.get? k.toNat else none

/-- An element of `particles.stars`. -/
structure Star (α : Type) where
  x : α
  y : α
  r : α
  alpha : α
  dx : α
  dy : α
  twinkle : α

/-- An element of `particles.nebula`. -/
structure Nebula (α : Type) where
  x : α
  y : α
  size : α
  color : Option RGB
  alpha : α
  dx : α
  dy : α
  pulse : α

/-- An element of `particles.clouds`. -/
structure Cloud (α : Type) where
  x : α
  y : α
  baseW : α
  baseH : α
  w : α
  h : α
  dx : α
  alpha : α
  breath : α

/-- An element of `particles.interactive`. -/
structure Interactive (α : Type) where
  x : α
  y : α
  size : α
  color : Option RGB
  alpha : α
  baseX : α
  baseY : α
  angle : α
  speed : α

/-- A canvas element of the page together with whether `contexts[key]` is set. -/
structure Canvas (α : Type) where
  width : α
  height : α
  ctx : Bool

/-- The four animation loops. -/
inductive Animator where
  | stars
  | nebula
  | clouds
  | interactive
  deriving DecidableEq, Repr

/-- The global state the animation subsystem reads and writes: `STATE`, `canvases`,
`contexts`, `particles`, the window size, the local hour, the toasts shown, the frame
callbacks handed to `requestAnimationFrame`, and the `Math.random()` stream. -/
structure Page (α : Type) where
  initialized : Bool
  isMobile : Bool
  isReducedMotion : Bool
  pageHidden : Bool
  cursorVisible : Bool
  mouseX : α
  mouseY : α
  innerWidth : α
  innerHeight : α
  hour : Nat
  starCanvas : Option (Canvas α)
  nebulaCanvas : Option (Canvas α)
  cloudCanvas : Option (Canvas α)
  particleCanvas : Option (Canvas α)
  stars : List (Star α)
  nebula : List (Nebula α)
  clouds : List (Cloud α)
  interactive : List (Interactive α)
  listeners : Bool
  cursorHidden : Bool
  toastContainer : Bool
  toasts : List (String × String)
  scheduled : List Animator
  rng : Rng α

variable {α : Type} [LinearOrderedField α]

/-! ## Initialisers -/

/-- The loop `for (let i = 0; i < count; i++) arr.push(mk())`, where `mk` consumes
random draws. -/
def forPush {P : Type} (mk : Rng α → P × Rng α) : Nat → List P → Rng α → List P × Rng α
  | 0, acc, g => (acc, g)
  | n + 1, acc, g => forPush mk n (acc ++ [(mk g).1]) (mk g).2

/-- The object literal pushed by `initStars`. -/
def newStar (M : JsMath α) (isMobile : Bool) (cw ch : α) (g : Rng α) : Star α × Rng α :=
  ({ x := g.get 0 * cw
     y := g.get 1 * ch
     r := g.get 2 * 1.5 + 0.5
     alpha := g.get 3 * 0.8 + 0.2
     dx := (g.get 4 - 0.5) * (if isMobile then 0.1 else 0.2)
     dy := (g.get 5 - 0.5) * (if isMobile then 0.1 else 0.2)
     twinkle := g.get 6 * M.PI * 2 }, g.drop 7)

/-- The object literal pushed by `initNebula`. -/
def newNebula (M : JsMath α) (isMobile : Bool) (cw ch : α) (g : Rng α) :
    Nebula α × Rng α :=
  ({ x := g.get 0 * cw
     y := g.get 1 * ch
     size := g.get 2 * 3 + 0.5
     color := colorAt (M.floor (g.get 3 * (colors.length : α)))
     alpha := g.get 4 * 0.4 + 0.1
     dx := (g.get 5 - 0.5) * (if isMobile then 0.02 else 0.05)
     dy := (g.get 6 - 0.5) * (if isMobile then 0.02 else 0.05)
     pulse := g.get 7 * M.PI * 2 }, g.drop 8)

/-- One iteration of the loop of `initClouds`. -/
def newCloud (M : JsMath α) (cw ch : α) (g : Rng α) : Cloud α × Rng α :=
  let baseW := 80 + g.get 0 * 120
  let baseH := 30 + g.get 1 * 50
  ({ x := g.get 2 * cw
     y := g.get 3 * ch * 0.6
     baseW := baseW
     baseH := baseH
     w := baseW
     h := baseH
     dx := 0.05 + g.get 4 * 0.15
     alpha := 0.1 + g.get 5 * 0.2
     breath := g.get 6 * M.PI * 2 }, g.drop 7)

/-- The object literal pushed by `initInteractiveParticles`. -/
def newInteractive (M : JsMath α) (cw ch : α) (g : Rng α) : Interactive α × Rng α :=
  ({ x := g.get 0 * cw
     y := g.get 1 * ch
     size := g.get 2 * 2 + 1
     color := colorAt (M.floor (g.get 3 * (colors.length : α)))
     alpha := g.get 4 * 0.5 + 0.2
     baseX := 0
     baseY := 0
     angle := g.get 5 * M.PI * 2
     speed := g.get 6 * 0.02 + 0.01 }, g.drop 7)

/-- The function `initStars`. With `canvases.star` null the first iteration throws
a `TypeError` at `canvases.star.width`, after `particles.stars = []` and after the
first `Math.random()` call. -/
def initStars (M : JsMath α) (s : Page α) : Completion (Page α) :=
  let s1 := { s with stars := [] }
  let count := if s1.isMobile then 150 else 400
  match s1.starCanvas with
  | none => .thrown { s1 with rng := s1.rng.drop 1 }
  | some c =>
    let out := forPush (newStar M s1.isMobile c.width c.height) count [] s1.rng
    .normal { s1 with stars := out.1, rng := out.2 }

/-- The function `initNebula`. -/
def initNebula (M : JsMath α) (s : Page α) : Completion (Page α) :=
  let s1 := { s with nebula := [] }
  let count := if s1.isMobile then 200 else 600
  match s1.nebulaCanvas with
  | none => .thrown { s1 with rng := s1.rng.drop 1 }
  | some c =>
    let out := forPush (newNebula M s1.isMobile c.width c.height) count [] s1.rng
    .normal { s1 with nebula := out.1, rng := out.2 }

/-- The function `initClouds`. The two draws for `baseW` and `baseH` precede the
first access to `canvases.cloud.width`. -/
def initClouds (M : JsMath α) (s : Page α) : Completion (Page α) :=
  let s1 := { s with clouds := [] }
  match s1.cloudCanvas with
  | none => .thrown { s1 with rng := s1.rng.drop 3 }
  | some c =>
    let out := forPush (newCloud M c.width c.height) 25 [] s1.rng
    .normal { s1 with clouds := out.1, rng := out.2 }

/-- The function `initInteractiveParticles`. -/
def initInteractiveParticles (M : JsMath α) (s : Page α) : Completion (Page α) :=
  let s1 := { s with interactive := [] }
  let count := if s1.isMobile then 20 else 50
  match s1.particleCanvas with
  | none => .thrown { s1 with rng := s1.rng.drop 1 }
  | some c =>
    let out := forPush (newInteractive M c.width c.height) count [] s1.rng
    .normal { s1 with interactive := out.1, rng := out.2 }

/-! ## Per-particle update rules -/

/-- The update of one star in `animateStars`: advance, then reflect the velocity of
an axis on which the new position lies outside the canvas. -/
def starStep (cw ch : α) (s : Star α) : Star α :=
  let x := s.x + s.dx
  let y := s.y + s.dy
  { s with
    x := x
    y := y
    twinkle := s.twinkle + 0.02
    dx := if x < 0 ∨ x > cw then s.dx * -1 else s.dx
    dy := if y < 0 ∨ y > ch then s.dy * -1 else s.dy }

/-- The test `hour >= 6 && hour < 18`. -/
def isDaytime (hour : Nat) : Bool := decide (6 ≤ hour) && decide (hour < 18)

/-- The alpha `animateStars` draws a star with (the star as it is after its update). -/
def starAlpha (M : JsMath α) (hour : Nat) (s : Star α) : α :=
  let alpha := s.alpha * (if isDaytime hour then 0.3 else 1)
  alpha * ((M.sin s.twinkle + 1) / 2 * 0.5 + 0.5)

/-- The wrap of one coordinate in `animateNebula`: two successive `if` statements. -/
def wrapAxis (c v : α) : α :=
  let v1 := if v < 0 then c else v
  if v1 > c then 0 else v1

/-- The update of one particle in `animateNebula`. -/
def nebulaStep (cw ch : α) (p : Nebula α) : Nebula α :=
  { p with
    x := wrapAxis cw (p.x + p.dx)
    y := wrapAxis ch (p.y + p.dy)
    pulse := p.pulse + 0.01 }

/-- The alpha `animateNebula` draws a particle with (the particle after its update):
the expression `particle.alpha * (Math.sin(particle.pulse) + 1) / 2 * 0.3 + 0.7`. -/
def nebulaAlpha (M : JsMath α) (p : Nebula α) : α :=
  p.alpha * (M.sin p.pulse + 1) / 2 * 0.3 + 0.7

/-- The update of one cloud in the daytime branch of `animateClouds`; a respawn
consumes five random draws. (`c.breath || 0` is `c.breath` for every number.) -/
def cloudStep (M : JsMath α) (cw ch : α) (c : Cloud α) (g : Rng α) : Cloud α × Rng α :=
  let x := c.x + c.dx
  let breath := c.breath + 0.01
  let breathScale := 1 + M.sin breath * 0.05
  let w := c.baseW * breathScale
  let h := c.baseH * breathScale
  if x - w > cw then
    let baseW := 80 + g.get 1 * 120
    let baseH := 30 + g.get 2 * 50
    ({ x := -w
       y := g.get 0 * ch * 0.6
       baseW := baseW
       baseH := baseH
       w := baseW
       h := baseH
       dx := 0.05 + g.get 3 * 0.15
       alpha := 0.1 + g.get 4 * 0.2
       breath := breath }, g.drop 5)
  else
    ({ c with x := x, breath := breath, w := w, h := h }, g)

/-- The `forEach` over `particles.clouds`, threading the random stream. -/
def cloudsFrame (M : JsMath α) (cw ch : α) : List (Cloud α) → Rng α → List (Cloud α) × Rng α
  | [], g => ([], g)
  | c :: cs, g =>
    let r := cloudStep M cw ch c g
    let rest := cloudsFrame M cw ch cs r.2
    (r.1 :: rest.1, rest.2)

/-- The distance `Math.sqrt(dx * dx + dy * dy)` from the point `(x, y)` to `(mx, my)`. -/
def distTo (M : JsMath α) (mx my x y : α) : α :=
  let dx := mx - x
  let dy := my - y
  M.sqrt (dx * dx + dy * dy)

/-- The update of one particle in `animateInteractiveParticles`, with the cursor at
`(mx, my)`. Division is the field's: the model says nothing about `distance = 0`,
where JavaScript computes `0 / 0`. -/
def interactiveStep (M : JsMath α) (mx my : α) (p : Interactive α) : Interactive α :=
  let angle := p.angle + p.speed
  let dx := mx - p.x
  let dy := my - p.y
  let distance := M.sqrt (dx * dx + dy * dy)
  if distance < 100 then
    let force := (100 - distance) / 100
    { p with
      angle := angle
      x := p.x - (dx / distance) * force * 2
      y := p.y - (dy / distance) * force * 2 }
  else
    { p with
      angle := angle
      x := p.x + (p.baseX - p.x) * 0.02
      y := p.y + (p.baseY - p.y) * 0.02 }

/-- The particle after `n` frames, the cursor being at `mouse i` during frame `i`. -/
def interactiveRun (M : JsMath α) (mouse : Nat → α × α) : Nat → Interactive α → Interactive α
  | 0, p => p
  | n + 1, p =>
    interactiveStep M (mouse n).1 (mouse n).2 (interactiveRun M mouse n p)

/-! ## Frames -/

/-- The call `requestAnimationFrame(a)`. -/
def requestFrame (a : Animator) (s : Page α) : Page α :=
  { s with scheduled := s.scheduled ++ [a] }

/-- One call of `animateStars` (drawing does not change the state). -/
def animateStars (s : Page α) : Page α :=
  match s.starCanvas with
  | none => requestFrame .stars s
  | some c =>
    if s.pageHidden || !c.ctx then requestFrame .stars s
    else requestFrame .stars { s with stars := s.stars.map (starStep c.width c.height) }

/-- One call of `animateNebula`. -/
def animateNebula (s : Page α) : Page α :=
  match s.nebulaCanvas with
  | none => requestFrame .nebula s
  | some c =>
    if !c.ctx then requestFrame .nebula s
    else requestFrame .nebula { s with nebula := s.nebula.map (nebulaStep c.width c.height) }

/-- One call of `animateClouds`. -/
def animateClouds (M : JsMath α) (s : Page α) : Page α :=
  match s.cloudCanvas with
  | none => requestFrame .clouds s
  | some c =>
    if !c.ctx then requestFrame .clouds s
    else if isDaytime s.hour then
      let out := cloudsFrame M c.width c.height s.clouds s.rng
      requestFrame .clouds { s with clouds := out.1, rng := out.2 }
    else requestFrame .clouds s

/-- One call of `animateInteractiveParticles`. -/
def animateInteractiveParticles (M : JsMath α) (s : Page α) : Page α :=
  match s.particleCanvas with
  | none => requestFrame .interactive s
  | some c =>
    if !c.ctx || s.isMobile then requestFrame .interactive s
    else
      requestFrame .interactive
        { s with interactive := s.interactive.map (interactiveStep M s.mouseX s.mouseY) }

/-! ## Lifecycle -/

/-- The assignment of the window size to one canvas in `resizeAllCanvas`. -/
def resizeCanvas (iw ih : α) (c : Option (Canvas α)) : Option (Canvas α) :=
  c.map fun cv => { cv with width := iw, height := ih }

/-- The function `resizeAllCanvas`. -/
def resizeAllCanvas (s : Page α) : Page α :=
  { s with
    starCanvas := resizeCanvas s.innerWidth s.innerHeight s.starCanvas
    nebulaCanvas := resizeCanvas s.innerWidth s.innerHeight s.nebulaCanvas
    cloudCanvas := resizeCanvas s.innerWidth s.innerHeight s.cloudCanvas
    particleCanvas := resizeCanvas s.innerWidth s.innerHeight s.particleCanvas }

/-- The guard `canvases[key] && contexts[key]`. -/
def usable (c : Option (Canvas α)) : Bool :=
  match c with
  | none => false
  | some cv => cv.ctx

/-- The statement `if (canvases[key] && contexts[key]) f()` for an animator `f`. -/
def guarded (c : Page α → Option (Canvas α)) (f : Page α → Page α) (s : Page α) : Page α :=
  if usable (c s) then f s else s

/-- The statement `if (canvases[key] && contexts[key]) f()` for an initialiser `f`. -/
def guardedInit (c : Page α → Option (Canvas α)) (f : Page α → Completion (Page α))
    (s : Page α) : Completion (Page α) :=
  if usable (c s) then f s else .normal s

/-- The animation-loop part of `setupCanvas`: each loop is started by calling its
animator once. -/
def startLoops (M : JsMath α) (s : Page α) : Page α :=
  if !s.isReducedMotion then
    s |> guarded Page.starCanvas animateStars
      |> guarded Page.nebulaCanvas animateNebula
      |> guarded Page.cloudCanvas (animateClouds M)
      |> guarded Page.particleCanvas (animateInteractiveParticles M)
  else s

/-- The function `setupCanvas`. -/
def setupCanvas (M : JsMath α) (s : Page α) : Completion (Page α) :=
  (guardedInit Page.starCanvas (initStars M) (resizeAllCanvas s)).andThen fun s1 =>
    (guardedInit Page.nebulaCanvas (initNebula M) s1).andThen fun s2 =>
      (guardedInit Page.cloudCanvas (initClouds M) s2).andThen fun s3 =>
        (guardedInit Page.particleCanvas (initInteractiveParticles M) s3).andThen fun s4 =>
          Completion.normal (startLoops M s4)

/-- The function `setupCustomCursor`. -/
def setupCustomCursor (s : Page α) : Page α :=
  if s.isMobile || s.isReducedMotion then s
  else
    { s with
      interactive := s.interactive.map fun p => { p with baseX := p.x, baseY := p.y }
      cursorHidden := true }

/-- The function `showToast`: a toast is shown only when the container exists. -/
def showToast (message type : String) (s : Page α) : Page α :=
  if !s.toastContainer then s else { s with toasts := s.toasts ++ [(message, type)] }

/-- The function `setupEventListeners`: registers the handlers. -/
def setupEventListeners (s : Page α) : Page α := { s with listeners := true }

/-- The message of the toast in the `catch` clause of `init`. -/
def initErrorMessage : String := "Có lỗi xảy ra khi khởi tạo trang. Vui lòng tải lại!"

/-- The `try` block of `init`. `setupRevealAnimation` and `setupVanillaTilt` touch
neither the state modelled here nor throw. -/
def initBody (M : JsMath α) (s : Page α) : Completion (Page α) :=
  (setupCanvas M (setupEventListeners s)).andThen fun s =>
    (initStars M s).andThen fun s =>
      (initNebula M s).andThen fun s =>
        (initClouds M s).andThen fun s =>
          (initInteractiveParticles M s).andThen fun s =>
            Completion.normal { setupCustomCursor s with initialized := true }

/-- The function `init`. -/
def init (M : JsMath α) (s : Page α) : Page α :=
  if s.initialized then s
  else
    match initBody M s with
    | .normal s1 => s1
    | .thrown s1 => showToast initErrorMessage "error" s1

/-- The function `initParticles`. -/
def initParticles (M : JsMath α) (s : Page α) : Completion (Page α) :=
  (initStars M s).andThen fun s =>
    (initNebula M s).andThen fun s =>
      (initClouds M s).andThen fun s =>
        initInteractiveParticles M s

/-- The function `handleResize` (`checkReveal` does not touch the state modelled). -/
def handleResize (M : JsMath α) (s : Page α) : Completion (Page α) :=
  (initStars M (resizeAllCanvas s)).andThen fun s =>
    (initNebula M s).andThen fun s =>
      (initClouds M s).andThen fun s =>
        initInteractiveParticles M s

/-! ## Event handlers and runs of the page -/

/-- The `forEach` of `handleMouseMove`: a particle within 200 units of the cursor
gets a new home near the cursor, from two random draws. -/
def nudgeHomes (M : JsMath α) (cx cy : α) :
    List (Interactive α) → Rng α → List (Interactive α) × Rng α
  | [], g => ([], g)
  | p :: ps, g =>
    if distTo M cx cy p.x p.y < 200 then
      let rest := nudgeHomes M cx cy ps (g.drop 2)
      ({ p with baseX := cx + (g.get 0 - 0.5) * 100, baseY := cy + (g.get 1 - 0.5) * 100 } :: rest.1,
        rest.2)
    else
      let rest := nudgeHomes M cx cy ps g
      (p :: rest.1, rest.2)

/-- The function `handleMouseMove` for an event at `(cx, cy)`. -/
def handleMouseMove (M : JsMath α) (cx cy : α) (s : Page α) : Page α :=
  let s1 := { s with mouseX := cx, mouseY := cy }
  if !s1.cursorVisible then s1
  else
    let out := nudgeHomes M cx cy s1.interactive s1.rng
    { s1 with interactive := out.1, rng := out.2 }

/-- The message of the toast of the global `error` listener. -/
def globalErrorMessage : String := "Có lỗi xảy ra. Vui lòng tải lại trang!"

/-- What can happen to the page after `init`. -/
inductive Event (α : Type) where
  | frame (a : Animator)
  | resize (w h : α)
  | mouseMove (cx cy : α)
  | mouseEnter
  | mouseLeave
  | visibility (hidden : Bool)
  | clock (hour : Nat)

/-- The effect of one event. A resize sets the window size and runs `handleResize`
(after the debounce delay); an exception escaping a handler reaches the global
`error` listener. The mouse listeners are registered on desktop only. -/
def applyEvent (M : JsMath α) (e : Event α) (s : Page α) : Page α :=
  match e with
  | .frame .stars => animateStars s
  | .frame .nebula => animateNebula s
  | .frame .clouds => animateClouds M s
  | .frame .interactive => animateInteractiveParticles M s
  | .resize w h =>
    match handleResize M { s with innerWidth := w, innerHeight := h } with
    | .normal s1 => s1
    | .thrown s1 => showToast globalErrorMessage "error" s1
  | .mouseMove cx cy => if s.isMobile then s else handleMouseMove M cx cy s
  | .mouseEnter => if s.isMobile then s else { s with cursorVisible := true }
  | .mouseLeave => if s.isMobile then s else { s with cursorVisible := false }
  | .visibility hidden => { s with pageHidden := hidden }
  | .clock hour => { s with hour := hour }

/-- The page after a sequence of events, the first event of the list first. -/
def runEvents (M : JsMath α) : List (Event α) → Page α → Page α
  | [], s => s
  | e :: es, s => runEvents M es (applyEvent M e s)

/-- The sizes of the four collections. -/
def counts (s : Page α) : Nat × Nat × Nat × Nat :=
  (s.stars.length, s.nebula.length, s.clouds.length, s.interactive.length)

/-- The point `(x, y)` lies on a surface of the given width and height. -/
def onSurface (w h x y : α) : Prop := 0 ≤ x ∧ x ≤ w ∧ 0 ≤ y ∧ y ≤ h

/-- Every particle of every collection lies on the surface. -/
def AllOnSurface (w h : α) (s : Page α) : Prop :=
  (∀ p ∈ s.stars, onSurface w h p.x p.y) ∧ (∀ p ∈ s.nebula, onSurface w h p.x p.y) ∧
    (∀ p ∈ s.clouds, onSurface w h p.x p.y) ∧ (∀ p ∈ s.interactive, onSurface w h p.x p.y)

/-- The bounce invariant of one axis of a star on a surface of extent `c`: the
coordinate is at most one frame's travel `e` outside `[0, c]`, the speed is `e`, and
outside the surface the velocity points back towards it. -/
def BounceInv (c e x dx : α) : Prop :=
  -e ≤ x ∧ x ≤ c + e ∧ |dx| = e ∧ (x < 0 → 0 ≤ dx) ∧ (c < x → dx ≤ 0)

/-- The collection sizes of a device class: stars, nebula, clouds, interactive. -/
def fixedCounts (isMobile : Bool) : Nat × Nat × Nat × Nat :=
  (if isMobile then 150 else 400, if isMobile then 200 else 600, 25,
    if isMobile then 20 else 50)

/-- The page is of device class `m`, has its four canvases, and draws its random
numbers from `[0, 1)`. -/
def Keeps (m : Bool) (s : Page α) : Prop :=
  s.isMobile = m ∧ s.starCanvas.isSome = true ∧ s.nebulaCanvas.isSome = true ∧
    s.cloudCanvas.isSome = true ∧ s.particleCanvas.isSome = true ∧ s.rng.Unit

/-- The page `t` agrees with `s` on everything but the particle collections, the
number of random draws consumed, the frame callbacks requested and the cursor. -/
def SameShell (s t : Page α) : Prop :=
  t.initialized = s.initialized ∧ t.isMobile = s.isMobile ∧
    t.isReducedMotion = s.isReducedMotion ∧ t.toastContainer = s.toastContainer ∧
    t.toasts = s.toasts ∧ t.starCanvas = s.starCanvas ∧ t.nebulaCanvas = s.nebulaCanvas ∧
    t.cloudCanvas = s.cloudCanvas ∧ t.particleCanvas = s.particleCanvas ∧
    t.rng.draws = s.rng.draws

/-- The loops `setupCanvas` starts, in the order it starts them. -/
def loopsStarted (s : Page α) : List Animator :=
  if s.isReducedMotion then []
  else
    (if usable s.starCanvas then [Animator.stars] else []) ++
      (if usable s.nebulaCanvas then [Animator.nebula] else []) ++
      (if usable s.cloudCanvas then [Animator.clouds] else []) ++
      (if usable s.particleCanvas then [Animator.interactive] else [])

/-- The clouds that can occur in `particles.clouds`: those `initClouds` creates, and
those a daytime update step of `animateClouds` makes of them (on whatever canvas
size, with random draws from `[0, 1)`). -/
inductive ReachableCloud (M : JsMath α) : Cloud α → Prop where
  | init (cw ch : α) (g : Rng α) (hg : g.Unit) : ReachableCloud M (newCloud M cw ch g).1
  | step (cw ch : α) (c : Cloud α) (g : Rng α) (hg : g.Unit) (hc : ReachableCloud M c) :
      ReachableCloud M (cloudStep M cw ch c g).1

/-! ## Draw calls -/

/-- What a frame puts on a canvas: `clearRect(0, 0, w, h)`; a filled circle
(`beginPath`, `arc`, `fillStyle`, `fill`) of the given centre, radius, colour
(`none`: white) and alpha; a stroked line (`beginPath`, `moveTo`, `lineTo`,
`strokeStyle`, `stroke`) with its end points, colour and opacity. -/
inductive DrawCmd (α : Type) where
  | clearRect (w h : α)
  | arc (x y r : α) (color : Option RGB) (alpha : α)
  | line (x1 y1 x2 y2 : α) (color : Option RGB) (opacity : α)

/-- The draw calls of `animateStars` for one star (as it is after its update): the
star, and a glow of twice the radius when `star.r > 1`. -/
def starDraws (M : JsMath α) (hour : Nat) (st : Star α) : List (DrawCmd α) :=
  let alpha := starAlpha M hour st
  if st.r > 1 then
    [.arc st.x st.y st.r none alpha, .arc st.x st.y (st.r * 2) none (alpha * 0.2)]
  else [.arc st.x st.y st.r none alpha]

/-- The draw calls of one call of `animateStars`. -/
def animateStarsDraws (M : JsMath α) (s : Page α) : List (DrawCmd α) :=
  match s.starCanvas with
  | none => []
  | some c =>
    if s.pageHidden || !c.ctx then []
    else
      .clearRect c.width c.height ::
        (s.stars.map (starStep c.width c.height)).flatMap (starDraws M s.hour)

/-- The circle `animateInteractiveParticles` draws for a particle (after its update),
offset by the orbit of radius 20. -/
def arcOf (M : JsMath α) (p : Interactive α) : DrawCmd α :=
  .arc (p.x + M.cos p.angle * 20) (p.y + M.sin p.angle * 20) p.size p.color p.alpha

/-- The connection line from the particle `p` to another particle `q`, drawn when
their distance is below 80. -/
def lineTo (M : JsMath α) (p q : Interactive α) : Option (DrawCmd α) :=
  let dx2 := p.x - q.x
  let dy2 := p.y - q.y
  let distance2 := M.sqrt (dx2 * dx2 + dy2 * dy2)
  if distance2 < 80 then
    some (.line p.x p.y q.x q.y p.color (0.1 * (1 - distance2 / 80)))
  else none

/-- The outer `forEach` of `animateInteractiveParticles`, which updates the array in
place: `done` are the particles already visited (updated), the second list those
still to visit. Visiting a particle updates it, draws it, and runs the inner
`forEach` over all other particles as they are at that moment. The result is the
array after the pass together with the draw calls of each visit. -/
def interactiveLoop (M : JsMath α) (mx my : α) :
    List (Interactive α) → List (Interactive α) →
      List (Interactive α) × List (List (DrawCmd α))
  | done, [] => (done, [])
  | done, p :: rest =>
    let p1 := interactiveStep M mx my p
    let out := interactiveLoop M mx my (done ++ [p1]) rest
    (out.1, (arcOf M p1 :: (done ++ rest).filterMap (lineTo M p1)) :: out.2)

/-- One call of `animateInteractiveParticles`, with its draw calls. -/
def interactiveFrame (M : JsMath α) (s : Page α) : Page α × List (DrawCmd α) :=
  match s.particleCanvas with
  | none => (requestFrame .interactive s, [])
  | some c =>
    if !c.ctx || s.isMobile then (requestFrame .interactive s, [])
    else
      let out := interactiveLoop M s.mouseX s.mouseY [] s.interactive
      (requestFrame .interactive { s with interactive := out.1 },
        .clearRect c.width c.height :: out.2.flatten)

/-- What `handleMouseMove` for an event at `(cx, cy)` may make of the particle `p`:
only the home can change; within 200 units of the cursor the new home lies within
50 units of the cursor on each axis, otherwise the home is kept. -/
def Nudged (M : JsMath α) (cx cy : α) (p q : Interactive α) : Prop :=
  q = { p with baseX := q.baseX, baseY := q.baseY } ∧
    (distTo M cx cy p.x p.y < 200 →
      cx - 50 ≤ q.baseX ∧ q.baseX ≤ cx + 50 ∧ cy - 50 ≤ q.baseY ∧ q.baseY ≤ cy + 50) ∧
    (¬ distTo M cx cy p.x p.y < 200 → q.baseX = p.baseX ∧ q.baseY = p.baseY)

/-! ## Frames in which a drawing call throws -/

/-- Where, in the `try` block of a frame, a call on the drawing context throws:
nowhere, at `clearRect`, or at a drawing call of the visit of the `k`-th particle. -/
inductive Fault where
  | never
  | atClear
  | atParticle (k : Nat)

/-- The array after an in-place `forEach` that was left by an exception when the
first `k` elements had been updated. -/
def updatedUpTo {P : Type} (f : P → P) (k : Nat) (l : List P) : List P :=
  (l.take k).map f ++ l.drop k

/-- The `try` block of `animateStars`. A star is updated before it is drawn, so an
exception at the visit of star `k` leaves the stars `0 .. k` updated. -/
def starsBody (fault : Fault) (c : Canvas α) (s : Page α) : Completion (Page α) :=
  match fault with
  | .never => .normal { s with stars := s.stars.map (starStep c.width c.height) }
  | .atClear => .thrown s
  | .atParticle k =>
    if k < s.stars.length then
      .thrown { s with stars := updatedUpTo (starStep c.width c.height) (k + 1) s.stars }
    else .normal { s with stars := s.stars.map (starStep c.width c.height) }

/-- One call of `animateStars`: the `catch` clause logs the exception, and the next
frame is requested after the `try` statement. -/
def animateStarsTry (fault : Fault) (s : Page α) : Page α :=
  match s.starCanvas with
  | none => requestFrame .stars s
  | some c =>
    if s.pageHidden || !c.ctx then requestFrame .stars s
    else
      match starsBody fault c s with
      | .normal t => requestFrame .stars t
      | .thrown t => requestFrame .stars t

/-- The `try` block of `animateNebula` (update before drawing). -/
def nebulaBody (fault : Fault) (c : Canvas α) (s : Page α) : Completion (Page α) :=
  match fault with
  | .never => .normal { s with nebula := s.nebula.map (nebulaStep c.width c.height) }
  | .atClear => .thrown s
  | .atParticle k =>
    if k < s.nebula.length then
      .thrown { s with nebula := updatedUpTo (nebulaStep c.width c.height) (k + 1) s.nebula }
    else .normal { s with nebula := s.nebula.map (nebulaStep c.width c.height) }

/-- One call of `animateNebula`. -/
def animateNebulaTry (fault : Fault) (s : Page α) : Page α :=
  match s.nebulaCanvas with
  | none => requestFrame .nebula s
  | some c =>
    if !c.ctx then requestFrame .nebula s
    else
      match nebulaBody fault c s with
      | .normal t => requestFrame .nebula t
      | .thrown t => requestFrame .nebula t

/-- The `try` block of `animateClouds`. A cloud is drawn before it is updated, so an
exception at the visit of cloud `k` leaves the clouds before `k` updated; at night
nothing but `clearRect` is called. -/
def cloudsBody (M : JsMath α) (fault : Fault) (c : Canvas α) (s : Page α) :
    Completion (Page α) :=
  let full : Page α :=
    if isDaytime s.hour then
      let out := cloudsFrame M c.width c.height s.clouds s.rng
      { s with clouds := out.1, rng := out.2 }
    else s
  match fault with
  | .never => .normal full
  | .atClear => .thrown s
  | .atParticle k =>
    if isDaytime s.hour && decide (k < s.clouds.length) then
      let out := cloudsFrame M c.width c.height (s.clouds.take k) s.rng
      .thrown { s with clouds := out.1 ++ s.clouds.drop k, rng := out.2 }
    else .normal full

/-- One call of `animateClouds`. -/
def animateCloudsTry (M : JsMath α) (fault : Fault) (s : Page α) : Page α :=
  match s.cloudCanvas with
  | none => requestFrame .clouds s
  | some c =>
    if !c.ctx then requestFrame .clouds s
    else
      match cloudsBody M fault c s with
      | .normal t => requestFrame .clouds t
      | .thrown t => requestFrame .clouds t

/-- The `try` block of `animateInteractiveParticles` (update before drawing). -/
def interactiveBody (M : JsMath α) (fault : Fault) (s : Page α) : Completion (Page α) :=
  match fault with
  | .never =>
    .normal { s with interactive := s.interactive.map (interactiveStep M s.mouseX s.mouseY) }
  | .atClear => .thrown s
  | .atParticle k =>
    if k < s.interactive.length then
      .thrown { s with
        interactive :=
          updatedUpTo (interactiveStep M s.mouseX s.mouseY) (k + 1) s.interactive }
    else
      .normal { s with
        interactive := s.interactive.map (interactiveStep M s.mouseX s.mouseY) }

/-- One call of `animateInteractiveParticles`. -/
def animateInteractiveTry (M : JsMath α) (fault : Fault) (s : Page α) : Page α :=
  match s.particleCanvas with
  | none => requestFrame .interactive s
  | some c =>
    if !c.ctx || s.isMobile then requestFrame .interactive s
    else
      match interactiveBody M fault s with
      | .normal t => requestFrame .interactive t
      | .thrown t => requestFrame .interactive t

/-! ## The frame scheduler -/

/-- The browser runs a frame callback only when it has been requested with
`requestAnimationFrame`, and running it uses the request up. -/
def fireFrame (M : JsMath α) (a : Animator) (s : Page α) : Page α :=
  if a ∈ s.scheduled then
    applyEvent M (.frame a) { s with scheduled := s.scheduled.erase a }
  else s

/-- The effect of one event on the page when frames are run by the browser. -/
def pageStep (M : JsMath α) (e : Event α) (s : Page α) : Page α :=
  match e with
  | .frame a => fireFrame M a s
  | .resize w h => applyEvent M (.resize w h) s
  | .mouseMove cx cy => applyEvent M (.mouseMove cx cy) s
  | .mouseEnter => applyEvent M .mouseEnter s
  | .mouseLeave => applyEvent M .mouseLeave s
  | .visibility hidden => applyEvent M (.visibility hidden) s
  | .clock hour => applyEvent M (.clock hour) s

/-- The page after a sequence of events, frames being run by the browser. -/
def pageRun (M : JsMath α) : List (Event α) → Page α → Page α
  | [], s => s
  | e :: es, s => pageRun M es (pageStep M e s)

/-- The animators that are called in the course of a sequence of events. -/
def framesFired (M : JsMath α) : List (Event α) → Page α → List Animator
  | [], _ => []
  | .frame a :: es, s =>
    (if a ∈ s.scheduled then [a] else []) ++ framesFired M es (pageStep M (.frame a) s)
  | e :: es, s => framesFired M es (pageStep M e s)

/-- No frame is requested, and the user prefers reduced motion. -/
def Still (s : Page α) : Prop := s.scheduled = [] ∧ s.isReducedMotion = true

/-! ## The debounced resize handler -/

/-- The state of the closure `debounce(func, wait)` returns: the timer set by the
last call, if it has not run yet, as the time it is due and the arguments its
callback `later` has captured. Times are in milliseconds. -/
structure Debounced (A : Type) where
  timeout : Option (Nat × A)

/-- A call `executedFunction(...args)` at time `t`: `clearTimeout(timeout)`, then
`timeout = setTimeout(later, wait)`. -/
def Debounced.call {A : Type} (wait t : Nat) (args : A) (_ : Debounced A) : Debounced A :=
  ⟨some (t + wait, args)⟩

/-- Time passes up to `t`: a timer that is due by then has run its callback `later`,
which calls `func(...args)`; the call is recorded with the time the timer was due. A
timer due at `t` runs before an event that arrives at `t`. -/
def Debounced.elapse {A : Type} (t : Nat) (d : Debounced A) :
    Debounced A × List (Nat × A) :=
  match d.timeout with
  | some (due, args) => if due ≤ t then (⟨none⟩, [(due, args)]) else (d, [])
  | none => (d, [])

/-- The calls of `func`, as time and arguments, that a sequence of calls of the
debounced function (each with its time and arguments, in order of time) gives rise
to; after the last call time passes without bound. -/
def debounceRuns {A : Type} (wait : Nat) : List (Nat × A) → Debounced A → List (Nat × A)
  | [], d =>
    match d.timeout with
    | some run => [run]
    | none => []
  | (t, args) :: es, d =>
    (d.elapse t).2 ++ debounceRuns wait es ((d.elapse t).1.call wait t args)

/-- The calls of `handleResize` that a sequence of `resize` events gives rise to
through the listener `debounce(handleResize, 250)` registered by
`setupEventListeners`. -/
def resizeRuns {A : Type} (events : List (Nat × A)) : List (Nat × A) :=
  debounceRuns 250 events ⟨none⟩

/-! ## The typing effect -/

/-- The array `typingTexts`. A string is given as its sequence of UTF-16 code units,
the units `length` and `substring` count in (an emoji outside the basic plane is two
units). -/
def typingTexts : List (List Nat) :=
  [[89, 234, 117, 32, 116, 104, 237, 99, 104, 32, 108, 7853, 112, 32, 116, 114, 236, 110, 104,
      55357, 56507, 55357, 56446],
    [272, 97, 109, 32, 77, 234, 32, 194, 109, 32, 78, 104, 7841, 99, 32, 38, 32, 108, 7853, 112,
      32, 84, 114, 236, 110, 104, 32, 87, 101, 98],
    [83, 7889, 110, 103, 32, 273, 7875, 32, 104, 7885, 99, 32, 118, 224, 32, 116, 7841, 111, 32,
      114, 97, 32, 103, 105, 225, 32, 116, 114, 7883],
    [194, 109, 32, 78, 104, 7841, 99, 32, 77, 227, 105, 32, 77, 227, 105, 32, 108, 224, 32, 83,
      7889, 32, 49, 32, 116, 114, 111, 110, 103, 32, 10084, 65039, 32, 116, 244, 105],
    [84, 7843, 105, 32, 80, 121, 116, 104, 111, 110, 32, 55357, 56333, 32, 104, 97, 121, 32, 67,
      43, 43, 32, 273, 7875, 32, 99, 104, 417, 105, 32, 273, 432, 7907, 99, 55357, 56841]]

/-- The state of the typing effect: the variables `textIndex`, `charIndex` and
`isDeleting`, and the `textContent` of the element `typing` (`none` when the page has
no such element). -/
structure Typing where
  textIndex : Nat
  charIndex : Int
  isDeleting : Bool
  textContent : Option (List Nat)
  deriving DecidableEq, Repr

/-- The call `text.substring(0, k)`: a negative `k` counts as `0`, a `k` beyond the
length as the length. -/
def substring0 (text : List Nat) (k : Int) : List Nat := text.take k.toNat

/-- One call of `typeWriter` (the timer it sets for the next call apart). The result
`none` stands for the `TypeError` of `currentText.substring` when
`typingTexts[textIndex]` is `undefined`. -/
def typeWriter (texts : List (List Nat)) (s : Typing) : Option Typing :=
  match s.textContent with
  | none => some s
  | some _ =>
    match texts[s.textIndex]? with
    | none => none
    | some currentText =>
      if s.isDeleting then
        if s.charIndex - 1 = 0 then
          some { textIndex := (s.textIndex + 1) % texts.length
                 charIndex := s.charIndex - 1
                 isDeleting := false
                 textContent := some (substring0 currentText (s.charIndex - 1)) }
        else
          some { s with
            charIndex := s.charIndex - 1
            textContent := some (substring0 currentText (s.charIndex - 1)) }
      else
        if s.charIndex + 1 = (currentText.length : Int) then
          some { s with
            charIndex := s.charIndex + 1
            isDeleting := true
            textContent := some (substring0 currentText (s.charIndex + 1)) }
        else
          some { s with
            charIndex := s.charIndex + 1
            textContent := some (substring0 currentText (s.charIndex + 1)) }

/-- The state after `n` calls of `typeWriter`, if none of them throws. -/
def typeWriterRun (texts : List (List Nat)) : Nat → Typing → Option Typing
  | 0, s => some s
  | n + 1, s => (typeWriterRun texts n s).bind (typeWriter texts)

/-- The state when the page is loaded; `content` is what the element `typing` shows
then. -/
def typingStart (content : List Nat) : Typing :=
  { textIndex := 0, charIndex := 0, isDeleting := false, textContent := some content }

/-- The invariant of the typing effect: the current text exists, `charIndex` is
within it, at least 1 while deleting and below the length while typing. -/
def TypingInv (texts : List (List Nat)) (s : Typing) : Prop :=
  ∃ text, texts[s.textIndex]? = some text ∧ 0 ≤ s.charIndex ∧
    s.charIndex ≤ (text.length : Int) ∧ (s.isDeleting = true → 1 ≤ s.charIndex) ∧
    (s.isDeleting = false → s.charIndex < (text.length : Int))

/-! ## The draw calls of the cloud animator -/

/-- What a frame of `animateClouds` puts on the canvas: `clearRect(0, 0, w, h)`; the
body of a cloud, the path of five circles around `(x, y)` scaled by the current width
and height and filled with a radial gradient of the cloud's alpha; the shadow of a
cloud, an ellipse with its centre, radii and alpha. -/
inductive CloudDraw (α : Type) where
  | clearRect (w h : α)
  | body (x y w h alpha : α)
  | shadow (x y rx ry alpha : α)

/-- The draw calls for one cloud, as it is before its update. -/
def cloudDraws (c : Cloud α) : List (CloudDraw α) :=
  [.body c.x c.y c.w c.h c.alpha,
    .shadow (c.x + 5) (c.y + c.h * 0.3) (c.w * 0.8) (c.h * 0.3) (c.alpha * 0.1)]

/-- The draw calls of one call of `animateClouds`: every cloud is drawn before it is
updated, and only by day. -/
def animateCloudsDraws (s : Page α) : List (CloudDraw α) :=
  match s.cloudCanvas with
  | none => []
  | some c =>
    if !c.ctx then []
    else if isDaytime s.hour then
      .clearRect c.width c.height :: s.clouds.flatMap cloudDraws
    else [.clearRect c.width c.height]

/-- What a daytime update step that does not respawn the cloud `c` makes of it. -/
def Drifted (c d : Cloud α) : Prop :=
  d.x = c.x + c.dx ∧ d.breath = c.breath + 0.01 ∧ d.y = c.y ∧ d.baseW = c.baseW ∧
    d.baseH = c.baseH ∧ d.dx = c.dx ∧ d.alpha = c.alpha

/-! ## Concrete pages and particles used for evaluation -/

/-- A freshly loaded desktop page, 1920 by 1080, with all four canvases. -/
def desktopPage (α : Type) [LinearOrderedField α] : Page α where
  initialized := false
  isMobile := false
  isReducedMotion := false
  pageHidden := false
  cursorVisible := true
  mouseX := 0
  mouseY := 0
  innerWidth := 1920
  innerHeight := 1080
  hour := 12
  starCanvas := some ⟨300, 150, true⟩
  nebulaCanvas := some ⟨300, 150, true⟩
  cloudCanvas := some ⟨300, 150, true⟩
  particleCanvas := some ⟨300, 150, true⟩
  stars := []
  nebula := []
  clouds := []
  interactive := []
  listeners := false
  cursorHidden := false
  toastContainer := true
  toasts := []
  scheduled := []
  rng := ⟨fun _ => 1 / 2, 0⟩

/-- The desktop page on which every call of `Math.random()` returns `0`. -/
def cornerPage (α : Type) [LinearOrderedField α] : Page α :=
  { desktopPage α with rng := ⟨fun _ => 0, 0⟩ }

/-- The star `initStars` creates on a desktop canvas from draws that are all `0`: it
starts in the corner `(0, 0)` and moves out of the surface, `0.1` per frame on each
axis. -/
def cornerStar (α : Type) [LinearOrderedField α] : Star α where
  x := 0
  y := 0
  r := 0.5
  alpha := 0.2
  dx := -0.1
  dy := -0.1
  twinkle := 0

/-- The same page without the element `bg-canvas`. -/
def pageWithoutStarCanvas : Page ℚ := { desktopPage ℚ with starCanvas := none }

/-- A cloud as `initClouds` creates it on a canvas 150 wide and 100 high (draws
`0, 0, 2/3, 1/6, 1/3, 1/2, 0`): its right edge `x + w = 180` is beyond the canvas. -/
def cloudAtRightEdge (α : Type) [LinearOrderedField α] : Cloud α where
  x := 100
  y := 10
  baseW := 80
  baseH := 30
  w := 80
  h := 30
  dx := 0.1
  alpha := 0.2
  breath := 0

/-- A cloud that has wholly left a canvas 150 wide on the right. -/
def cloudGone (α : Type) [LinearOrderedField α] : Cloud α where
  x := 1000
  y := 10
  baseW := 80
  baseH := 30
  w := 80
  h := 30
  dx := 0.1
  alpha := 0.2
  breath := 0

/-- An interactive particle at the origin whose home is `(10, 0)`. -/
def particleAtOrigin (α : Type) [LinearOrderedField α] : Interactive α where
  x := 0
  y := 0
  size := 1
  color := none
  alpha := 0.5
  baseX := 10
  baseY := 0
  angle := 0
  speed := 0.01

/-- A nebula particle with the smallest base alpha `initNebula` assigns (`0.1`). -/
def dimNebula (α : Type) [LinearOrderedField α] : Nebula α where
  x := 100
  y := 50
  size := 2
  color := colors.get? 0
  alpha := 0.1
  dx := 0.01
  dy := 0.01
  pulse := 1

/-- An interactive particle at the origin whose home is far to the right. -/
def pairLeft (α : Type) [LinearOrderedField α] : Interactive α where
  x := 0
  y := 0
  size := 1
  color := none
  alpha := 0.5
  baseX := 1000
  baseY := 0
  angle := 0
  speed := 0.01

/-- An interactive particle 50 units left of the origin whose home is far to the
left. -/
def pairRight (α : Type) [LinearOrderedField α] : Interactive α where
  x := -50
  y := 0
  size := 1
  color := none
  alpha := 0.5
  baseX := -1050
  baseY := 0
  angle := 0
  speed := 0.01

/-- A desktop page on which the cursor has left the document. -/
def pageCursorAway (α : Type) [LinearOrderedField α] : Page α :=
  { desktopPage α with cursorVisible := false, interactive := [particleAtOrigin α] }

/-- The desktop page on a touch device. -/
def mobilePage (α : Type) [LinearOrderedField α] : Page α :=
  { desktopPage α with isMobile := true, interactive := [particleAtOrigin α] }

/-- The desktop page while the tab is hidden, with one star. -/
def hiddenPage (α : Type) [LinearOrderedField α] : Page α :=
  { desktopPage α with pageHidden := true, stars := [⟨10, 10, 1.5, 0.5, 0.1, 0.1, 0⟩] }

/-- The desktop page of a user who prefers reduced motion. -/
def reducedMotionPage (α : Type) [LinearOrderedField α] : Page α :=
  { desktopPage α with isReducedMotion := true }

/-- The desktop page at 22 o'clock, with the cloud `cloudAtRightEdge`. -/
def nightPage (α : Type) [LinearOrderedField α] : Page α :=
  { desktopPage α with hour := 22, clouds := [cloudAtRightEdge α] }

/-! ## Lemmas on the random source and the initialisation loop -/

theorem Rng.Unit.drop {g : Rng α} (hg : g.Unit) (k : Nat) : (g.drop k).Unit := hg

theorem Rng.Unit.get_nonneg {g : Rng α} (hg : g.Unit) (i : Nat) : 0 ≤ g.get i :=
  (hg _).1

theorem Rng.Unit.get_lt_one {g : Rng α} (hg : g.Unit) (i : Nat) : g.get i < 1 :=
  (hg _).2

theorem forPush_length {P : Type} (mk : Rng α → P × Rng α) (n : Nat) :
    ∀ (acc : List P) (g : Rng α), (forPush mk n acc g).1.length = acc.length + n := by
  induction n with
  | zero => intro acc g; simp [forPush]
  | succ n ih =>
    intro acc g
    rw [forPush, ih]
    simp [Nat.add_assoc, Nat.add_comm 1 n]

/-- What holds of every object the loop body builds from a well-formed random source
holds of every element of the result. -/
theorem forPush_forall {P : Type} (mk : Rng α → P × Rng α) (R : P → Prop)
    (hmk : ∀ g : Rng α, g.Unit → R (mk g).1 ∧ (mk g).2.Unit) (n : Nat) :
    ∀ (acc : List P) (g : Rng α), g.Unit → (∀ p ∈ acc, R p) →
      (∀ p ∈ (forPush mk n acc g).1, R p) ∧ (forPush mk n acc g).2.Unit := by
  induction n with
  | zero => intro acc g hg hacc; exact ⟨hacc, hg⟩
  | succ n ih =>
    intro acc g hg hacc
    rw [forPush]
    refine ih _ _ (hmk g hg).2 ?_
    intro p hp
    rcases List.mem_append.1 hp with h | h
    · exact hacc p h
    · rw [List.mem_singleton.1 h]
      exact (hmk g hg).1

/-! ## C1: collection sizes -/

/-- C1. With the four canvases present, each initialiser returns normally and leaves
a collection of the fixed size of the device class: 400 / 150 stars, 600 / 200 nebula
particles, 25 clouds, 50 / 20 interactive particles, whatever the canvas dimensions
and the random draws. -/
theorem init_collection_sizes (M : JsMath α) (s : Page α) (c1 c2 c3 c4 : Canvas α)
    (h1 : s.starCanvas = some c1) (h2 : s.nebulaCanvas = some c2)
    (h3 : s.cloudCanvas = some c3) (h4 : s.particleCanvas = some c4) :
    (∃ t, initStars M s = .normal t ∧
        t.stars.length = if s.isMobile then 150 else 400) ∧
      (∃ t, initNebula M s = .normal t ∧
        t.nebula.length = if s.isMobile then 200 else 600) ∧
      (∃ t, initClouds M s = .normal t ∧ t.clouds.length = 25) ∧
      (∃ t, initInteractiveParticles M s = .normal t ∧
        t.interactive.length = if s.isMobile then 20 else 50) := by
  refine ⟨?_, ?_, ?_, ?_⟩
  · simp only [initStars, h1]
    refine ⟨_, rfl, ?_⟩
    simp only [forPush_length]
    split <;> simp
  · simp only [initNebula, h2]
    refine ⟨_, rfl, ?_⟩
    simp only [forPush_length]
    split <;> simp
  · simp only [initClouds, h3]
    refine ⟨_, rfl, ?_⟩
    simp only [forPush_length]
    simp
  · simp only [initInteractiveParticles, h4]
    refine ⟨_, rfl, ?_⟩
    simp only [forPush_length]
    split <;> simp

/-- C1, on the 1920 by 1080 desktop page. -/
theorem init_collection_sizes_witness :
    (∃ t, initStars realMath (desktopPage ℝ) = .normal t ∧
        t.stars.length = if (desktopPage ℝ).isMobile then 150 else 400) ∧
      (∃ t, initNebula realMath (desktopPage ℝ) = .normal t ∧
        t.nebula.length = if (desktopPage ℝ).isMobile then 200 else 600) ∧
      (∃ t, initClouds realMath (desktopPage ℝ) = .normal t ∧ t.clouds.length = 25) ∧
      (∃ t, initInteractiveParticles realMath (desktopPage ℝ) = .normal t ∧
        t.interactive.length = if (desktopPage ℝ).isMobile then 20 else 50) :=
  init_collection_sizes realMath (desktopPage ℝ) _ _ _ _ rfl rfl rfl rfl

/-! ## C2: stars stay within one frame's overshoot of the surface -/

theorem bounceInv_step (c e x dx : α) (hc : 0 ≤ c) (h : BounceInv c e x dx) :
    BounceInv c e (x + dx) (if x + dx < 0 ∨ x + dx > c then dx * -1 else dx) := by
  obtain ⟨h1, h2, h3, h4, h5⟩ := h
  have hle := abs_le.1 (le_of_eq h3)
  have he : 0 ≤ e := h3 ▸ abs_nonneg dx
  have hneg : |dx * -1| = e := by rw [mul_neg_one, abs_neg]; exact h3
  rcases lt_or_le x 0 with hx | hx
  · have hdx := h4 hx
    have hde : dx = e := by rw [← h3, abs_of_nonneg hdx]
    split_ifs with hc1
    · refine ⟨by linarith, by linarith, hneg, fun _ => by linarith, fun _ => by linarith⟩
    · push_neg at hc1
      refine ⟨by linarith, by linarith, h3, fun _ => hdx, fun h => absurd h (not_lt.2 hc1.2)⟩
  · rcases lt_or_le c x with hx2 | hx2
    · have hdx := h5 hx2
      have hde : dx = -e := by rw [← h3, abs_of_nonpos hdx, neg_neg]
      split_ifs with hc1
      · refine ⟨by linarith, by linarith, hneg, fun _ => by linarith, fun _ => by linarith⟩
      · push_neg at hc1
        refine ⟨by linarith, by linarith, h3, fun h => absurd h (not_lt.2 hc1.1),
          fun _ => hdx⟩
    · split_ifs with hc1
      · refine ⟨by linarith [hle.1], by linarith [hle.2], hneg, ?_, ?_⟩
        · intro hlt
          rcases hc1 with h | h
          · linarith
          · linarith
        · intro hgt
          rcases hc1 with h | h
          · linarith
          · linarith
      · push_neg at hc1
        refine ⟨by linarith, by linarith, h3, fun h => absurd h (not_lt.2 hc1.1),
          fun h => absurd h (not_lt.2 hc1.2)⟩

theorem starStep_bounceInv (cw ch ex ey : α) (hw : 0 ≤ cw) (hh : 0 ≤ ch) (st : Star α)
    (h : BounceInv cw ex st.x st.dx ∧ BounceInv ch ey st.y st.dy) :
    BounceInv cw ex (starStep cw ch st).x (starStep cw ch st).dx ∧
      BounceInv ch ey (starStep cw ch st).y (starStep cw ch st).dy :=
  ⟨bounceInv_step cw ex st.x st.dx hw h.1, bounceInv_step ch ey st.y st.dy hh h.2⟩

theorem starStep_iterate_bounceInv (cw ch ex ey : α) (hw : 0 ≤ cw) (hh : 0 ≤ ch)
    (st : Star α) (h : BounceInv cw ex st.x st.dx ∧ BounceInv ch ey st.y st.dy) (N : Nat) :
    BounceInv cw ex ((starStep cw ch)^[N] st).x ((starStep cw ch)^[N] st).dx ∧
      BounceInv ch ey ((starStep cw ch)^[N] st).y ((starStep cw ch)^[N] st).dy := by
  induction N with
  | zero => exact h
  | succ n ih =>
    rw [Function.iterate_succ_apply']
    exact starStep_bounceInv cw ch ex ey hw hh _ ih

theorem starStep_iterate_fixed (cw ch : α) (st : Star α) (N : Nat) :
    ((starStep cw ch)^[N] st).r = st.r ∧ ((starStep cw ch)^[N] st).alpha = st.alpha := by
  induction N with
  | zero => exact ⟨rfl, rfl⟩
  | succ n ih =>
    rw [Function.iterate_succ_apply']
    exact ih

theorem newStar_spec (M : JsMath α) (m : Bool) (cw ch : α) (hw : 0 ≤ cw) (hh : 0 ≤ ch)
    (g : Rng α) (hg : g.Unit) :
    (onSurface cw ch (newStar M m cw ch g).1.x (newStar M m cw ch g).1.y ∧
        0 < (newStar M m cw ch g).1.alpha ∧ (newStar M m cw ch g).1.alpha ≤ 1) ∧
      (newStar M m cw ch g).2.Unit := by
  have h0 := hg.get_nonneg 0
  have h0' := hg.get_lt_one 0
  have h1 := hg.get_nonneg 1
  have h1' := hg.get_lt_one 1
  have h3 := hg.get_nonneg 3
  have h3' := hg.get_lt_one 3
  refine ⟨⟨⟨?_, ?_, ?_, ?_⟩, ?_, ?_⟩, hg.drop 7⟩
  · exact mul_nonneg h0 hw
  · show g.get 0 * cw ≤ cw
    nlinarith
  · exact mul_nonneg h1 hh
  · show g.get 1 * ch ≤ ch
    nlinarith
  · show 0 < g.get 3 * 0.8 + 0.2
    norm_num
    linarith
  · show g.get 3 * 0.8 + 0.2 ≤ 1
    norm_num
    linarith

/-- Every star `initStars` creates lies on the canvas and has base alpha in `(0, 1]`. -/
theorem initStars_stars (M : JsMath α) (s : Page α) (c : Canvas α)
    (hc : s.starCanvas = some c) (hw : 0 ≤ c.width) (hh : 0 ≤ c.height) (hg : s.rng.Unit) :
    ∀ st ∈ (initStars M s).state.stars,
      onSurface c.width c.height st.x st.y ∧ 0 < st.alpha ∧ st.alpha ≤ 1 := by
  simp only [initStars, hc, Completion.state]
  exact (forPush_forall _ _ (fun g hg => newStar_spec M _ _ _ hw hh g hg) _ [] _ hg
    (by simp)).1

/-- C2. On a surface of width `w ≥ 0` and height `h ≥ 0`, a star created by `initStars`
stays, after any number `N` of update steps, within one frame's travel of the surface:
`-|dx| ≤ x ≤ w + |dx|` and `-|dy| ≤ y ≤ h + |dy|`; the speeds `|dx|`, `|dy|` are those
the star was created with, and no step changes them. -/
theorem star_bounce_bounds (M : JsMath α) (s : Page α) (c : Canvas α)
    (hc : s.starCanvas = some c) (hw : 0 ≤ c.width) (hh : 0 ≤ c.height) (hg : s.rng.Unit)
    (st : Star α) (hst : st ∈ (initStars M s).state.stars) (N : Nat) :
    -|st.dx| ≤ ((starStep c.width c.height)^[N] st).x ∧
      ((starStep c.width c.height)^[N] st).x ≤ c.width + |st.dx| ∧
      -|st.dy| ≤ ((starStep c.width c.height)^[N] st).y ∧
      ((starStep c.width c.height)^[N] st).y ≤ c.height + |st.dy| ∧
      |((starStep c.width c.height)^[N] st).dx| = |st.dx| ∧
      |((starStep c.width c.height)^[N] st).dy| = |st.dy| := by
  obtain ⟨⟨hx0, hx1, hy0, hy1⟩, -⟩ := initStars_stars M s c hc hw hh hg st hst
  have hinit : BounceInv c.width |st.dx| st.x st.dx ∧ BounceInv c.height |st.dy| st.y st.dy :=
    ⟨⟨by linarith [abs_nonneg st.dx], by linarith [abs_nonneg st.dx], rfl,
        fun h => absurd h (not_lt.2 hx0), fun h => absurd h (not_lt.2 hx1)⟩,
      ⟨by linarith [abs_nonneg st.dy], by linarith [abs_nonneg st.dy], rfl,
        fun h => absurd h (not_lt.2 hy0), fun h => absurd h (not_lt.2 hy1)⟩⟩
  obtain ⟨⟨a1, a2, a3, -, -⟩, ⟨b1, b2, b3, -, -⟩⟩ :=
    starStep_iterate_bounceInv c.width c.height _ _ hw hh st hinit N
  exact ⟨a1, a2, b1, b2, a3, b3⟩

theorem forPush_mem_acc {P : Type} (mk : Rng α → P × Rng α) (p : P) (n : Nat) :
    ∀ (acc : List P) (g : Rng α), p ∈ acc → p ∈ (forPush mk n acc g).1 := by
  induction n with
  | zero => intro acc g h; exact h
  | succ n ih =>
    intro acc g h
    rw [forPush]
    exact ih _ _ (List.mem_append_left _ h)

theorem forPush_first_mem {P : Type} (mk : Rng α → P × Rng α) (n : Nat) (g : Rng α) :
    (mk g).1 ∈ (forPush mk (n + 1) [] g).1 := by
  rw [forPush]
  exact forPush_mem_acc mk _ n _ _ (by simp)

theorem newStar_corner :
    (newStar realMath false 300 150 ⟨fun _ => 0, 0⟩).1 = cornerStar ℝ := by
  simp only [newStar, cornerStar, Rng.get]
  norm_num

/-- C2, for a star that bounces. With every draw `0` the first star `initStars` creates
on the 300 by 150 canvas is `cornerStar`, at `(0, 0)` with velocity `(-0.1, -0.1)`. Its
first step takes it out of the surface to `x = -0.1`, one frame's travel beyond the
edge, and reflects the velocity to `0.1`; the second step brings it back to `0`, the
third to `0.1`. After the first step the bounds of C2 hold, the lower ones with
equality. -/
theorem star_bounce_bounds_witness :
    (newStar realMath false 300 150 ⟨fun _ => 0, 0⟩).1 = cornerStar ℝ ∧
    ((cornerStar ℝ).x = 0 ∧ (cornerStar ℝ).dx = -0.1 ∧
      (starStep (300 : ℝ) 150 (cornerStar ℝ)).x = -0.1 ∧
      (starStep (300 : ℝ) 150 (cornerStar ℝ)).dx = 0.1 ∧
      ((starStep (300 : ℝ) 150)^[2] (cornerStar ℝ)).x = 0 ∧
      ((starStep (300 : ℝ) 150)^[3] (cornerStar ℝ)).x = 0.1) ∧
    (-|(cornerStar ℝ).dx| ≤ ((starStep (300 : ℝ) 150)^[1] (cornerStar ℝ)).x ∧
      ((starStep (300 : ℝ) 150)^[1] (cornerStar ℝ)).x ≤ 300 + |(cornerStar ℝ).dx| ∧
      -|(cornerStar ℝ).dy| ≤ ((starStep (300 : ℝ) 150)^[1] (cornerStar ℝ)).y ∧
      ((starStep (300 : ℝ) 150)^[1] (cornerStar ℝ)).y ≤ 150 + |(cornerStar ℝ).dy| ∧
      |((starStep (300 : ℝ) 150)^[1] (cornerStar ℝ)).dx| = |(cornerStar ℝ).dx| ∧
      |((starStep (300 : ℝ) 150)^[1] (cornerStar ℝ)).dy| = |(cornerStar ℝ).dy|) := by
  have h := star_bounce_bounds realMath (cornerPage ℝ) ⟨300, 150, true⟩ rfl
    (by norm_num) (by norm_num)
    (fun _ => by show (0 : ℝ) ≤ 0 ∧ (0 : ℝ) < 1; norm_num)
    (newStar realMath false 300 150 ⟨fun _ => 0, 0⟩).1
    (forPush_first_mem _ 399 _) 1
  rw [newStar_corner] at h
  refine ⟨newStar_corner, ?_, h⟩
  simp only [Function.iterate_succ, Function.iterate_zero, Function.comp, id, starStep,
    cornerStar]
  norm_num

/-! ## C3: nebula particles wrap -/

theorem wrapAxis_spec (c v : α) (hc : 0 ≤ c) :
    (c < v → wrapAxis c v = 0) ∧ (v < 0 → wrapAxis c v = c) ∧
      (0 ≤ v → v ≤ c → wrapAxis c v = v) := by
  refine ⟨fun h => ?_, fun h => ?_, fun h1 h2 => ?_⟩
  · have hv : ¬ v < 0 := not_lt.2 (le_trans hc h.le)
    simp [wrapAxis, hv, h]
  · simp [wrapAxis, h]
  · simp [wrapAxis, not_lt.2 h1, not_lt.2 h2]

/-- C3. One nebula update step on a surface of width `w ≥ 0` and height `h ≥ 0`: a
position that after adding the velocity has `x > w` is left at exactly `0`, one with
`x < 0` at exactly `w` (likewise `y` with `h`), a position on the surface is kept; the
velocity is unchanged; and the new `x` depends on the old `x`, `dx` and `w` only, the
new `y` on the old `y`, `dy` and `h` only. -/
theorem nebula_wrap_exact (cw ch : α) (hw : 0 ≤ cw) (hh : 0 ≤ ch) (p : Nebula α) :
    (cw < p.x + p.dx → (nebulaStep cw ch p).x = 0) ∧
      (p.x + p.dx < 0 → (nebulaStep cw ch p).x = cw) ∧
      (0 ≤ p.x + p.dx → p.x + p.dx ≤ cw → (nebulaStep cw ch p).x = p.x + p.dx) ∧
      (ch < p.y + p.dy → (nebulaStep cw ch p).y = 0) ∧
      (p.y + p.dy < 0 → (nebulaStep cw ch p).y = ch) ∧
      (0 ≤ p.y + p.dy → p.y + p.dy ≤ ch → (nebulaStep cw ch p).y = p.y + p.dy) ∧
      (nebulaStep cw ch p).dx = p.dx ∧ (nebulaStep cw ch p).dy = p.dy ∧
      (∀ (q : Nebula α) (ch2 : α), q.x = p.x → q.dx = p.dx →
        (nebulaStep cw ch2 q).x = (nebulaStep cw ch p).x) ∧
      (∀ (q : Nebula α) (cw2 : α), q.y = p.y → q.dy = p.dy →
        (nebulaStep cw2 ch q).y = (nebulaStep cw ch p).y) := by
  obtain ⟨a1, a2, a3⟩ := wrapAxis_spec cw (p.x + p.dx) hw
  obtain ⟨b1, b2, b3⟩ := wrapAxis_spec ch (p.y + p.dy) hh
  refine ⟨a1, a2, a3, b1, b2, b3, rfl, rfl, ?_, ?_⟩
  · intro q ch2 h1 h2
    show wrapAxis cw (q.x + q.dx) = wrapAxis cw (p.x + p.dx)
    rw [h1, h2]
  · intro q cw2 h1 h2
    show wrapAxis ch (q.y + q.dy) = wrapAxis ch (p.y + p.dy)
    rw [h1, h2]

/-- C3, for a particle leaving a 10 by 10 surface on the right and at the top. -/
theorem nebula_wrap_exact_witness :
    (nebulaStep (10 : ℚ) 10 ⟨9.99, 0.01, 1, none, 0.3, 0.02, -0.02, 0⟩).x = 0 ∧
      (nebulaStep (10 : ℚ) 10 ⟨9.99, 0.01, 1, none, 0.3, 0.02, -0.02, 0⟩).y = 10 :=
  have h := nebula_wrap_exact (10 : ℚ) 10 (by norm_num) (by norm_num)
    ⟨9.99, 0.01, 1, none, 0.3, 0.02, -0.02, 0⟩
  ⟨h.1 (by norm_num), h.2.2.2.2.1 (by norm_num)⟩

/-! ## C4: cloud respawn -/

theorem cloudStep_respawn (M : JsMath α) (cw ch : α) (c : Cloud α) (g : Rng α)
    (hout : cw < c.x + c.dx - c.baseW * (1 + M.sin (c.breath + 0.01) * 0.05)) :
    (cloudStep M cw ch c g).1.x = -(c.baseW * (1 + M.sin (c.breath + 0.01) * 0.05)) ∧
      (cloudStep M cw ch c g).1.y = g.get 0 * ch * 0.6 := by
  simp only [cloudStep, gt_iff_lt, if_pos hout, and_self]

theorem cloudStep_stay (M : JsMath α) (cw ch : α) (c : Cloud α) (g : Rng α)
    (hin : ¬ cw < c.x + c.dx - c.baseW * (1 + M.sin (c.breath + 0.01) * 0.05)) :
    (cloudStep M cw ch c g).1.x = c.x + c.dx ∧ (cloudStep M cw ch c g).1.y = c.y := by
  simp only [cloudStep, gt_iff_lt, if_neg hin, and_self]

/-- C4 as stated fails: the cloud `cloudAtRightEdge` has its right edge `x + w = 180`
beyond the canvas width 150, and after the next daytime step its `x` is `100.1`, not
negative. -/
theorem cloud_right_edge_counterexample :
    (cloudAtRightEdge ℝ).x + (cloudAtRightEdge ℝ).w > 150 ∧
      (cloudStep realMath 150 100 (cloudAtRightEdge ℝ) ⟨fun _ => 1 / 2, 0⟩).1.x = 100.1 ∧
      ¬ (cloudStep realMath 150 100 (cloudAtRightEdge ℝ) ⟨fun _ => 1 / 2, 0⟩).1.x < 0 := by
  have hs : (-1 : ℝ) ≤ Real.sin ((cloudAtRightEdge ℝ).breath + 0.01) := Real.neg_one_le_sin _
  have hin : ¬ (150 : ℝ) < (cloudAtRightEdge ℝ).x + (cloudAtRightEdge ℝ).dx -
      (cloudAtRightEdge ℝ).baseW *
        (1 + realMath.sin ((cloudAtRightEdge ℝ).breath + 0.01) * 0.05) := by
    simp only [cloudAtRightEdge, realMath] at hs ⊢
    norm_num at hs ⊢
    linarith
  have hx := (cloudStep_stay realMath 150 100 (cloudAtRightEdge ℝ) ⟨fun _ => 1 / 2, 0⟩ hin).1
  refine ⟨?_, ?_, ?_⟩
  · simp only [cloudAtRightEdge]; norm_num
  · rw [hx]; simp only [cloudAtRightEdge]; norm_num
  · rw [hx]; simp only [cloudAtRightEdge]; norm_num

/-- C4, amended. A daytime cloud update step advances `x` by `dx` and recomputes the
width `w' = baseW * (1 + 0.05 * sin(breath + 0.01))`. For a cloud of positive base
width: if `x + dx - w'` exceeds the canvas width, the step leaves `x = -w' < 0` and
`y` within `[0, 0.6 * height]`; otherwise the cloud is not respawned (`x` is `x + dx`
and `y` is kept). -/
theorem cloud_respawn_when_gone (M : JsMath α) (hsin : ∀ t, -1 ≤ M.sin t ∧ M.sin t ≤ 1)
    (cw ch : α) (hh : 0 ≤ ch) (c : Cloud α) (hb : 0 < c.baseW) (g : Rng α) (hg : g.Unit) :
    (cw < c.x + c.dx - c.baseW * (1 + M.sin (c.breath + 0.01) * 0.05) →
        (cloudStep M cw ch c g).1.x = -(c.baseW * (1 + M.sin (c.breath + 0.01) * 0.05)) ∧
        (cloudStep M cw ch c g).1.x < 0 ∧
        0 ≤ (cloudStep M cw ch c g).1.y ∧ (cloudStep M cw ch c g).1.y ≤ 0.6 * ch) ∧
      (¬ cw < c.x + c.dx - c.baseW * (1 + M.sin (c.breath + 0.01) * 0.05) →
        (cloudStep M cw ch c g).1.x = c.x + c.dx ∧ (cloudStep M cw ch c g).1.y = c.y) := by
  refine ⟨fun hout => ?_, fun hin => cloudStep_stay M cw ch c g hin⟩
  obtain ⟨hx, hy⟩ := cloudStep_respawn M cw ch c g hout
  have h0 := hg.get_nonneg 0
  have h1 := hg.get_lt_one 0
  have hpos : 0 < c.baseW * (1 + M.sin (c.breath + 0.01) * 0.05) := by
    apply mul_pos hb
    have := (hsin (c.breath + 0.01)).1
    norm_num
    linarith
  refine ⟨hx, by rw [hx]; linarith, ?_, ?_⟩
  · rw [hy]
    exact mul_nonneg (mul_nonneg h0 hh) (by norm_num)
  · rw [hy]
    have : g.get 0 * ch ≤ ch := by nlinarith
    norm_num
    linarith

/-- C4 amended, for the cloud `cloudGone` on a canvas 150 wide and 100 high. -/
theorem cloud_respawn_when_gone_witness :
    (cloudStep realMath 150 100 (cloudGone ℝ) ⟨fun _ => 1 / 2, 0⟩).1.x < 0 ∧
      0 ≤ (cloudStep realMath 150 100 (cloudGone ℝ) ⟨fun _ => 1 / 2, 0⟩).1.y ∧
      (cloudStep realMath 150 100 (cloudGone ℝ) ⟨fun _ => 1 / 2, 0⟩).1.y ≤ 0.6 * 100 :=
  have hs : Real.sin ((cloudGone ℝ).breath + 0.01) ≤ 1 := Real.sin_le_one _
  have h := (cloud_respawn_when_gone realMath
    (fun t => ⟨Real.neg_one_le_sin t, Real.sin_le_one t⟩) 150 100 (by norm_num)
    (cloudGone ℝ) (by simp only [cloudGone]; norm_num) ⟨fun _ => 1 / 2, 0⟩
    (fun _ => by show (0 : ℝ) ≤ 1 / 2 ∧ (1 / 2 : ℝ) < 1; norm_num)).1
    (by
      simp only [cloudGone, realMath] at hs ⊢
      norm_num at hs ⊢
      linarith)
  h.2

/-! ## C5 and C6: the interactive particle near to and far from the cursor -/

theorem sqrt_scaled (k a b : ℝ) (hk : 0 ≤ k) :
    Real.sqrt (k * a * (k * a) + k * b * (k * b)) = k * Real.sqrt (a * a + b * b) := by
  have h : k * a * (k * a) + k * b * (k * b) = k ^ 2 * (a * a + b * b) := by ring
  rw [h, Real.sqrt_mul (sq_nonneg k), Real.sqrt_sq hk]

/-- In the repulsion branch the particle ends at distance `d + 2 * (100 - d) / 100`
from the cursor. -/
theorem repulsion_distance (mx my : ℝ) (p : Interactive ℝ)
    (hpos : 0 < distTo realMath mx my p.x p.y) (hlt : distTo realMath mx my p.x p.y < 100) :
    distTo realMath mx my (interactiveStep realMath mx my p).x
        (interactiveStep realMath mx my p).y =
      distTo realMath mx my p.x p.y + 2 * ((100 - distTo realMath mx my p.x p.y) / 100) := by
  have hd : distTo realMath mx my p.x p.y =
      Real.sqrt ((mx - p.x) * (mx - p.x) + (my - p.y) * (my - p.y)) := rfl
  have hstep : (interactiveStep realMath mx my p).x =
        p.x - ((mx - p.x) / distTo realMath mx my p.x p.y) *
          ((100 - distTo realMath mx my p.x p.y) / 100) * 2 ∧
      (interactiveStep realMath mx my p).y =
        p.y - ((my - p.y) / distTo realMath mx my p.x p.y) *
          ((100 - distTo realMath mx my p.x p.y) / 100) * 2 := by
    rw [hd] at hlt ⊢
    simp only [interactiveStep, realMath, if_pos hlt, and_self]
  set d := distTo realMath mx my p.x p.y with hdd
  have hk : 0 ≤ 1 + 2 * ((100 - d) / 100) / d := by
    have : 0 ≤ 2 * ((100 - d) / 100) / d := by
      apply div_nonneg _ hpos.le
      linarith
    linarith
  have e1 : mx - (interactiveStep realMath mx my p).x =
      (1 + 2 * ((100 - d) / 100) / d) * (mx - p.x) := by
    rw [hstep.1]; field_simp; ring
  have e2 : my - (interactiveStep realMath mx my p).y =
      (1 + 2 * ((100 - d) / 100) / d) * (my - p.y) := by
    rw [hstep.2]; field_simp; ring
  have hgoal : distTo realMath mx my (interactiveStep realMath mx my p).x
      (interactiveStep realMath mx my p).y =
      Real.sqrt ((mx - (interactiveStep realMath mx my p).x) *
          (mx - (interactiveStep realMath mx my p).x) +
        (my - (interactiveStep realMath mx my p).y) *
          (my - (interactiveStep realMath mx my p).y)) := rfl
  rw [hgoal, e1, e2, sqrt_scaled _ _ _ hk, ← hd]
  field_simp
  ring

theorem dist_origin_three_four :
    distTo realMath 3 4 (particleAtOrigin ℝ).x (particleAtOrigin ℝ).y = 5 := by
  show Real.sqrt ((3 - 0) * (3 - 0) + (4 - 0) * (4 - 0)) = 5
  rw [show ((3 : ℝ) - 0) * (3 - 0) + (4 - 0) * (4 - 0) = 5 ^ 2 by norm_num]
  exact Real.sqrt_sq (by norm_num)

/-- C5 as stated fails: with the particle at the origin and the cursor at `(3, 4)`,
at distance 5, one update step leaves the particle at distance `6.9` from the cursor:
the distance has grown, not shrunk. -/
theorem repulsion_counterexample :
    0 < distTo realMath 3 4 (particleAtOrigin ℝ).x (particleAtOrigin ℝ).y ∧
      distTo realMath 3 4 (particleAtOrigin ℝ).x (particleAtOrigin ℝ).y < 100 ∧
      distTo realMath 3 4 (interactiveStep realMath 3 4 (particleAtOrigin ℝ)).x
        (interactiveStep realMath 3 4 (particleAtOrigin ℝ)).y = 6.9 ∧
      ¬ distTo realMath 3 4 (interactiveStep realMath 3 4 (particleAtOrigin ℝ)).x
          (interactiveStep realMath 3 4 (particleAtOrigin ℝ)).y <
        distTo realMath 3 4 (particleAtOrigin ℝ).x (particleAtOrigin ℝ).y := by
  have h5 := dist_origin_three_four
  have h := repulsion_distance 3 4 (particleAtOrigin ℝ) (by rw [h5]; norm_num)
    (by rw [h5]; norm_num)
  rw [h5] at h
  rw [h, h5]
  norm_num

/-- C5, amended. For a cursor at distance `d` from the particle with `0 < d < 100`,
one update step strictly increases the distance from the particle to the cursor
(compared with the particle left unmoved). -/
theorem repulsion_increases_distance (mx my : ℝ) (p : Interactive ℝ)
    (hpos : 0 < distTo realMath mx my p.x p.y) (hlt : distTo realMath mx my p.x p.y < 100) :
    distTo realMath mx my p.x p.y <
      distTo realMath mx my (interactiveStep realMath mx my p).x
        (interactiveStep realMath mx my p).y := by
  rw [repulsion_distance mx my p hpos hlt]
  linarith

/-- C5 amended, for the particle at the origin and the cursor at `(3, 4)`. -/
theorem repulsion_increases_distance_witness :
    distTo realMath 3 4 (particleAtOrigin ℝ).x (particleAtOrigin ℝ).y <
      distTo realMath 3 4 (interactiveStep realMath 3 4 (particleAtOrigin ℝ)).x
        (interactiveStep realMath 3 4 (particleAtOrigin ℝ)).y :=
  repulsion_increases_distance 3 4 (particleAtOrigin ℝ)
    (by rw [dist_origin_three_four]; norm_num) (by rw [dist_origin_three_four]; norm_num)

/-- In the return branch each coordinate moves 2% of the way to the home. -/
theorem interactiveStep_far (mx my : ℝ) (p : Interactive ℝ)
    (hfar : 100 ≤ distTo realMath mx my p.x p.y) :
    (interactiveStep realMath mx my p).x = p.x + (p.baseX - p.x) * 0.02 ∧
      (interactiveStep realMath mx my p).y = p.y + (p.baseY - p.y) * 0.02 ∧
      (interactiveStep realMath mx my p).baseX = p.baseX ∧
      (interactiveStep realMath mx my p).baseY = p.baseY := by
  have h : ¬ Real.sqrt ((mx - p.x) * (mx - p.x) + (my - p.y) * (my - p.y)) < 100 :=
    not_lt.2 hfar
  simp only [interactiveStep, realMath, if_neg h, and_self]

/-- The offsets to the home after `m` far frames. -/
theorem interactiveRun_far (mouse : Nat → ℝ × ℝ) (p : Interactive ℝ) (n : Nat)
    (hfar : ∀ i, i < n → 100 ≤ distTo realMath (mouse i).1 (mouse i).2
      (interactiveRun realMath mouse i p).x (interactiveRun realMath mouse i p).y) :
    ∀ m, m ≤ n →
      (interactiveRun realMath mouse m p).baseX = p.baseX ∧
      (interactiveRun realMath mouse m p).baseY = p.baseY ∧
      (interactiveRun realMath mouse m p).baseX - (interactiveRun realMath mouse m p).x =
        0.98 ^ m * (p.baseX - p.x) ∧
      (interactiveRun realMath mouse m p).baseY - (interactiveRun realMath mouse m p).y =
        0.98 ^ m * (p.baseY - p.y) := by
  intro m
  induction m with
  | zero => intro _; simp [interactiveRun]
  | succ k ih =>
    intro hk
    obtain ⟨b1, b2, o1, o2⟩ := ih (Nat.le_of_succ_le hk)
    obtain ⟨s1, s2, s3, s4⟩ := interactiveStep_far (mouse k).1 (mouse k).2
      (interactiveRun realMath mouse k p) (hfar k hk)
    show (interactiveStep realMath (mouse k).1 (mouse k).2
        (interactiveRun realMath mouse k p)).baseX = p.baseX ∧ _
    refine ⟨s3.trans b1, s4.trans b2, ?_, ?_⟩
    · show (interactiveStep realMath (mouse k).1 (mouse k).2
        (interactiveRun realMath mouse k p)).baseX - (interactiveStep realMath (mouse k).1
        (mouse k).2 (interactiveRun realMath mouse k p)).x = _
      rw [s1, s3, pow_succ]
      linear_combination (0.98 : ℝ) * o1
    · show (interactiveStep realMath (mouse k).1 (mouse k).2
        (interactiveRun realMath mouse k p)).baseY - (interactiveStep realMath (mouse k).1
        (mouse k).2 (interactiveRun realMath mouse k p)).y = _
      rw [s2, s4, pow_succ]
      linear_combination (0.98 : ℝ) * o2

/-- The distance to the home after `m` far frames. -/
theorem interactiveRun_far_dist (mouse : Nat → ℝ × ℝ) (p : Interactive ℝ) (n : Nat)
    (hfar : ∀ i, i < n → 100 ≤ distTo realMath (mouse i).1 (mouse i).2
      (interactiveRun realMath mouse i p).x (interactiveRun realMath mouse i p).y)
    (m : Nat) (hm : m ≤ n) :
    distTo realMath (interactiveRun realMath mouse m p).baseX
        (interactiveRun realMath mouse m p).baseY (interactiveRun realMath mouse m p).x
        (interactiveRun realMath mouse m p).y =
      0.98 ^ m * distTo realMath p.baseX p.baseY p.x p.y := by
  obtain ⟨-, -, o1, o2⟩ := interactiveRun_far mouse p n hfar m hm
  show Real.sqrt (_ * _ + _ * _) = _ * Real.sqrt (_ * _ + _ * _)
  rw [o1, o2]
  exact sqrt_scaled _ _ _ (by positivity)

/-- C6. While the cursor stays at distance at least 100 from the particle in each of
`n` consecutive update steps (the steps never change the home), after `m ≤ n` steps
the offset from the particle to its home is exactly `0.98 ^ m` times the initial
offset on each axis, and so is the distance to the home; hence the distance to the
home is non-increasing from step to step, strictly decreasing while non-zero, and
never becomes `0` if it was non-zero initially. -/
theorem ease_home_geometric (mouse : Nat → ℝ × ℝ) (p : Interactive ℝ) (n : Nat)
    (hfar : ∀ i, i < n → 100 ≤ distTo realMath (mouse i).1 (mouse i).2
      (interactiveRun realMath mouse i p).x (interactiveRun realMath mouse i p).y) :
    (∀ m, m ≤ n →
      (interactiveRun realMath mouse m p).baseX = p.baseX ∧
      (interactiveRun realMath mouse m p).baseY = p.baseY ∧
      (interactiveRun realMath mouse m p).baseX - (interactiveRun realMath mouse m p).x =
        0.98 ^ m * (p.baseX - p.x) ∧
      (interactiveRun realMath mouse m p).baseY - (interactiveRun realMath mouse m p).y =
        0.98 ^ m * (p.baseY - p.y) ∧
      distTo realMath (interactiveRun realMath mouse m p).baseX
          (interactiveRun realMath mouse m p).baseY (interactiveRun realMath mouse m p).x
          (interactiveRun realMath mouse m p).y =
        0.98 ^ m * distTo realMath p.baseX p.baseY p.x p.y ∧
      (distTo realMath p.baseX p.baseY p.x p.y ≠ 0 →
        distTo realMath (interactiveRun realMath mouse m p).baseX
          (interactiveRun realMath mouse m p).baseY (interactiveRun realMath mouse m p).x
          (interactiveRun realMath mouse m p).y ≠ 0)) ∧
    (∀ m, m < n →
      distTo realMath (interactiveRun realMath mouse (m + 1) p).baseX
          (interactiveRun realMath mouse (m + 1) p).baseY
          (interactiveRun realMath mouse (m + 1) p).x
          (interactiveRun realMath mouse (m + 1) p).y ≤
        distTo realMath (interactiveRun realMath mouse m p).baseX
          (interactiveRun realMath mouse m p).baseY (interactiveRun realMath mouse m p).x
          (interactiveRun realMath mouse m p).y ∧
      (distTo realMath (interactiveRun realMath mouse m p).baseX
          (interactiveRun realMath mouse m p).baseY (interactiveRun realMath mouse m p).x
          (interactiveRun realMath mouse m p).y ≠ 0 →
        distTo realMath (interactiveRun realMath mouse (m + 1) p).baseX
            (interactiveRun realMath mouse (m + 1) p).baseY
            (interactiveRun realMath mouse (m + 1) p).x
            (interactiveRun realMath mouse (m + 1) p).y <
          distTo realMath (interactiveRun realMath mouse m p).baseX
            (interactiveRun realMath mouse m p).baseY (interactiveRun realMath mouse m p).x
            (interactiveRun realMath mouse m p).y)) := by
  have hd0 : 0 ≤ distTo realMath p.baseX p.baseY p.x p.y := Real.sqrt_nonneg _
  constructor
  · intro m hm
    obtain ⟨b1, b2, o1, o2⟩ := interactiveRun_far mouse p n hfar m hm
    refine ⟨b1, b2, o1, o2, interactiveRun_far_dist mouse p n hfar m hm, fun hne => ?_⟩
    rw [interactiveRun_far_dist mouse p n hfar m hm]
    exact mul_ne_zero (pow_ne_zero _ (by norm_num)) hne
  · intro m hm
    rw [interactiveRun_far_dist mouse p n hfar (m + 1) hm,
      interactiveRun_far_dist mouse p n hfar m hm.le, pow_succ]
    have hp : (0 : ℝ) < 0.98 ^ m := by positivity
    have hnn : 0 ≤ 0.98 ^ m * distTo realMath p.baseX p.baseY p.x p.y := mul_nonneg hp.le hd0
    constructor
    · nlinarith
    · intro hne
      have hpos : 0 < 0.98 ^ m * distTo realMath p.baseX p.baseY p.x p.y :=
        lt_of_le_of_ne hnn (Ne.symm hne)
      nlinarith

/-- C6, for the particle at the origin with home `(10, 0)`, the cursor resting at
`(1000, 0)`, over one step. -/
theorem ease_home_geometric_witness :
    (interactiveRun realMath (fun _ => (1000, 0)) 1 (particleAtOrigin ℝ)).baseX -
        (interactiveRun realMath (fun _ => (1000, 0)) 1 (particleAtOrigin ℝ)).x =
      0.98 ^ 1 * ((particleAtOrigin ℝ).baseX - (particleAtOrigin ℝ).x) :=
  ((ease_home_geometric (fun _ => (1000, 0)) (particleAtOrigin ℝ) 1 (by
    intro i hi
    have hi0 : i = 0 := by omega
    subst hi0
    show (100 : ℝ) ≤ Real.sqrt ((1000 - 0) * (1000 - 0) + (0 - 0) * (0 - 0))
    rw [show ((1000 : ℝ) - 0) * (1000 - 0) + (0 - 0) * (0 - 0) = 1000 ^ 2 by norm_num,
      Real.sqrt_sq (by norm_num)]
    norm_num)).1 1 le_rfl).2.2.1

/-! ## What the initialisers and the animators leave untouched -/

theorem SameShell.refl (s : Page α) : SameShell s s :=
  ⟨rfl, rfl, rfl, rfl, rfl, rfl, rfl, rfl, rfl, rfl⟩

theorem SameShell.trans {s t u : Page α} (h1 : SameShell s t) (h2 : SameShell t u) :
    SameShell s u := by
  obtain ⟨a1, a2, a3, a4, a5, a6, a7, a8, a9, a10⟩ := h1
  obtain ⟨b1, b2, b3, b4, b5, b6, b7, b8, b9, b10⟩ := h2
  exact ⟨b1.trans a1, b2.trans a2, b3.trans a3, b4.trans a4, b5.trans a5, b6.trans a6,
    b7.trans a7, b8.trans a8, b9.trans a9, b10.trans a10⟩

theorem forPush_draws {P : Type} (mk : Rng α → P × Rng α)
    (hmk : ∀ g : Rng α, (mk g).2.draws = g.draws) (n : Nat) :
    ∀ (acc : List P) (g : Rng α), (forPush mk n acc g).2.draws = g.draws := by
  induction n with
  | zero => intro acc g; rfl
  | succ n ih =>
    intro acc g
    rw [forPush, ih, hmk]

theorem cloudStep_draws (M : JsMath α) (cw ch : α) (c : Cloud α) (g : Rng α) :
    (cloudStep M cw ch c g).2.draws = g.draws := by
  unfold cloudStep
  simp only []
  split <;> rfl

theorem cloudsFrame_spec (M : JsMath α) (cw ch : α) (cs : List (Cloud α)) :
    ∀ g : Rng α, (cloudsFrame M cw ch cs g).1.length = cs.length ∧
      (cloudsFrame M cw ch cs g).2.draws = g.draws := by
  induction cs with
  | nil => intro g; exact ⟨rfl, rfl⟩
  | cons c cs ih =>
    intro g
    obtain ⟨h1, h2⟩ := ih (cloudStep M cw ch c g).2
    refine ⟨?_, ?_⟩
    · show ((cloudsFrame M cw ch cs (cloudStep M cw ch c g).2).1.length + 1 = cs.length + 1)
      rw [h1]
    · show (cloudsFrame M cw ch cs (cloudStep M cw ch c g).2).2.draws = g.draws
      rw [h2, cloudStep_draws]

theorem nudgeHomes_spec (M : JsMath α) (cx cy : α) (ps : List (Interactive α)) :
    ∀ g : Rng α, (nudgeHomes M cx cy ps g).1.length = ps.length ∧
      (nudgeHomes M cx cy ps g).2.draws = g.draws := by
  induction ps with
  | nil => intro g; exact ⟨rfl, rfl⟩
  | cons p ps ih =>
    intro g
    unfold nudgeHomes
    split
    · obtain ⟨h1, h2⟩ := ih (g.drop 2)
      exact ⟨by simp [h1], by simpa using h2⟩
    · obtain ⟨h1, h2⟩ := ih g
      exact ⟨by simp [h1], by simpa using h2⟩

theorem initStars_shell (M : JsMath α) (s : Page α) :
    SameShell s (initStars M s).state ∧ (initStars M s).state.scheduled = s.scheduled := by
  unfold initStars
  simp only []
  split
  · exact ⟨⟨rfl, rfl, rfl, rfl, rfl, rfl, rfl, rfl, rfl, rfl⟩, rfl⟩
  · exact ⟨⟨rfl, rfl, rfl, rfl, rfl, rfl, rfl, rfl, rfl,
      forPush_draws _ (fun _ => rfl) _ _ _⟩, rfl⟩

theorem initNebula_shell (M : JsMath α) (s : Page α) :
    SameShell s (initNebula M s).state ∧ (initNebula M s).state.scheduled = s.scheduled := by
  unfold initNebula
  simp only []
  split
  · exact ⟨⟨rfl, rfl, rfl, rfl, rfl, rfl, rfl, rfl, rfl, rfl⟩, rfl⟩
  · exact ⟨⟨rfl, rfl, rfl, rfl, rfl, rfl, rfl, rfl, rfl,
      forPush_draws _ (fun _ => rfl) _ _ _⟩, rfl⟩

theorem initClouds_shell (M : JsMath α) (s : Page α) :
    SameShell s (initClouds M s).state ∧ (initClouds M s).state.scheduled = s.scheduled := by
  unfold initClouds
  simp only []
  split
  · exact ⟨⟨rfl, rfl, rfl, rfl, rfl, rfl, rfl, rfl, rfl, rfl⟩, rfl⟩
  · rename_i c _
    have hd := forPush_draws (newCloud M c.width c.height) (fun _ => rfl) 25 [] s.rng
    generalize forPush (newCloud M c.width c.height) 25 [] s.rng = out at hd ⊢
    exact ⟨⟨rfl, rfl, rfl, rfl, rfl, rfl, rfl, rfl, rfl, hd⟩, rfl⟩

theorem initInteractive_shell (M : JsMath α) (s : Page α) :
    SameShell s (initInteractiveParticles M s).state ∧
      (initInteractiveParticles M s).state.scheduled = s.scheduled := by
  unfold initInteractiveParticles
  simp only []
  split
  · exact ⟨⟨rfl, rfl, rfl, rfl, rfl, rfl, rfl, rfl, rfl, rfl⟩, rfl⟩
  · exact ⟨⟨rfl, rfl, rfl, rfl, rfl, rfl, rfl, rfl, rfl,
      forPush_draws _ (fun _ => rfl) _ _ _⟩, rfl⟩

theorem animateStars_shell (s : Page α) :
    SameShell s (animateStars s) ∧
      (animateStars s).scheduled = s.scheduled ++ [Animator.stars] ∧
      counts (animateStars s) = counts s := by
  unfold animateStars requestFrame
  split
  · exact ⟨SameShell.refl s, rfl, rfl⟩
  · split
    · exact ⟨SameShell.refl s, rfl, rfl⟩
    · exact ⟨⟨rfl, rfl, rfl, rfl, rfl, rfl, rfl, rfl, rfl, rfl⟩, rfl, by simp [counts]⟩

theorem animateNebula_shell (s : Page α) :
    SameShell s (animateNebula s) ∧
      (animateNebula s).scheduled = s.scheduled ++ [Animator.nebula] ∧
      counts (animateNebula s) = counts s := by
  unfold animateNebula requestFrame
  split
  · exact ⟨SameShell.refl s, rfl, rfl⟩
  · split
    · exact ⟨SameShell.refl s, rfl, rfl⟩
    · exact ⟨⟨rfl, rfl, rfl, rfl, rfl, rfl, rfl, rfl, rfl, rfl⟩, rfl, by simp [counts]⟩

theorem animateClouds_shell (M : JsMath α) (s : Page α) :
    SameShell s (animateClouds M s) ∧
      (animateClouds M s).scheduled = s.scheduled ++ [Animator.clouds] ∧
      counts (animateClouds M s) = counts s := by
  unfold animateClouds requestFrame
  split
  · exact ⟨SameShell.refl s, rfl, rfl⟩
  · rename_i c _
    split
    · exact ⟨SameShell.refl s, rfl, rfl⟩
    · split
      · obtain ⟨h1, h2⟩ := cloudsFrame_spec M c.width c.height s.clouds s.rng
        exact ⟨⟨rfl, rfl, rfl, rfl, rfl, rfl, rfl, rfl, rfl, h2⟩, rfl, by simp [counts, h1]⟩
      · exact ⟨SameShell.refl s, rfl, rfl⟩

theorem animateInteractive_shell (M : JsMath α) (s : Page α) :
    SameShell s (animateInteractiveParticles M s) ∧
      (animateInteractiveParticles M s).scheduled = s.scheduled ++ [Animator.interactive] ∧
      counts (animateInteractiveParticles M s) = counts s := by
  unfold animateInteractiveParticles requestFrame
  split
  · exact ⟨SameShell.refl s, rfl, rfl⟩
  · split
    · exact ⟨SameShell.refl s, rfl, rfl⟩
    · exact ⟨⟨rfl, rfl, rfl, rfl, rfl, rfl, rfl, rfl, rfl, rfl⟩, rfl, by simp [counts]⟩

/-- A guarded animator call: the loop is requested exactly when the canvas is usable. -/
theorem guarded_spec (c : Page α → Option (Canvas α)) (f : Page α → Page α)
    (a : Animator)
    (hf : ∀ s, SameShell s (f s) ∧ (f s).scheduled = s.scheduled ++ [a] ∧
      counts (f s) = counts s) (s : Page α) :
    SameShell s (guarded c f s) ∧
      (guarded c f s).scheduled = s.scheduled ++ (if usable (c s) then [a] else []) ∧
      counts (guarded c f s) = counts s := by
  unfold guarded
  split
  · exact hf s
  · exact ⟨SameShell.refl s, by simp, rfl⟩

theorem loopsStarted_congr {s t : Page α} (h : SameShell s t) :
    loopsStarted t = loopsStarted s := by
  obtain ⟨-, -, a3, -, -, a6, a7, a8, a9, -⟩ := h
  unfold loopsStarted
  rw [a3, a6, a7, a8, a9]

/-- The loops `setupCanvas` starts are those of the usable canvases, and none when the
reduced-motion preference is set. -/
theorem startLoops_spec (M : JsMath α) (s : Page α) :
    SameShell s (startLoops M s) ∧
      (startLoops M s).scheduled = s.scheduled ++ loopsStarted s ∧
      counts (startLoops M s) = counts s := by
  unfold startLoops loopsStarted
  cases hr : s.isReducedMotion
  · obtain ⟨p1, q1, r1⟩ := guarded_spec Page.starCanvas animateStars _ animateStars_shell s
    obtain ⟨p2, q2, r2⟩ := guarded_spec Page.nebulaCanvas animateNebula _ animateNebula_shell
      (guarded Page.starCanvas animateStars s)
    obtain ⟨p3, q3, r3⟩ := guarded_spec Page.cloudCanvas (animateClouds M) _
      (animateClouds_shell M) (guarded Page.nebulaCanvas animateNebula
        (guarded Page.starCanvas animateStars s))
    obtain ⟨p4, q4, r4⟩ := guarded_spec Page.particleCanvas (animateInteractiveParticles M) _
      (animateInteractive_shell M) (guarded Page.cloudCanvas (animateClouds M)
        (guarded Page.nebulaCanvas animateNebula (guarded Page.starCanvas animateStars s)))
    have e2 := p1.2.2.2.2.2.2.1
    have e3 := (p1.trans p2).2.2.2.2.2.2.2.1
    have e4 := ((p1.trans p2).trans p3).2.2.2.2.2.2.2.2.1
    rw [e2] at q2
    rw [e3] at q3
    rw [e4] at q4
    refine ⟨((p1.trans p2).trans p3).trans p4, ?_, ?_⟩
    · simp only [Bool.not_false, if_true, Bool.false_eq_true, if_false]
      rw [q4, q3, q2, q1]
      simp only [List.append_assoc]
    · simp only [Bool.not_false, if_true]
      rw [r4, r3, r2, r1]
  · simp [SameShell.refl]

theorem usable_some {c : Option (Canvas α)} (h : usable c = true) : ∃ cv, c = some cv := by
  cases c with
  | none => simp [usable] at h
  | some cv => exact ⟨cv, rfl⟩

theorem initStars_normal (M : JsMath α) (s : Page α) (c : Canvas α)
    (hc : s.starCanvas = some c) : ∃ t, initStars M s = .normal t := by
  simp only [initStars, hc]
  exact ⟨_, rfl⟩

theorem initNebula_normal (M : JsMath α) (s : Page α) (c : Canvas α)
    (hc : s.nebulaCanvas = some c) : ∃ t, initNebula M s = .normal t := by
  simp only [initNebula, hc]
  exact ⟨_, rfl⟩

theorem initClouds_normal (M : JsMath α) (s : Page α) (c : Canvas α)
    (hc : s.cloudCanvas = some c) : ∃ t, initClouds M s = .normal t := by
  simp only [initClouds, hc]
  exact ⟨_, rfl⟩

theorem initInteractive_normal (M : JsMath α) (s : Page α) (c : Canvas α)
    (hc : s.particleCanvas = some c) : ∃ t, initInteractiveParticles M s = .normal t := by
  simp only [initInteractiveParticles, hc]
  exact ⟨_, rfl⟩

/-- A guarded initialiser call never throws. -/
theorem guardedInit_spec (c : Page α → Option (Canvas α))
    (f : Page α → Completion (Page α))
    (hn : ∀ s cv, c s = some cv → ∃ t, f s = .normal t)
    (hf : ∀ s, SameShell s (f s).state ∧ (f s).state.scheduled = s.scheduled) (s : Page α) :
    ∃ t, guardedInit c f s = .normal t ∧ SameShell s t ∧ t.scheduled = s.scheduled := by
  unfold guardedInit
  split
  · rename_i h
    obtain ⟨cv, hcv⟩ := usable_some h
    obtain ⟨t, ht⟩ := hn s cv hcv
    have := hf s
    rw [ht] at this
    exact ⟨t, ht, this⟩
  · exact ⟨s, rfl, SameShell.refl s, rfl⟩

theorem resizeAllCanvas_usable (s : Page α) :
    usable (resizeAllCanvas s).starCanvas = usable s.starCanvas ∧
      usable (resizeAllCanvas s).nebulaCanvas = usable s.nebulaCanvas ∧
      usable (resizeAllCanvas s).cloudCanvas = usable s.cloudCanvas ∧
      usable (resizeAllCanvas s).particleCanvas = usable s.particleCanvas := by
  refine ⟨?_, ?_, ?_, ?_⟩
  · show usable (resizeCanvas _ _ s.starCanvas) = _
    cases s.starCanvas <;> rfl
  · show usable (resizeCanvas _ _ s.nebulaCanvas) = _
    cases s.nebulaCanvas <;> rfl
  · show usable (resizeCanvas _ _ s.cloudCanvas) = _
    cases s.cloudCanvas <;> rfl
  · show usable (resizeCanvas _ _ s.particleCanvas) = _
    cases s.particleCanvas <;> rfl

/-- The function `setupCanvas` never throws; it touches only the canvas sizes, the
collections, the random source and the frame requests, and starts the loops of the
usable canvases. -/
theorem setupCanvas_spec (M : JsMath α) (s : Page α) :
    ∃ t, setupCanvas M s = .normal t ∧ SameShell (resizeAllCanvas s) t ∧
      t.scheduled = s.scheduled ++ loopsStarted (resizeAllCanvas s) := by
  obtain ⟨t1, e1, p1, q1⟩ := guardedInit_spec Page.starCanvas (initStars M)
    (fun s cv h => initStars_normal M s cv h) (initStars_shell M) (resizeAllCanvas s)
  obtain ⟨t2, e2, p2, q2⟩ := guardedInit_spec Page.nebulaCanvas (initNebula M)
    (fun s cv h => initNebula_normal M s cv h) (initNebula_shell M) t1
  obtain ⟨t3, e3, p3, q3⟩ := guardedInit_spec Page.cloudCanvas (initClouds M)
    (fun s cv h => initClouds_normal M s cv h) (initClouds_shell M) t2
  obtain ⟨t4, e4, p4, q4⟩ := guardedInit_spec Page.particleCanvas (initInteractiveParticles M)
    (fun s cv h => initInteractive_normal M s cv h) (initInteractive_shell M) t3
  obtain ⟨p5, q5, -⟩ := startLoops_spec M t4
  have hsh : SameShell (resizeAllCanvas s) t4 := ((p1.trans p2).trans p3).trans p4
  refine ⟨startLoops M t4, ?_, hsh.trans p5, ?_⟩
  · simp only [setupCanvas, e1, e2, e3, e4, Completion.andThen]
  · rw [q5, q4, q3, q2, q1, loopsStarted_congr hsh]
    rfl

/-! ## C7: a missing canvas -/

/-- Without the star canvas, `init` on a fresh page ends in its `catch` clause: the
page stays uninitialised and the error toast is shown, after `setupCanvas` has started
the loops of the usable canvases. -/
theorem init_missing_star (M : JsMath α) (s : Page α) (h0 : s.initialized = false)
    (hs : s.starCanvas = none) (ht : s.toastContainer = true) :
    (init M s).initialized = false ∧
      (init M s).toasts = s.toasts ++ [(initErrorMessage, "error")] ∧
      (init M s).scheduled =
        s.scheduled ++ loopsStarted (resizeAllCanvas (setupEventListeners s)) := by
  obtain ⟨t, et, ⟨a1, -, -, a4, a5, a6, -, -, -, -⟩, q⟩ :=
    setupCanvas_spec M (setupEventListeners s)
  have hstar : t.starCanvas = none := by
    rw [a6]
    show resizeCanvas _ _ s.starCanvas = none
    rw [hs]
    rfl
  have hbody : initBody M s =
      .thrown { t with stars := [], rng := ({ t with stars := [] } : Page α).rng.drop 1 } := by
    simp only [initBody, et, Completion.andThen, initStars, hstar]
  have hinit : init M s = showToast initErrorMessage "error"
      { t with stars := [], rng := ({ t with stars := [] } : Page α).rng.drop 1 } := by
    simp only [init, h0, hbody, Bool.false_eq_true, if_false]
  have htc : t.toastContainer = true := by rw [a4]; exact ht
  rw [hinit]
  simp only [showToast, htc, Bool.not_true, Bool.false_eq_true, if_false]
  exact ⟨by rw [a1]; exact h0, by rw [a5]; rfl, q⟩

/-- C7 fails on the code. On the desktop page without the element `bg-canvas` (the
three other canvases and the toast container present), `init` ends with
`STATE.initialized` still `false` and with the error toast shown: `setupCanvas` skips
the star system and starts the three other loops, but the unguarded call `initStars()`
in `init` then throws at `canvases.star.width`. -/
theorem init_without_star_canvas (M : JsMath ℚ) :
    (init M pageWithoutStarCanvas).initialized = false ∧
      (init M pageWithoutStarCanvas).toasts = [(initErrorMessage, "error")] ∧
      (init M pageWithoutStarCanvas).scheduled = [.nebula, .clouds, .interactive] :=
  init_missing_star M pageWithoutStarCanvas rfl rfl rfl

/-! ## The initialisers on a page that has its canvases -/

theorem newNebula_spec (M : JsMath α) (m : Bool) (cw ch : α) (hw : 0 ≤ cw) (hh : 0 ≤ ch)
    (g : Rng α) (hg : g.Unit) :
    onSurface cw ch (newNebula M m cw ch g).1.x (newNebula M m cw ch g).1.y := by
  have h0 := hg.get_nonneg 0
  have h0' := hg.get_lt_one 0
  have h1 := hg.get_nonneg 1
  have h1' := hg.get_lt_one 1
  refine ⟨mul_nonneg h0 hw, ?_, mul_nonneg h1 hh, ?_⟩
  · show g.get 0 * cw ≤ cw
    nlinarith
  · show g.get 1 * ch ≤ ch
    nlinarith

theorem newCloud_spec (M : JsMath α) (cw ch : α) (hw : 0 ≤ cw) (hh : 0 ≤ ch)
    (g : Rng α) (hg : g.Unit) :
    onSurface cw ch (newCloud M cw ch g).1.x (newCloud M cw ch g).1.y := by
  have h2 := hg.get_nonneg 2
  have h2' := hg.get_lt_one 2
  have h3 := hg.get_nonneg 3
  have h3' := hg.get_lt_one 3
  refine ⟨mul_nonneg h2 hw, ?_, ?_, ?_⟩
  · show g.get 2 * cw ≤ cw
    nlinarith
  · show 0 ≤ g.get 3 * ch * 0.6
    exact mul_nonneg (mul_nonneg h3 hh) (by norm_num)
  · show g.get 3 * ch * 0.6 ≤ ch
    have : g.get 3 * ch ≤ ch := by nlinarith
    norm_num
    linarith

theorem newInteractive_spec (M : JsMath α) (cw ch : α) (hw : 0 ≤ cw) (hh : 0 ≤ ch)
    (g : Rng α) (hg : g.Unit) :
    onSurface cw ch (newInteractive M cw ch g).1.x (newInteractive M cw ch g).1.y := by
  have h0 := hg.get_nonneg 0
  have h0' := hg.get_lt_one 0
  have h1 := hg.get_nonneg 1
  have h1' := hg.get_lt_one 1
  refine ⟨mul_nonneg h0 hw, ?_, mul_nonneg h1 hh, ?_⟩
  · show g.get 0 * cw ≤ cw
    nlinarith
  · show g.get 1 * ch ≤ ch
    nlinarith

/-- The loop of an initialiser: size, random source, and what the loop body
guarantees of each element whenever the surface has non-negative extent. -/
theorem forPush_spec {P : Type} (mk : Rng α → P × Rng α) (R : P → Prop) (n : Nat)
    (g : Rng α) (hdraws : ∀ g : Rng α, g.Unit → (mk g).2.Unit) :
    (forPush mk n [] g).1.length = n ∧ (g.Unit → (forPush mk n [] g).2.Unit) ∧
      ((∀ g : Rng α, g.Unit → R (mk g).1) → g.Unit → ∀ p ∈ (forPush mk n [] g).1, R p) := by
  refine ⟨by simp [forPush_length], fun hg => ?_, fun hR hg => ?_⟩
  · exact (forPush_forall mk (fun _ => True) (fun g hg => ⟨trivial, hdraws g hg⟩) n [] g hg
      (by simp)).2
  · exact (forPush_forall mk R (fun g hg => ⟨hR g hg, hdraws g hg⟩) n [] g hg (by simp)).1

theorem initStars_ok (M : JsMath α) (s : Page α) (c : Canvas α) (hc : s.starCanvas = some c) :
    ∃ L g, initStars M s = .normal { s with stars := L, rng := g } ∧
      L.length = (if s.isMobile then 150 else 400) ∧ (s.rng.Unit → g.Unit) ∧
      (0 ≤ c.width → 0 ≤ c.height → s.rng.Unit →
        ∀ p ∈ L, onSurface c.width c.height p.x p.y) := by
  obtain ⟨h1, h2, h3⟩ := forPush_spec (newStar M s.isMobile c.width c.height)
    (fun p => onSurface c.width c.height p.x p.y) (if s.isMobile then 150 else 400) s.rng
    (fun g hg => hg.drop 7)
  refine ⟨_, _, ?_, h1, h2, fun hw hh => h3 fun g hg => (newStar_spec M _ _ _ hw hh g hg).1.1⟩
  simp only [initStars, hc]

theorem initNebula_ok (M : JsMath α) (s : Page α) (c : Canvas α)
    (hc : s.nebulaCanvas = some c) :
    ∃ L g, initNebula M s = .normal { s with nebula := L, rng := g } ∧
      L.length = (if s.isMobile then 200 else 600) ∧ (s.rng.Unit → g.Unit) ∧
      (0 ≤ c.width → 0 ≤ c.height → s.rng.Unit →
        ∀ p ∈ L, onSurface c.width c.height p.x p.y) := by
  obtain ⟨h1, h2, h3⟩ := forPush_spec (newNebula M s.isMobile c.width c.height)
    (fun p => onSurface c.width c.height p.x p.y) (if s.isMobile then 200 else 600) s.rng
    (fun g hg => hg.drop 8)
  refine ⟨_, _, ?_, h1, h2, fun hw hh => h3 fun g hg => newNebula_spec M _ _ _ hw hh g hg⟩
  simp only [initNebula, hc]

theorem initClouds_ok (M : JsMath α) (s : Page α) (c : Canvas α)
    (hc : s.cloudCanvas = some c) :
    ∃ L g, initClouds M s = .normal { s with clouds := L, rng := g } ∧
      L.length = 25 ∧ (s.rng.Unit → g.Unit) ∧
      (0 ≤ c.width → 0 ≤ c.height → s.rng.Unit →
        ∀ p ∈ L, onSurface c.width c.height p.x p.y) := by
  obtain ⟨h1, h2, h3⟩ := forPush_spec (newCloud M c.width c.height)
    (fun p => onSurface c.width c.height p.x p.y) 25 s.rng (fun g hg => hg.drop 7)
  refine ⟨_, _, ?_, h1, h2, fun hw hh => h3 fun g hg => newCloud_spec M _ _ hw hh g hg⟩
  simp only [initClouds, hc]

theorem initInteractive_ok (M : JsMath α) (s : Page α) (c : Canvas α)
    (hc : s.particleCanvas = some c) :
    ∃ L g, initInteractiveParticles M s = .normal { s with interactive := L, rng := g } ∧
      L.length = (if s.isMobile then 20 else 50) ∧ (s.rng.Unit → g.Unit) ∧
      (0 ≤ c.width → 0 ≤ c.height → s.rng.Unit →
        ∀ p ∈ L, onSurface c.width c.height p.x p.y) := by
  obtain ⟨h1, h2, h3⟩ := forPush_spec (newInteractive M c.width c.height)
    (fun p => onSurface c.width c.height p.x p.y) (if s.isMobile then 20 else 50) s.rng
    (fun g hg => hg.drop 7)
  refine ⟨_, _, ?_, h1, h2, fun hw hh => h3 fun g hg => newInteractive_spec M _ _ hw hh g hg⟩
  simp only [initInteractiveParticles, hc]

theorem Keeps.of_shell {m : Bool} {s t : Page α} (hk : Keeps m s) (h : SameShell s t) :
    Keeps m t := by
  obtain ⟨k1, k2, k3, k4, k5, k6⟩ := hk
  obtain ⟨-, a2, -, -, -, a6, a7, a8, a9, a10⟩ := h
  refine ⟨a2.trans k1, by rw [a6]; exact k2, by rw [a7]; exact k3, by rw [a8]; exact k4,
    by rw [a9]; exact k5, ?_⟩
  intro i
  rw [a10]
  exact k6 i

theorem resizeCanvas_isSome (iw ih : α) (c : Option (Canvas α)) (h : c.isSome = true) :
    ∃ cv, resizeCanvas iw ih c = some cv ∧ cv.width = iw ∧ cv.height = ih := by
  cases c with
  | none => simp at h
  | some cv => exact ⟨_, rfl, rfl, rfl⟩

/-- The four initialisers in sequence on a page that has its four canvases. -/
theorem initParticles_ok (M : JsMath α) (s : Page α) (c1 c2 c3 c4 : Canvas α)
    (h1 : s.starCanvas = some c1) (h2 : s.nebulaCanvas = some c2)
    (h3 : s.cloudCanvas = some c3) (h4 : s.particleCanvas = some c4) :
    ∃ t1 t2 t3 t4, initStars M s = .normal t1 ∧ initNebula M t1 = .normal t2 ∧
      initClouds M t2 = .normal t3 ∧ initInteractiveParticles M t3 = .normal t4 ∧
      SameShell s t4 ∧ counts t4 = fixedCounts s.isMobile ∧
      (s.rng.Unit →
        (0 ≤ c1.width → 0 ≤ c1.height → ∀ p ∈ t4.stars, onSurface c1.width c1.height p.x p.y) ∧
        (0 ≤ c2.width → 0 ≤ c2.height → ∀ p ∈ t4.nebula, onSurface c2.width c2.height p.x p.y) ∧
        (0 ≤ c3.width → 0 ≤ c3.height → ∀ p ∈ t4.clouds, onSurface c3.width c3.height p.x p.y) ∧
        (0 ≤ c4.width → 0 ≤ c4.height →
          ∀ p ∈ t4.interactive, onSurface c4.width c4.height p.x p.y)) := by
  obtain ⟨L1, g1, e1, n1, u1, o1⟩ := initStars_ok M s c1 h1
  obtain ⟨L2, g2, e2, n2, u2, o2⟩ := initNebula_ok M { s with stars := L1, rng := g1 } c2 h2
  obtain ⟨L3, g3, e3, n3, u3, o3⟩ := initClouds_ok M
    { s with stars := L1, nebula := L2, rng := g2 } c3 h3
  obtain ⟨L4, g4, e4, n4, u4, o4⟩ := initInteractive_ok M
    { s with stars := L1, nebula := L2, clouds := L3, rng := g3 } c4 h4
  have p1 := (initStars_shell M s).1
  have p2 := (initNebula_shell M { s with stars := L1, rng := g1 }).1
  have p3 := (initClouds_shell M { s with stars := L1, nebula := L2, rng := g2 }).1
  have p4 := (initInteractive_shell M
    { s with stars := L1, nebula := L2, clouds := L3, rng := g3 }).1
  rw [e1] at p1
  rw [e2] at p2
  rw [e3] at p3
  rw [e4] at p4
  refine ⟨_, _, _, _, e1, e2, e3, e4, ((p1.trans p2).trans p3).trans p4, ?_, ?_⟩
  · show (L1.length, L2.length, L3.length, L4.length) = fixedCounts s.isMobile
    rw [n1, n2, n3, n4]
    rfl
  · intro hg
    exact ⟨fun hw hh => o1 hw hh hg, fun hw hh => o2 hw hh (u1 hg),
      fun hw hh => o3 hw hh (u2 (u1 hg)), fun hw hh => o4 hw hh (u3 (u2 (u1 hg)))⟩

theorem resizeAllCanvas_keeps {m : Bool} {s : Page α} (hk : Keeps m s) :
    Keeps m (resizeAllCanvas s) ∧
      ∃ c1 c2 c3 c4 : Canvas α,
        (resizeAllCanvas s).starCanvas = some c1 ∧ (resizeAllCanvas s).nebulaCanvas = some c2 ∧
        (resizeAllCanvas s).cloudCanvas = some c3 ∧
        (resizeAllCanvas s).particleCanvas = some c4 ∧
        (c1.width = s.innerWidth ∧ c1.height = s.innerHeight) ∧
        (c2.width = s.innerWidth ∧ c2.height = s.innerHeight) ∧
        (c3.width = s.innerWidth ∧ c3.height = s.innerHeight) ∧
        (c4.width = s.innerWidth ∧ c4.height = s.innerHeight) := by
  obtain ⟨k1, k2, k3, k4, k5, k6⟩ := hk
  obtain ⟨c1, e1, w1⟩ := resizeCanvas_isSome s.innerWidth s.innerHeight _ k2
  obtain ⟨c2, e2, w2⟩ := resizeCanvas_isSome s.innerWidth s.innerHeight _ k3
  obtain ⟨c3, e3, w3⟩ := resizeCanvas_isSome s.innerWidth s.innerHeight _ k4
  obtain ⟨c4, e4, w4⟩ := resizeCanvas_isSome s.innerWidth s.innerHeight _ k5
  refine ⟨⟨k1, ?_, ?_, ?_, ?_, k6⟩, c1, c2, c3, c4, e1, e2, e3, e4, w1, w2, w3, w4⟩
  · show (resizeCanvas _ _ s.starCanvas).isSome = true
    rw [e1]; rfl
  · show (resizeCanvas _ _ s.nebulaCanvas).isSome = true
    rw [e2]; rfl
  · show (resizeCanvas _ _ s.cloudCanvas).isSome = true
    rw [e3]; rfl
  · show (resizeCanvas _ _ s.particleCanvas).isSome = true
    rw [e4]; rfl

/-- On a page with its four canvases `handleResize` returns normally, with
collections of the fixed sizes whose particles all lie on the resized surface. -/
theorem handleResize_spec (M : JsMath α) (m : Bool) (s : Page α) (hk : Keeps m s) :
    ∃ t, handleResize M s = .normal t ∧ Keeps m t ∧ counts t = fixedCounts m ∧
      (0 ≤ s.innerWidth → 0 ≤ s.innerHeight → AllOnSurface s.innerWidth s.innerHeight t) := by
  obtain ⟨hk', c1, c2, c3, c4, h1, h2, h3, h4, ⟨w1, v1⟩, ⟨w2, v2⟩, ⟨w3, v3⟩, ⟨w4, v4⟩⟩ :=
    resizeAllCanvas_keeps hk
  obtain ⟨t1, t2, t3, t4, e1, e2, e3, e4, sh, hc, hs⟩ :=
    initParticles_ok M (resizeAllCanvas s) c1 c2 c3 c4 h1 h2 h3 h4
  refine ⟨t4, ?_, hk'.of_shell sh, ?_, fun hw hh => ?_⟩
  · simp only [handleResize, e1, e2, e3, e4, Completion.andThen]
  · rw [hc]
    exact congrArg fixedCounts hk'.1
  · obtain ⟨o1, o2, o3, o4⟩ := hs hk'.2.2.2.2.2
    rw [w1, v1] at o1
    rw [w2, v2] at o2
    rw [w3, v3] at o3
    rw [w4, v4] at o4
    exact ⟨o1 hw hh, o2 hw hh, o3 hw hh, o4 hw hh⟩

theorem setupCustomCursor_spec (s : Page α) :
    SameShell s (setupCustomCursor s) ∧ counts (setupCustomCursor s) = counts s := by
  unfold setupCustomCursor
  split
  · exact ⟨SameShell.refl s, rfl⟩
  · exact ⟨⟨rfl, rfl, rfl, rfl, rfl, rfl, rfl, rfl, rfl, rfl⟩, by simp [counts]⟩

/-- After `init` on a fresh page with its four canvases the collections have the
fixed sizes of the device class. -/
theorem init_ready (M : JsMath α) (m : Bool) (s : Page α) (h0 : s.initialized = false)
    (hk : Keeps m s) : Keeps m (init M s) ∧ counts (init M s) = fixedCounts m := by
  obtain ⟨t, et, sh, -⟩ := setupCanvas_spec M (setupEventListeners s)
  have hk1 : Keeps m (setupEventListeners s) := hk
  have hkt : Keeps m t := (resizeAllCanvas_keeps hk1).1.of_shell sh
  obtain ⟨k1, k2, k3, k4, k5, k6⟩ := hkt
  obtain ⟨c1, h1⟩ := Option.isSome_iff_exists.1 k2
  obtain ⟨c2, h2⟩ := Option.isSome_iff_exists.1 k3
  obtain ⟨c3, h3⟩ := Option.isSome_iff_exists.1 k4
  obtain ⟨c4, h4⟩ := Option.isSome_iff_exists.1 k5
  obtain ⟨t1, t2, t3, t4, e1, e2, e3, e4, sh4, hc, -⟩ :=
    initParticles_ok M t c1 c2 c3 c4 h1 h2 h3 h4
  obtain ⟨sh5, hc5⟩ := setupCustomCursor_spec t4
  have hinit : init M s = { setupCustomCursor t4 with initialized := true } := by
    simp only [init, h0, initBody, et, e1, e2, e3, e4, Completion.andThen, Bool.false_eq_true,
      if_false]
  have hk5 : Keeps m (setupCustomCursor t4) :=
    (Keeps.of_shell ⟨k1, k2, k3, k4, k5, k6⟩ sh4).of_shell sh5
  rw [hinit]
  refine ⟨hk5, ?_⟩
  show counts (setupCustomCursor t4) = fixedCounts m
  rw [hc5, hc, k1]

theorem handleMouseMove_spec (M : JsMath α) (cx cy : α) (s : Page α) :
    SameShell s (handleMouseMove M cx cy s) ∧ counts (handleMouseMove M cx cy s) = counts s := by
  unfold handleMouseMove
  simp only []
  split
  · exact ⟨⟨rfl, rfl, rfl, rfl, rfl, rfl, rfl, rfl, rfl, rfl⟩, rfl⟩
  · obtain ⟨h1, h2⟩ := nudgeHomes_spec M cx cy s.interactive s.rng
    exact ⟨⟨rfl, rfl, rfl, rfl, rfl, rfl, rfl, rfl, rfl, h2⟩, by simp [counts, h1]⟩

/-- No event changes the device class, removes a canvas or changes a collection size. -/
theorem applyEvent_ready (M : JsMath α) (m : Bool) (e : Event α) (s : Page α)
    (hk : Keeps m s) (hc : counts s = fixedCounts m) :
    Keeps m (applyEvent M e s) ∧ counts (applyEvent M e s) = fixedCounts m := by
  cases e with
  | frame a =>
    cases a with
    | stars =>
      obtain ⟨p, -, r⟩ := animateStars_shell s
      exact ⟨hk.of_shell p, r.trans hc⟩
    | nebula =>
      obtain ⟨p, -, r⟩ := animateNebula_shell s
      exact ⟨hk.of_shell p, r.trans hc⟩
    | clouds =>
      obtain ⟨p, -, r⟩ := animateClouds_shell M s
      exact ⟨hk.of_shell p, r.trans hc⟩
    | interactive =>
      obtain ⟨p, -, r⟩ := animateInteractive_shell M s
      exact ⟨hk.of_shell p, r.trans hc⟩
  | resize w h =>
    have hk1 : Keeps m { s with innerWidth := w, innerHeight := h } := hk
    obtain ⟨t, et, kt, ct, -⟩ := handleResize_spec M m _ hk1
    simp only [applyEvent, et]
    exact ⟨kt, ct⟩
  | mouseMove cx cy =>
    simp only [applyEvent]
    split
    · exact ⟨hk, hc⟩
    · obtain ⟨p, r⟩ := handleMouseMove_spec M cx cy s
      exact ⟨hk.of_shell p, r.trans hc⟩
  | mouseEnter =>
    simp only [applyEvent]
    split
    · exact ⟨hk, hc⟩
    · exact ⟨hk, hc⟩
  | mouseLeave =>
    simp only [applyEvent]
    split
    · exact ⟨hk, hc⟩
    · exact ⟨hk, hc⟩
  | visibility hidden => exact ⟨hk, hc⟩
  | clock hour => exact ⟨hk, hc⟩

theorem runEvents_ready (M : JsMath α) (m : Bool) (es : List (Event α)) :
    ∀ s : Page α, Keeps m s → counts s = fixedCounts m →
      Keeps m (runEvents M es s) ∧ counts (runEvents M es s) = fixedCounts m := by
  induction es with
  | nil => intro s hk hc; exact ⟨hk, hc⟩
  | cons e es ih =>
    intro s hk hc
    obtain ⟨hk1, hc1⟩ := applyEvent_ready M m e s hk hc
    exact ih _ hk1 hc1

/-! ## C8: resize -/

/-- On a page that has its four canvases a resize does re-create everything. Take a
fresh page of either device class with its four canvases, run `init`, and let any
sequence of events follow (frames, mouse events, earlier resizes). Then `handleResize`
with new window dimensions `w2 ≥ 0`, `h2 ≥ 0` returns normally, each of the four
collections has the same number of particles as before the resize, and every particle
of every collection has its position in `[0, w2] × [0, h2]`. -/
theorem resize_with_canvases (M : JsMath α) (s0 : Page α) (h0 : s0.initialized = false)
    (h1 : s0.starCanvas.isSome = true) (h2 : s0.nebulaCanvas.isSome = true)
    (h3 : s0.cloudCanvas.isSome = true) (h4 : s0.particleCanvas.isSome = true)
    (hg : s0.rng.Unit) (es : List (Event α)) (w2 h2' : α) (hw : 0 ≤ w2) (hh : 0 ≤ h2') :
    ∃ t, handleResize M
          { runEvents M es (init M s0) with innerWidth := w2, innerHeight := h2' } =
        .normal t ∧
      counts t = counts (runEvents M es (init M s0)) ∧ AllOnSurface w2 h2' t := by
  have hk0 : Keeps s0.isMobile s0 := ⟨rfl, h1, h2, h3, h4, hg⟩
  obtain ⟨hk1, hc1⟩ := init_ready M s0.isMobile s0 h0 hk0
  obtain ⟨hk2, hc2⟩ := runEvents_ready M s0.isMobile es _ hk1 hc1
  have hk3 : Keeps s0.isMobile
      { runEvents M es (init M s0) with innerWidth := w2, innerHeight := h2' } := hk2
  obtain ⟨t, et, -, ct, hs⟩ := handleResize_spec M s0.isMobile _ hk3
  exact ⟨t, et, ct.trans hc2.symm, hs hw hh⟩

/-- The desktop page resized to 800 by 600 after a star frame and a mouse move. -/
theorem resize_with_canvases_witness :
    ∃ t, handleResize realMath
          { runEvents realMath [.frame .stars, .mouseMove 5 5] (init realMath (desktopPage ℝ)) with
            innerWidth := 800, innerHeight := 600 } = .normal t ∧
      counts t =
        counts (runEvents realMath [.frame .stars, .mouseMove 5 5] (init realMath (desktopPage ℝ))) ∧
      AllOnSurface 800 600 t :=
  resize_with_canvases realMath (desktopPage ℝ) rfl rfl rfl rfl rfl
    (fun _ => by show (0 : ℝ) ≤ 1 / 2 ∧ (1 / 2 : ℝ) < 1; norm_num)
    [.frame .stars, .mouseMove 5 5] 800 600 (by norm_num) (by norm_num)

/-! ### A resize on a page without the star canvas -/

theorem forPush_forall_of {P : Type} (mk : Rng α → P × Rng α) (Q : Rng α → Prop)
    (R : P → Prop) (hmk : ∀ g : Rng α, Q g → R (mk g).1 ∧ Q (mk g).2) (n : Nat) :
    ∀ (acc : List P) (g : Rng α), Q g → (∀ p ∈ acc, R p) →
      ∀ p ∈ (forPush mk n acc g).1, R p := by
  induction n with
  | zero => intro acc g _ hacc; exact hacc
  | succ n ih =>
    intro acc g hg hacc
    rw [forPush]
    refine ih _ _ (hmk g hg).2 ?_
    intro p hp
    rcases List.mem_append.1 hp with h | h
    · exact hacc p h
    · rw [List.mem_singleton.1 h]
      exact (hmk g hg).1

theorem handleResize_throws (M : JsMath α) (s : Page α) (hs : s.starCanvas = none) :
    handleResize M s =
      .thrown { resizeAllCanvas s with stars := [], rng := (resizeAllCanvas s).rng.drop 1 } := by
  have hstar : (resizeAllCanvas s).starCanvas = none := by
    show resizeCanvas _ _ s.starCanvas = none
    rw [hs]; rfl
  simp only [handleResize, initStars, hstar, Completion.andThen]

/-- Without the star canvas `handleResize` throws in `initStars`, after
`particles.stars = []`; the three other collections are left as they were. -/
theorem handleResize_missing_star (M : JsMath α) (s : Page α) (hs : s.starCanvas = none)
    (w2 h2 : α) :
    ∃ t, handleResize M { s with innerWidth := w2, innerHeight := h2 } = .thrown t ∧
      t.stars = [] ∧ t.nebula = s.nebula ∧ t.clouds = s.clouds ∧
      t.interactive = s.interactive :=
  ⟨_, handleResize_throws M { s with innerWidth := w2, innerHeight := h2 } hs,
    rfl, rfl, rfl, rfl⟩

theorem initClouds_nebula (M : JsMath α) (s : Page α) :
    (initClouds M s).state.nebula = s.nebula := by
  unfold initClouds
  simp only []
  split
  · rfl
  · rename_i c _
    generalize forPush (newCloud M c.width c.height) 25 [] s.rng = out
    rfl

theorem initInteractive_nebula (M : JsMath α) (s : Page α) :
    (initInteractiveParticles M s).state.nebula = s.nebula := by
  unfold initInteractiveParticles
  simp only []
  split <;> rfl

theorem guardedInit_nebula (c : Page α → Option (Canvas α))
    (f : Page α → Completion (Page α)) (hf : ∀ s, (f s).state.nebula = s.nebula)
    (s t : Page α) (h : guardedInit c f s = .normal t) : t.nebula = s.nebula := by
  unfold guardedInit at h
  split at h
  · have := hf s
    rw [h] at this
    exact this
  · cases h
    rfl

theorem animateStars_nebula (s : Page α) : (animateStars s).nebula = s.nebula := by
  unfold animateStars requestFrame
  split
  · rfl
  · split <;> rfl

theorem animateClouds_nebula (M : JsMath α) (s : Page α) :
    (animateClouds M s).nebula = s.nebula := by
  unfold animateClouds requestFrame
  split
  · rfl
  · split
    · rfl
    · split <;> rfl

theorem animateInteractive_nebula (M : JsMath α) (s : Page α) :
    (animateInteractiveParticles M s).nebula = s.nebula := by
  unfold animateInteractiveParticles requestFrame
  split
  · rfl
  · split <;> rfl

theorem guarded_nebula (c : Page α → Option (Canvas α)) (f : Page α → Page α)
    (hf : ∀ s, (f s).nebula = s.nebula) (s : Page α) : (guarded c f s).nebula = s.nebula := by
  unfold guarded
  split
  · exact hf s
  · rfl

theorem animateNebula_nebula (s : Page α) (c : Canvas α)
    (hn : s.nebulaCanvas = some c) (hctx : c.ctx = true) :
    (animateNebula s).nebula = s.nebula.map (nebulaStep c.width c.height) := by
  simp only [animateNebula, hn, hctx, requestFrame, Bool.not_true, Bool.false_eq_true, if_false]

theorem guarded_animateNebula (s : Page α) (c : Canvas α)
    (hn : s.nebulaCanvas = some c) (hctx : c.ctx = true) :
    (guarded Page.nebulaCanvas animateNebula s).nebula =
      s.nebula.map (nebulaStep c.width c.height) := by
  have hu : usable (Page.nebulaCanvas s) = true := by
    rw [hn]; exact hctx
  unfold guarded
  rw [if_pos hu]
  exact animateNebula_nebula s c hn hctx

theorem startLoops_nebula (M : JsMath α) (s : Page α) (c : Canvas α)
    (hn : s.nebulaCanvas = some c) (hctx : c.ctx = true) (hr : s.isReducedMotion = false) :
    (startLoops M s).nebula = s.nebula.map (nebulaStep c.width c.height) := by
  have h1 : (guarded Page.starCanvas animateStars s).nebulaCanvas = some c := by
    rw [(guarded_spec Page.starCanvas animateStars _ animateStars_shell s).1.2.2.2.2.2.2.1, hn]
  have h2 := guarded_animateNebula _ c h1 hctx
  rw [guarded_nebula Page.starCanvas animateStars animateStars_nebula s] at h2
  unfold startLoops
  simp only [hr, Bool.not_false, if_true]
  rw [guarded_nebula _ _ (animateInteractive_nebula M), guarded_nebula _ _ (animateClouds_nebula M),
    h2]

theorem initNebula_created (M : JsMath α) (s t : Page α) (c : Canvas α)
    (hc : s.nebulaCanvas = some c) (ht : initNebula M s = .normal t) :
    t.nebula = (forPush (newNebula M s.isMobile c.width c.height)
      (if s.isMobile then 200 else 600) [] s.rng).1 := by
  simp only [initNebula, hc, Completion.normal.injEq] at ht
  rw [← ht]

theorem setupCanvas_nebula (M : JsMath α) (s t : Page α) (c : Canvas α)
    (hs : s.starCanvas = none) (hn : s.nebulaCanvas = some c) (hctx : c.ctx = true)
    (hr : s.isReducedMotion = false) (ht : setupCanvas M s = .normal t) :
    t.nebula =
      (forPush (newNebula M s.isMobile s.innerWidth s.innerHeight)
        (if s.isMobile then 200 else 600) [] s.rng).1.map
        (nebulaStep s.innerWidth s.innerHeight) := by
  have hstar : (resizeAllCanvas s).starCanvas = none := by
    show resizeCanvas _ _ s.starCanvas = none
    rw [hs]; rfl
  have hneb : (resizeAllCanvas s).nebulaCanvas = some ⟨s.innerWidth, s.innerHeight, c.ctx⟩ := by
    show resizeCanvas _ _ s.nebulaCanvas = _
    rw [hn]; rfl
  have e1 : guardedInit Page.starCanvas (initStars M) (resizeAllCanvas s) =
      .normal (resizeAllCanvas s) := by
    simp only [guardedInit, hstar, usable, Bool.false_eq_true, if_false]
  obtain ⟨t2, e2, p2, -⟩ := guardedInit_spec Page.nebulaCanvas (initNebula M)
    (fun s cv h => initNebula_normal M s cv h) (initNebula_shell M) (resizeAllCanvas s)
  obtain ⟨t3, e3, p3, -⟩ := guardedInit_spec Page.cloudCanvas (initClouds M)
    (fun s cv h => initClouds_normal M s cv h) (initClouds_shell M) t2
  obtain ⟨t4, e4, p4, -⟩ := guardedInit_spec Page.particleCanvas (initInteractiveParticles M)
    (fun s cv h => initInteractive_normal M s cv h) (initInteractive_shell M) t3
  have hu : usable (Page.nebulaCanvas (resizeAllCanvas s)) = true := by
    rw [hneb]; exact hctx
  have e2' : initNebula M (resizeAllCanvas s) = .normal t2 := by
    unfold guardedInit at e2
    rw [if_pos hu] at e2
    exact e2
  have n2 := initNebula_created M (resizeAllCanvas s) t2 _ hneb e2'
  have n3 := guardedInit_nebula _ _ (initClouds_nebula M) t2 t3 e3
  have n4 := guardedInit_nebula _ _ (initInteractive_nebula M) t3 t4 e4
  have sh := (p2.trans p3).trans p4
  have c4 : t4.nebulaCanvas = some ⟨s.innerWidth, s.innerHeight, c.ctx⟩ := by
    rw [sh.2.2.2.2.2.2.1, hneb]
  have r4 : t4.isReducedMotion = false := by
    rw [sh.2.2.1]; exact hr
  have hfin := startLoops_nebula M t4 _ c4 hctx r4
  simp only [setupCanvas, e1, e2, e3, e4, Completion.andThen, Completion.normal.injEq] at ht
  rw [← ht, hfin, n4, n3, n2]
  rfl

theorem showToast_nebula (m ty : String) (s : Page α) : (showToast m ty s).nebula = s.nebula := by
  unfold showToast
  split <;> rfl

/-- Without the star canvas `init` leaves in `particles.nebula` the particles its call
of `setupCanvas` created and advanced by one frame. -/
theorem init_nebula_missing_star (M : JsMath α) (s : Page α) (c : Canvas α)
    (h0 : s.initialized = false)
    (hs : s.starCanvas = none) (hn : s.nebulaCanvas = some c) (hctx : c.ctx = true)
    (hr : s.isReducedMotion = false) :
    (init M s).nebula =
      (forPush (newNebula M s.isMobile s.innerWidth s.innerHeight)
        (if s.isMobile then 200 else 600) [] s.rng).1.map
        (nebulaStep s.innerWidth s.innerHeight) ∧ (init M s).starCanvas = none := by
  obtain ⟨t, et, ⟨-, -, -, -, -, a6, -, -, -, -⟩, -⟩ :=
    setupCanvas_spec M (setupEventListeners s)
  have hstar : t.starCanvas = none := by
    rw [a6]
    show resizeCanvas _ _ s.starCanvas = none
    rw [hs]
    rfl
  have hbody : initBody M s =
      .thrown { t with stars := [], rng := ({ t with stars := [] } : Page α).rng.drop 1 } := by
    simp only [initBody, et, Completion.andThen, initStars, hstar]
  have hinit : init M s = showToast initErrorMessage "error"
      { t with stars := [], rng := ({ t with stars := [] } : Page α).rng.drop 1 } := by
    simp only [init, h0, hbody, Bool.false_eq_true, if_false]
  have hneb := setupCanvas_nebula M (setupEventListeners s) t c hs hn hctx hr et
  rw [hinit]
  refine ⟨?_, ?_⟩
  · rw [showToast_nebula]
    exact hneb
  · unfold showToast
    split
    · exact hstar
    · exact hstar

theorem newNebula_half (M : JsMath α) (m : Bool) (cw ch : α) (g : Rng α)
    (hg : ∀ i, g.draws i = 1 / 2) :
    (newNebula M m cw ch g).1.x = cw / 2 ∧ (newNebula M m cw ch g).1.y = ch / 2 ∧
      (newNebula M m cw ch g).1.dx = 0 ∧ (newNebula M m cw ch g).1.dy = 0 := by
  refine ⟨?_, ?_, ?_, ?_⟩
  · show g.draws (g.pos + 0) * cw = _
    rw [hg]; ring
  · show g.draws (g.pos + 1) * ch = _
    rw [hg]; ring
  · show (g.draws (g.pos + 5) - 0.5) * _ = 0
    rw [hg]; norm_num
  · show (g.draws (g.pos + 6) - 0.5) * _ = 0
    rw [hg]; norm_num

theorem nebulaStep_centre (cw ch : α) (hw : 0 ≤ cw) (hh : 0 ≤ ch) (p : Nebula α)
    (hp : p.x = cw / 2 ∧ p.y = ch / 2 ∧ p.dx = 0 ∧ p.dy = 0) :
    (nebulaStep cw ch p).x = cw / 2 ∧ (nebulaStep cw ch p).y = ch / 2 := by
  obtain ⟨h1, h2, h3, h4⟩ := hp
  constructor
  · show wrapAxis cw (p.x + p.dx) = _
    rw [h1, h3, add_zero]
    exact (wrapAxis_spec cw (cw / 2) hw).2.2 (by linarith) (by linarith)
  · show wrapAxis ch (p.y + p.dy) = _
    rw [h2, h4, add_zero]
    exact (wrapAxis_spec ch (ch / 2) hh).2.2 (by linarith) (by linarith)

/-- When every draw is `1/2`, the nebula particles that `init` leaves on a page without
the star canvas all sit at the centre of the window. -/
theorem init_nebula_centre (M : JsMath α) (s : Page α) (c : Canvas α)
    (h0 : s.initialized = false)
    (hs : s.starCanvas = none) (hn : s.nebulaCanvas = some c) (hctx : c.ctx = true)
    (hr : s.isReducedMotion = false) (hw : 0 ≤ s.innerWidth) (hh : 0 ≤ s.innerHeight)
    (hd : ∀ i, s.rng.draws i = 1 / 2) :
    (init M s).nebula.length = (if s.isMobile then 200 else 600) ∧
      ∀ p ∈ (init M s).nebula, p.x = s.innerWidth / 2 ∧ p.y = s.innerHeight / 2 := by
  rw [(init_nebula_missing_star M s c h0 hs hn hctx hr).1]
  refine ⟨?_, ?_⟩
  · rw [List.length_map, forPush_length]
    simp
  · intro p hp
    obtain ⟨q, hq, rfl⟩ := List.mem_map.1 hp
    refine nebulaStep_centre _ _ hw hh q ?_
    exact forPush_forall_of (newNebula M s.isMobile s.innerWidth s.innerHeight)
      (fun g => ∀ i, g.draws i = 1 / 2)
      (fun q => q.x = s.innerWidth / 2 ∧ q.y = s.innerHeight / 2 ∧ q.dx = 0 ∧ q.dy = 0)
      (fun g hg => ⟨newNebula_half M _ _ _ g hg, hg⟩) _ [] _ hd (by simp) q hq

/-- C8 fails on the code. Take the desktop page without the element `bg-canvas` (the
three other canvases present, every draw `1/2`), run `init`, and resize the window from
1920 by 1080 to 800 by 600. `handleResize` does not return: its unguarded call
`initStars()` throws at `canvases.star.width`, so `initNebula`, `initClouds` and
`initInteractiveParticles` are not reached. The 600 nebula particles stay where
`setupCanvas` put them for the old window, at `(960, 540)`, which is not in
`[0, 800] × [0, 600]`. -/
theorem resize_without_star_canvas (M : JsMath ℚ) :
    ∃ t, handleResize M
          { init M pageWithoutStarCanvas with innerWidth := 800, innerHeight := 600 } =
        .thrown t ∧
      t.stars = [] ∧ t.nebula = (init M pageWithoutStarCanvas).nebula ∧
      t.nebula.length = 600 ∧ (∀ p ∈ t.nebula, p.x = 960 ∧ p.y = 540) ∧
      ¬ AllOnSurface 800 600 t := by
  obtain ⟨hlen0, hall⟩ := init_nebula_centre M pageWithoutStarCanvas ⟨300, 150, true⟩
    rfl rfl rfl rfl rfl (by show (0 : ℚ) ≤ 1920; norm_num) (by show (0 : ℚ) ≤ 1080; norm_num)
    (fun _ => rfl)
  have hlen : (init M pageWithoutStarCanvas).nebula.length = 600 := hlen0
  have hstar := (init_nebula_missing_star M pageWithoutStarCanvas ⟨300, 150, true⟩
    rfl rfl rfl rfl rfl).2
  have hpos : ∀ p ∈ (init M pageWithoutStarCanvas).nebula, p.x = 960 ∧ p.y = 540 := by
    intro p hp
    obtain ⟨h1, h2⟩ := hall p hp
    constructor
    · rw [h1]; show (1920 : ℚ) / 2 = 960; norm_num
    · rw [h2]; show (1080 : ℚ) / 2 = 540; norm_num
  obtain ⟨t, ht, t1, t2, -, -⟩ :=
    handleResize_missing_star M (init M pageWithoutStarCanvas) hstar 800 600
  refine ⟨t, ht, t1, t2, by rw [t2]; exact hlen, by rw [t2]; exact hpos, ?_⟩
  intro hsurf
  obtain ⟨p, hp⟩ := List.exists_mem_of_length_pos (by rw [hlen]; norm_num :
    0 < (init M pageWithoutStarCanvas).nebula.length)
  rw [← t2] at hp
  have hx := (hsurf.2.1 p hp).2.1
  rw [t2] at hp
  rw [(hpos p hp).1] at hx
  norm_num at hx

/-! ## C9: the alpha of a nebula particle -/

/-- The value of the expression `animateNebula` computes: the pulse term is added to
`0.7` after the multiplication by the base alpha, so it differs from
`alpha * (0.7 + 0.3 * (sin(pulse) + 1) / 2)` by `0.7 * (1 - alpha)`. -/
theorem nebulaAlpha_value (p : Nebula ℝ) :
    nebulaAlpha realMath p = 0.7 + p.alpha * (0.3 * (Real.sin p.pulse + 1) / 2) ∧
      nebulaAlpha realMath p - p.alpha * (0.7 + 0.3 * (Real.sin p.pulse + 1) / 2) =
        0.7 * (1 - p.alpha) := by
  constructor
  · show p.alpha * (Real.sin p.pulse + 1) / 2 * 0.3 + 0.7 = _
    ring
  · show p.alpha * (Real.sin p.pulse + 1) / 2 * 0.3 + 0.7 - _ = _
    ring

/-- C9 fails on the code. For the particle `dimNebula` of base alpha `0.1` the alpha
`animateNebula` renders with is `0.63` above `0.1 * (0.7 + 0.3 * (sin(pulse) + 1) / 2)`,
is at least `0.7`, and so exceeds the base alpha. -/
theorem nebula_alpha_exceeds_base :
    nebulaAlpha realMath (dimNebula ℝ) -
        (dimNebula ℝ).alpha * (0.7 + 0.3 * (Real.sin (dimNebula ℝ).pulse + 1) / 2) = 0.63 ∧
      0.7 ≤ nebulaAlpha realMath (dimNebula ℝ) ∧
      (dimNebula ℝ).alpha < nebulaAlpha realMath (dimNebula ℝ) := by
  obtain ⟨h1, h2⟩ := nebulaAlpha_value (dimNebula ℝ)
  have hs := Real.neg_one_le_sin (dimNebula ℝ).pulse
  have ha : (dimNebula ℝ).alpha = 0.1 := rfl
  rw [ha] at h1 h2 ⊢
  refine ⟨?_, ?_, ?_⟩
  · rw [h2]; norm_num
  · rw [h1]; norm_num; linarith
  · rw [h1]; norm_num; linarith

/-! ## C10: the alpha of a star -/

theorem starAlpha_value (hour : Nat) (st : Star ℝ) :
    starAlpha realMath hour st =
      st.alpha * (if 6 ≤ hour ∧ hour < 18 then 0.3 else 1) *
        (0.5 + 0.5 * (Real.sin st.twinkle + 1) / 2) := by
  have hd : (if isDaytime hour = true then (0.3 : ℝ) else 1) =
      if 6 ≤ hour ∧ hour < 18 then 0.3 else 1 := by
    simp [isDaytime]
  show st.alpha * (if isDaytime hour = true then (0.3 : ℝ) else 1) *
    ((Real.sin st.twinkle + 1) / 2 * 0.5 + 0.5) = _
  rw [hd]
  ring

/-- C10. For every star record, twinkle phase and local hour, the alpha the star is
rendered with is `base alpha * t * m` with `t = 0.3` if `6 ≤ hour < 18` and `t = 1`
otherwise, and `m = 0.5 + 0.5 * (sin(twinkle) + 1) / 2` in `[0.5, 1]`. For a star
created by `initStars` (base alpha positive) and updated any number of times the
rendered alpha therefore lies in `(0, base alpha]`. -/
theorem star_alpha_range (M : JsMath ℝ) (s : Page ℝ) (c : Canvas ℝ)
    (hc : s.starCanvas = some c) (hw : 0 ≤ c.width) (hh : 0 ≤ c.height) (hg : s.rng.Unit)
    (st : Star ℝ) (hst : st ∈ (initStars M s).state.stars) (N : Nat) (hour : Nat) :
    (∀ (q : Star ℝ) (tw : ℝ) (hr : Nat),
        starAlpha realMath hr { q with twinkle := tw } =
          q.alpha * (if 6 ≤ hr ∧ hr < 18 then 0.3 else 1) *
            (0.5 + 0.5 * (Real.sin tw + 1) / 2) ∧
        0.5 ≤ 0.5 + 0.5 * (Real.sin tw + 1) / 2 ∧
        0.5 + 0.5 * (Real.sin tw + 1) / 2 ≤ 1) ∧
      0 < starAlpha realMath hour ((starStep c.width c.height)^[N] st) ∧
      starAlpha realMath hour ((starStep c.width c.height)^[N] st) ≤ st.alpha := by
  have hm : ∀ tw : ℝ, 0.5 ≤ 0.5 + 0.5 * (Real.sin tw + 1) / 2 ∧
      0.5 + 0.5 * (Real.sin tw + 1) / 2 ≤ 1 := by
    intro tw
    have h1 := Real.neg_one_le_sin tw
    have h2 := Real.sin_le_one tw
    constructor <;> linarith
  have ht : ∀ hr : Nat, (0 : ℝ) < (if 6 ≤ hr ∧ hr < 18 then 0.3 else 1) ∧
      (if 6 ≤ hr ∧ hr < 18 then (0.3 : ℝ) else 1) ≤ 1 := by
    intro hr
    split <;> norm_num
  refine ⟨fun q tw hr => ⟨starAlpha_value hr _, hm tw⟩, ?_, ?_⟩
  · obtain ⟨-, ha, -⟩ := initStars_stars M s c hc hw hh hg st hst
    rw [starAlpha_value, (starStep_iterate_fixed c.width c.height st N).2]
    exact mul_pos (mul_pos ha (ht hour).1) (by linarith [(hm ((starStep c.width c.height)^[N] st).twinkle).1])
  · obtain ⟨-, ha, -⟩ := initStars_stars M s c hc hw hh hg st hst
    rw [starAlpha_value, (starStep_iterate_fixed c.width c.height st N).2]
    have h1 := ht hour
    have h2 := hm ((starStep c.width c.height)^[N] st).twinkle
    have h3 : st.alpha * (if 6 ≤ hour ∧ hour < 18 then 0.3 else 1) ≤ st.alpha := by
      nlinarith [h1.1, h1.2]
    have h4 : 0 ≤ st.alpha * (if 6 ≤ hour ∧ hour < 18 then (0.3 : ℝ) else 1) :=
      (mul_pos ha h1.1).le
    nlinarith [h2.1, h2.2]

/-- C10, for the first star created on the desktop page, after two steps, at noon. -/
theorem star_alpha_range_witness :
    0 < starAlpha realMath 12
        ((starStep (300 : ℝ) 150)^[2] (newStar realMath false 300 150 ⟨fun _ => 1 / 2, 0⟩).1) ∧
      starAlpha realMath 12
          ((starStep (300 : ℝ) 150)^[2] (newStar realMath false 300 150 ⟨fun _ => 1 / 2, 0⟩).1) ≤
        (newStar realMath false 300 150 ⟨fun _ => 1 / 2, 0⟩).1.alpha :=
  (star_alpha_range realMath (desktopPage ℝ) ⟨300, 150, true⟩ rfl
    (by norm_num) (by norm_num)
    (fun _ => by show (0 : ℝ) ≤ 1 / 2 ∧ (1 / 2 : ℝ) < 1; norm_num)
    (newStar realMath false 300 150 ⟨fun _ => 1 / 2, 0⟩).1
    (forPush_first_mem _ 399 _) 2 12).2

/-! ## C11: the size of a cloud -/

/-- C11 as stated fails: the cloud `initClouds` creates from the draws `1/4, 1/4, ...`
has breath phase `π / 2` and width `110`, equal to its base width, whereas the base
width times the breathing factor `1 + 0.05 * sin(breath)` is `115.5`. -/
theorem cloud_breathing_counterexample :
    ReachableCloud realMath (newCloud realMath 150 100 ⟨fun _ => 1 / 4, 0⟩).1 ∧
      (newCloud realMath 150 100 ⟨fun _ => 1 / 4, 0⟩).1.w = 110 ∧
      (newCloud realMath 150 100 ⟨fun _ => 1 / 4, 0⟩).1.baseW *
          (1 + 0.05 * Real.sin (newCloud realMath 150 100 ⟨fun _ => 1 / 4, 0⟩).1.breath) =
        115.5 ∧
      (newCloud realMath 150 100 ⟨fun _ => 1 / 4, 0⟩).1.w ≠
        (newCloud realMath 150 100 ⟨fun _ => 1 / 4, 0⟩).1.baseW *
          (1 + 0.05 * Real.sin (newCloud realMath 150 100 ⟨fun _ => 1 / 4, 0⟩).1.breath) := by
  have hb : (newCloud realMath 150 100 ⟨fun _ => 1 / 4, 0⟩).1.breath = Real.pi / 2 := by
    show (1 / 4 : ℝ) * Real.pi * 2 = Real.pi / 2
    ring
  have hw : (newCloud realMath 150 100 ⟨fun _ => 1 / 4, 0⟩).1.w = 110 := by
    show (80 : ℝ) + 1 / 4 * 120 = 110
    norm_num
  have hbw : (newCloud realMath 150 100 ⟨fun _ => 1 / 4, 0⟩).1.baseW = 110 := hw
  refine ⟨ReachableCloud.init 150 100 _ (fun _ => by
    show (0 : ℝ) ≤ 1 / 4 ∧ (1 / 4 : ℝ) < 1; norm_num), hw, ?_, ?_⟩
  · rw [hb, hbw, Real.sin_pi_div_two]; norm_num
  · rw [hb, hbw, hw, Real.sin_pi_div_two]; norm_num

/-- What one daytime update step makes of the size of a cloud. -/
theorem cloudStep_size (M : JsMath α) (cw ch : α) (c : Cloud α) (g : Rng α) :
    (cw < c.x + c.dx - c.baseW * (1 + M.sin (c.breath + 0.01) * 0.05) →
        (cloudStep M cw ch c g).1.baseW = 80 + g.get 1 * 120 ∧
        (cloudStep M cw ch c g).1.baseH = 30 + g.get 2 * 50 ∧
        (cloudStep M cw ch c g).1.w = (cloudStep M cw ch c g).1.baseW ∧
        (cloudStep M cw ch c g).1.h = (cloudStep M cw ch c g).1.baseH) ∧
      (¬ cw < c.x + c.dx - c.baseW * (1 + M.sin (c.breath + 0.01) * 0.05) →
        (cloudStep M cw ch c g).1.baseW = c.baseW ∧
        (cloudStep M cw ch c g).1.baseH = c.baseH ∧
        (cloudStep M cw ch c g).1.w =
          (cloudStep M cw ch c g).1.baseW *
            (1 + 0.05 * M.sin (cloudStep M cw ch c g).1.breath) ∧
        (cloudStep M cw ch c g).1.h =
          (cloudStep M cw ch c g).1.baseH *
            (1 + 0.05 * M.sin (cloudStep M cw ch c g).1.breath)) := by
  constructor
  · intro hout
    simp only [cloudStep, gt_iff_lt, if_pos hout, and_self]
  · intro hin
    simp only [cloudStep, gt_iff_lt, if_neg hin]
    refine ⟨trivial, trivial, ?_, ?_⟩ <;> ring

/-- The invariant of the cloud system. -/
theorem reachableCloud_inv (M : JsMath α) (c : Cloud α) (hc : ReachableCloud M c) :
    (80 ≤ c.baseW ∧ 30 ≤ c.baseH) ∧
      ((c.w = c.baseW ∧ c.h = c.baseH) ∨
        (c.w = c.baseW * (1 + 0.05 * M.sin c.breath) ∧
          c.h = c.baseH * (1 + 0.05 * M.sin c.breath))) := by
  induction hc with
  | init cw ch g hg =>
    have h0 := hg.get_nonneg 0
    have h1 := hg.get_nonneg 1
    refine ⟨⟨?_, ?_⟩, Or.inl ⟨rfl, rfl⟩⟩
    · show (80 : α) ≤ 80 + g.get 0 * 120
      linarith
    · show (30 : α) ≤ 30 + g.get 1 * 50
      linarith
  | step cw ch c g hg _ ih =>
    obtain ⟨h1, h2⟩ := cloudStep_size M cw ch c g
    by_cases hout : cw < c.x + c.dx - c.baseW * (1 + M.sin (c.breath + 0.01) * 0.05)
    · obtain ⟨a1, a2, a3, a4⟩ := h1 hout
      refine ⟨⟨?_, ?_⟩, Or.inl ⟨a3, a4⟩⟩
      · rw [a1]; linarith [hg.get_nonneg 1]
      · rw [a2]; linarith [hg.get_nonneg 2]
    · obtain ⟨a1, a2, a3, a4⟩ := h2 hout
      exact ⟨⟨by rw [a1]; exact ih.1.1, by rw [a2]; exact ih.1.2⟩, Or.inr ⟨a3, a4⟩⟩

/-- C11, amended. In every reachable state of the cloud system each cloud's current
width and height are its base width and height multiplied by a common factor, which
is `1` after `initClouds` and after a step that respawned the cloud and is the
breathing factor `1 + 0.05 * sin(breath)` of the current breath phase after a step
that did not respawn it; width and height are positive, hence never negative. -/
theorem cloud_size_invariant (c : Cloud ℝ) (hc : ReachableCloud realMath c) :
    ((c.w = c.baseW ∧ c.h = c.baseH) ∨
        (c.w = c.baseW * (1 + 0.05 * Real.sin c.breath) ∧
          c.h = c.baseH * (1 + 0.05 * Real.sin c.breath))) ∧
      0 < c.w ∧ 0 < c.h ∧
      (∀ (cw ch : ℝ) (g : Rng ℝ),
        (cw < c.x + c.dx - c.baseW * (1 + Real.sin (c.breath + 0.01) * 0.05) →
          (cloudStep realMath cw ch c g).1.w = (cloudStep realMath cw ch c g).1.baseW ∧
          (cloudStep realMath cw ch c g).1.h = (cloudStep realMath cw ch c g).1.baseH) ∧
        (¬ cw < c.x + c.dx - c.baseW * (1 + Real.sin (c.breath + 0.01) * 0.05) →
          (cloudStep realMath cw ch c g).1.w =
            (cloudStep realMath cw ch c g).1.baseW *
              (1 + 0.05 * Real.sin (cloudStep realMath cw ch c g).1.breath) ∧
          (cloudStep realMath cw ch c g).1.h =
            (cloudStep realMath cw ch c g).1.baseH *
              (1 + 0.05 * Real.sin (cloudStep realMath cw ch c g).1.breath))) := by
  obtain ⟨⟨hb1, hb2⟩, hor⟩ := reachableCloud_inv realMath c hc
  have hs := Real.neg_one_le_sin c.breath
  have hf : (0 : ℝ) < 1 + 0.05 * Real.sin c.breath := by norm_num; linarith
  refine ⟨hor, ?_, ?_, fun cw ch g => ?_⟩
  · rcases hor with h | h
    · rw [h.1]; linarith
    · rw [h.1]; exact mul_pos (by linarith) hf
  · rcases hor with h | h
    · rw [h.2]; linarith
    · rw [h.2]; exact mul_pos (by linarith) hf
  · obtain ⟨h1, h2⟩ := cloudStep_size realMath cw ch c g
    exact ⟨fun hout => (h1 hout).2.2, fun hin => (h2 hin).2.2⟩

/-- C11 amended, for the first cloud created from the draws `1/4, 1/4, ...`. -/
theorem cloud_size_invariant_witness :
    0 < (newCloud realMath 150 100 ⟨fun _ => 1 / 4, 0⟩).1.w ∧
      0 < (newCloud realMath 150 100 ⟨fun _ => 1 / 4, 0⟩).1.h :=
  have h := cloud_size_invariant (newCloud realMath 150 100 ⟨fun _ => 1 / 4, 0⟩).1
    (ReachableCloud.init 150 100 _ (fun _ => by
      show (0 : ℝ) ≤ 1 / 4 ∧ (1 / 4 : ℝ) < 1; norm_num))
  ⟨h.2.1, h.2.2.1⟩

/-! ## C12: radius and base alpha of a star -/

theorem newStar_range (M : JsMath α) (m : Bool) (cw ch : α) (g : Rng α) (hg : g.Unit) :
    0.5 ≤ (newStar M m cw ch g).1.r ∧ (newStar M m cw ch g).1.r ≤ 2.0 ∧
      0 < (newStar M m cw ch g).1.alpha ∧ (newStar M m cw ch g).1.alpha ≤ 1 := by
  have h2 := hg.get_nonneg 2
  have h2' := hg.get_lt_one 2
  have h3 := hg.get_nonneg 3
  have h3' := hg.get_lt_one 3
  refine ⟨?_, ?_, ?_, ?_⟩
  · show (0.5 : α) ≤ g.get 2 * 1.5 + 0.5
    norm_num
    linarith
  · show g.get 2 * 1.5 + 0.5 ≤ (2.0 : α)
    norm_num
    linarith
  · show 0 < g.get 3 * 0.8 + 0.2
    norm_num
    linarith
  · show g.get 3 * 0.8 + 0.2 ≤ 1
    norm_num
    linarith

/-- C12. Every star `initStars` creates from random draws in `[0, 1)` has, after any
number of update steps (on any canvas size), radius in `[0.5, 2.0]` and base alpha in
`(0, 1]`; and the update step changes neither the radius nor the base alpha of any
star. -/
theorem star_radius_alpha_invariant (M : JsMath α) (s : Page α) (c : Canvas α)
    (hc : s.starCanvas = some c) (hg : s.rng.Unit) (st : Star α)
    (hst : st ∈ (initStars M s).state.stars) (cw ch : α) (N : Nat) :
    (0.5 ≤ ((starStep cw ch)^[N] st).r ∧ ((starStep cw ch)^[N] st).r ≤ 2.0 ∧
        0 < ((starStep cw ch)^[N] st).alpha ∧ ((starStep cw ch)^[N] st).alpha ≤ 1) ∧
      (∀ (q : Star α) (cw2 ch2 : α),
        (starStep cw2 ch2 q).r = q.r ∧ (starStep cw2 ch2 q).alpha = q.alpha) := by
  have hall : ∀ p ∈ (initStars M s).state.stars,
      0.5 ≤ p.r ∧ p.r ≤ 2.0 ∧ 0 < p.alpha ∧ p.alpha ≤ 1 := by
    simp only [initStars, hc, Completion.state]
    exact (forPush_forall _ _ (fun g hg => ⟨newStar_range M _ _ _ g hg, hg.drop 7⟩) _ [] _ hg
      (by simp)).1
  obtain ⟨e1, e2⟩ := starStep_iterate_fixed cw ch st N
  refine ⟨?_, fun q cw2 ch2 => ⟨rfl, rfl⟩⟩
  rw [e1, e2]
  exact hall st hst

/-- C12, for the first star created on the desktop page, after five steps. -/
theorem star_radius_alpha_invariant_witness :
    0.5 ≤ ((starStep (300 : ℝ) 150)^[5]
        (newStar realMath false 300 150 ⟨fun _ => 1 / 2, 0⟩).1).r ∧
      ((starStep (300 : ℝ) 150)^[5]
        (newStar realMath false 300 150 ⟨fun _ => 1 / 2, 0⟩).1).r ≤ 2.0 :=
  have h := (star_radius_alpha_invariant realMath (desktopPage ℝ) ⟨300, 150, true⟩ rfl
    (fun _ => by show (0 : ℝ) ≤ 1 / 2 ∧ (1 / 2 : ℝ) < 1; norm_num)
    (newStar realMath false 300 150 ⟨fun _ => 1 / 2, 0⟩).1
    (forPush_first_mem _ 399 _) 300 150 5).1
  ⟨h.1, h.2.1⟩

/-! ## C18: the repulsion displacement -/

/-- C18. For a cursor at distance `d` from the particle with `0 < d < 100`, one update
step displaces the particle by `2 * (100 - d) / 100` times the unit vector that points
from the cursor to the particle, so that its distance to the cursor becomes
`d + 2 * (100 - d) / 100`; the home `(baseX, baseY)` is not changed. -/
theorem repulsion_displacement (mx my : ℝ) (p : Interactive ℝ)
    (hpos : 0 < distTo realMath mx my p.x p.y) (hlt : distTo realMath mx my p.x p.y < 100) :
    (interactiveStep realMath mx my p).x - p.x =
        2 * (100 - distTo realMath mx my p.x p.y) / 100 *
          ((p.x - mx) / distTo realMath mx my p.x p.y) ∧
      (interactiveStep realMath mx my p).y - p.y =
        2 * (100 - distTo realMath mx my p.x p.y) / 100 *
          ((p.y - my) / distTo realMath mx my p.x p.y) ∧
      ((p.x - mx) / distTo realMath mx my p.x p.y) ^ 2 +
        ((p.y - my) / distTo realMath mx my p.x p.y) ^ 2 = 1 ∧
      distTo realMath mx my (interactiveStep realMath mx my p).x
          (interactiveStep realMath mx my p).y =
        distTo realMath mx my p.x p.y + 2 * (100 - distTo realMath mx my p.x p.y) / 100 ∧
      (interactiveStep realMath mx my p).baseX = p.baseX ∧
      (interactiveStep realMath mx my p).baseY = p.baseY := by
  have hd : distTo realMath mx my p.x p.y =
      Real.sqrt ((mx - p.x) * (mx - p.x) + (my - p.y) * (my - p.y)) := rfl
  have hstep : (interactiveStep realMath mx my p).x =
        p.x - ((mx - p.x) / distTo realMath mx my p.x p.y) *
          ((100 - distTo realMath mx my p.x p.y) / 100) * 2 ∧
      (interactiveStep realMath mx my p).y =
        p.y - ((my - p.y) / distTo realMath mx my p.x p.y) *
          ((100 - distTo realMath mx my p.x p.y) / 100) * 2 ∧
      (interactiveStep realMath mx my p).baseX = p.baseX ∧
      (interactiveStep realMath mx my p).baseY = p.baseY := by
    rw [hd] at hlt ⊢
    simp only [interactiveStep, realMath, if_pos hlt, and_self]
  have hdist := repulsion_distance mx my p hpos hlt
  have hsq : distTo realMath mx my p.x p.y * distTo realMath mx my p.x p.y =
      (mx - p.x) * (mx - p.x) + (my - p.y) * (my - p.y) := by
    rw [hd]
    exact Real.mul_self_sqrt (by nlinarith [mul_self_nonneg (mx - p.x), mul_self_nonneg (my - p.y)])
  have hne : distTo realMath mx my p.x p.y ≠ 0 := hpos.ne'
  refine ⟨?_, ?_, ?_, ?_, hstep.2.2.1, hstep.2.2.2⟩
  · rw [hstep.1]; field_simp; ring
  · rw [hstep.2.1]; field_simp; ring
  · field_simp
    nlinarith [hsq]
  · rw [hdist]; ring

/-- C18, for the particle at the origin and the cursor at `(3, 4)`. -/
theorem repulsion_displacement_witness :
    (interactiveStep realMath 3 4 (particleAtOrigin ℝ)).baseX = (particleAtOrigin ℝ).baseX ∧
      (interactiveStep realMath 3 4 (particleAtOrigin ℝ)).baseY = (particleAtOrigin ℝ).baseY :=
  (repulsion_displacement 3 4 (particleAtOrigin ℝ)
    (by rw [dist_origin_three_four]; norm_num)
    (by rw [dist_origin_three_four]; norm_num)).2.2.2.2

/-! ## The pass over the interactive particles -/

theorem interactiveLoop_state (M : JsMath α) (mx my : α) (todo : List (Interactive α)) :
    ∀ done : List (Interactive α),
      (interactiveLoop M mx my done todo).1 = done ++ todo.map (interactiveStep M mx my) := by
  induction todo with
  | nil => intro done; simp [interactiveLoop]
  | cons p rest ih =>
    intro done
    rw [interactiveLoop]
    simp only [ih, List.map_cons, List.append_assoc, List.singleton_append]

theorem interactiveLoop_length (M : JsMath α) (mx my : α) (todo : List (Interactive α)) :
    ∀ done : List (Interactive α),
      (interactiveLoop M mx my done todo).2.length = todo.length := by
  induction todo with
  | nil => intro done; simp [interactiveLoop]
  | cons p rest ih =>
    intro done
    rw [interactiveLoop]
    simp only [List.length_cons, ih]

/-- The draw calls of the visit of the particle `p`: the other particles are taken as
they are at that moment, those before `p` updated, those after `p` not yet. -/
theorem interactiveLoop_block (M : JsMath α) (mx my : α) (p : Interactive α)
    (post : List (Interactive α)) (pre : List (Interactive α)) :
    ∀ done : List (Interactive α),
      (interactiveLoop M mx my done (pre ++ p :: post)).2[pre.length]? =
        some (arcOf M (interactiveStep M mx my p) ::
          (done ++ pre.map (interactiveStep M mx my) ++ post).filterMap
            (lineTo M (interactiveStep M mx my p))) := by
  induction pre with
  | nil =>
    intro done
    simp [interactiveLoop]
  | cons a pre ih =>
    intro done
    rw [List.cons_append, interactiveLoop]
    simp only [List.length_cons, List.getElem?_cons_succ, ih, List.map_cons, List.append_assoc,
      List.singleton_append]

theorem lineTo_spec (M : JsMath α) (p q : Interactive α) :
    ((lineTo M p q).isSome = true ↔
        M.sqrt ((p.x - q.x) * (p.x - q.x) + (p.y - q.y) * (p.y - q.y)) < 80) ∧
      (M.sqrt ((p.x - q.x) * (p.x - q.x) + (p.y - q.y) * (p.y - q.y)) < 80 →
        lineTo M p q = some (.line p.x p.y q.x q.y p.color
          (0.1 * (1 - M.sqrt ((p.x - q.x) * (p.x - q.x) + (p.y - q.y) * (p.y - q.y)) / 80)))) ∧
      (¬ M.sqrt ((p.x - q.x) * (p.x - q.x) + (p.y - q.y) * (p.y - q.y)) < 80 →
        lineTo M p q = none) := by
  unfold lineTo
  simp only []
  refine ⟨?_, fun h => if_pos h, fun h => if_neg h⟩
  split <;> simp_all

theorem interactiveFrame_fst (M : JsMath α) (s : Page α) :
    (interactiveFrame M s).1 = animateInteractiveParticles M s := by
  unfold interactiveFrame animateInteractiveParticles
  split
  · rfl
  · split
    · rfl
    · simp only [interactiveLoop_state, List.nil_append]

/-! ## C13: the interactive animator on a mobile device -/

/-- C13. On a mobile device one call of `animateInteractiveParticles` leaves the
collection of interactive particles, and so every field of every particle, unchanged
and issues no draw call, wherever the cursor is. -/
theorem mobile_interactive_inert (M : JsMath α) (s : Page α) (hm : s.isMobile = true)
    (mx my : α) :
    (animateInteractiveParticles M { s with mouseX := mx, mouseY := my }).interactive =
        s.interactive ∧
      (interactiveFrame M { s with mouseX := mx, mouseY := my }).1.interactive =
        s.interactive ∧
      (interactiveFrame M { s with mouseX := mx, mouseY := my }).2 = [] := by
  have h : (interactiveFrame M { s with mouseX := mx, mouseY := my }).1.interactive =
        s.interactive ∧
      (interactiveFrame M { s with mouseX := mx, mouseY := my }).2 = [] := by
    unfold interactiveFrame
    simp only [hm, Bool.or_true, if_true]
    split <;> exact ⟨rfl, rfl⟩
  exact ⟨by rw [← interactiveFrame_fst]; exact h.1, h.1, h.2⟩

/-- C13, on the mobile page with the cursor at `(3, 4)`. -/
theorem mobile_interactive_inert_witness :
    (interactiveFrame realMath { mobilePage ℝ with mouseX := 3, mouseY := 4 }).2 = [] :=
  (mobile_interactive_inert realMath (mobilePage ℝ) rfl 3 4).2.2

/-! ## C19: the proximity lines -/

theorem sqrt_of_sq (a b : ℝ) (hb : 0 ≤ b) (h : a = b ^ 2) : Real.sqrt a = b := by
  rw [h]
  exact Real.sqrt_sq hb

/-- With the cursor at `(0, 1000)` the particles `pairLeft` and `pairRight` ease
towards their homes: to `(20, 0)` and to `(-70, 0)`. -/
theorem pair_steps :
    (interactiveStep realMath 0 1000 (pairLeft ℝ)).x = 20 ∧
      (interactiveStep realMath 0 1000 (pairLeft ℝ)).y = 0 ∧
      (interactiveStep realMath 0 1000 (pairRight ℝ)).x = -70 ∧
      (interactiveStep realMath 0 1000 (pairRight ℝ)).y = 0 ∧
      (interactiveStep realMath 0 1000 (pairLeft ℝ)).color = none := by
  have hA : (100 : ℝ) ≤ distTo realMath 0 1000 (pairLeft ℝ).x (pairLeft ℝ).y := by
    show (100 : ℝ) ≤ Real.sqrt ((0 - 0) * (0 - 0) + (1000 - 0) * (1000 - 0))
    rw [sqrt_of_sq _ 1000 (by norm_num) (by norm_num)]
    norm_num
  have hB : (100 : ℝ) ≤ distTo realMath 0 1000 (pairRight ℝ).x (pairRight ℝ).y := by
    show (100 : ℝ) ≤ Real.sqrt ((0 - -50) * (0 - -50) + (1000 - 0) * (1000 - 0))
    apply Real.le_sqrt_of_sq_le
    norm_num
  obtain ⟨a1, a2, -, -⟩ := interactiveStep_far 0 1000 (pairLeft ℝ) hA
  obtain ⟨b1, b2, -, -⟩ := interactiveStep_far 0 1000 (pairRight ℝ) hB
  have hc : (interactiveStep realMath 0 1000 (pairLeft ℝ)).color = none := by
    unfold interactiveStep
    simp only []
    split <;> rfl
  refine ⟨?_, ?_, ?_, ?_, hc⟩
  · rw [a1]; simp only [pairLeft]; norm_num
  · rw [a2]; simp only [pairLeft]; norm_num
  · rw [b1]; simp only [pairRight]; norm_num
  · rw [b2]; simp only [pairRight]; norm_num

/-- C19 as stated fails. In the frame on the collection `[pairLeft, pairRight]` with
the cursor at `(0, 1000)` the particles end at `(20, 0)` and `(-70, 0)`, at distance
90; yet the visit of the first particle draws a line to the second, which is then
still at `(-50, 0)`, at distance 70, while the visit of the second draws no line to
the first. -/
theorem proximity_line_counterexample :
    (interactiveLoop realMath 0 1000 [] [pairLeft ℝ, pairRight ℝ]).1 =
        [interactiveStep realMath 0 1000 (pairLeft ℝ),
          interactiveStep realMath 0 1000 (pairRight ℝ)] ∧
      (interactiveLoop realMath 0 1000 [] [pairLeft ℝ, pairRight ℝ]).2 =
        [[arcOf realMath (interactiveStep realMath 0 1000 (pairLeft ℝ)),
            .line 20 0 (-50) 0 none (0.1 * (1 - 70 / 80))],
          [arcOf realMath (interactiveStep realMath 0 1000 (pairRight ℝ))]] ∧
      Real.sqrt
          (((interactiveStep realMath 0 1000 (pairLeft ℝ)).x -
              (interactiveStep realMath 0 1000 (pairRight ℝ)).x) *
            ((interactiveStep realMath 0 1000 (pairLeft ℝ)).x -
              (interactiveStep realMath 0 1000 (pairRight ℝ)).x) +
          ((interactiveStep realMath 0 1000 (pairLeft ℝ)).y -
              (interactiveStep realMath 0 1000 (pairRight ℝ)).y) *
            ((interactiveStep realMath 0 1000 (pairLeft ℝ)).y -
              (interactiveStep realMath 0 1000 (pairRight ℝ)).y)) = 90 := by
  obtain ⟨a1, a2, b1, b2, hc⟩ := pair_steps
  have d1 : Real.sqrt (((interactiveStep realMath 0 1000 (pairLeft ℝ)).x - (pairRight ℝ).x) *
        ((interactiveStep realMath 0 1000 (pairLeft ℝ)).x - (pairRight ℝ).x) +
      ((interactiveStep realMath 0 1000 (pairLeft ℝ)).y - (pairRight ℝ).y) *
        ((interactiveStep realMath 0 1000 (pairLeft ℝ)).y - (pairRight ℝ).y)) = 70 := by
    rw [a1, a2]
    exact sqrt_of_sq _ 70 (by norm_num) (by simp only [pairRight]; norm_num)
  have d2 : Real.sqrt
      (((interactiveStep realMath 0 1000 (pairRight ℝ)).x -
          (interactiveStep realMath 0 1000 (pairLeft ℝ)).x) *
        ((interactiveStep realMath 0 1000 (pairRight ℝ)).x -
          (interactiveStep realMath 0 1000 (pairLeft ℝ)).x) +
      ((interactiveStep realMath 0 1000 (pairRight ℝ)).y -
          (interactiveStep realMath 0 1000 (pairLeft ℝ)).y) *
        ((interactiveStep realMath 0 1000 (pairRight ℝ)).y -
          (interactiveStep realMath 0 1000 (pairLeft ℝ)).y)) = 90 := by
    rw [a1, a2, b1, b2]
    exact sqrt_of_sq _ 90 (by norm_num) (by norm_num)
  have d3 : Real.sqrt
      (((interactiveStep realMath 0 1000 (pairLeft ℝ)).x -
          (interactiveStep realMath 0 1000 (pairRight ℝ)).x) *
        ((interactiveStep realMath 0 1000 (pairLeft ℝ)).x -
          (interactiveStep realMath 0 1000 (pairRight ℝ)).x) +
      ((interactiveStep realMath 0 1000 (pairLeft ℝ)).y -
          (interactiveStep realMath 0 1000 (pairRight ℝ)).y) *
        ((interactiveStep realMath 0 1000 (pairLeft ℝ)).y -
          (interactiveStep realMath 0 1000 (pairRight ℝ)).y)) = 90 := by
    rw [a1, a2, b1, b2]
    exact sqrt_of_sq _ 90 (by norm_num) (by norm_num)
  have l1 : lineTo realMath (interactiveStep realMath 0 1000 (pairLeft ℝ)) (pairRight ℝ) =
      some (.line 20 0 (-50) 0 none (0.1 * (1 - 70 / 80))) := by
    have h := (lineTo_spec realMath (interactiveStep realMath 0 1000 (pairLeft ℝ))
      (pairRight ℝ)).2.1
    have hlt : realMath.sqrt
        (((interactiveStep realMath 0 1000 (pairLeft ℝ)).x - (pairRight ℝ).x) *
          ((interactiveStep realMath 0 1000 (pairLeft ℝ)).x - (pairRight ℝ).x) +
        ((interactiveStep realMath 0 1000 (pairLeft ℝ)).y - (pairRight ℝ).y) *
          ((interactiveStep realMath 0 1000 (pairLeft ℝ)).y - (pairRight ℝ).y)) < 80 := by
      show Real.sqrt _ < 80
      rw [d1]; norm_num
    rw [h hlt]
    show some (DrawCmd.line _ _ _ _ _ (0.1 * (1 - Real.sqrt _ / 80))) = _
    rw [d1, a1, a2, hc]
    rfl
  have l2 : lineTo realMath (interactiveStep realMath 0 1000 (pairRight ℝ))
      (interactiveStep realMath 0 1000 (pairLeft ℝ)) = none := by
    apply (lineTo_spec realMath _ _).2.2
    show ¬ Real.sqrt _ < 80
    rw [d2]; norm_num
  refine ⟨?_, ?_, d3⟩
  · rw [interactiveLoop_state]; rfl
  · simp only [interactiveLoop, List.nil_append, List.filterMap_cons, List.filterMap_nil, l1, l2,
      List.append_nil]

/-- C19, amended. In one frame of the interactive animator on desktop (canvas and
context present) the particles are visited in order, and the lines drawn at the visit
of a particle are determined by its position after its own update and by the positions
the other particles have at that moment: updated for the particles before it in the
collection, not yet updated for those after it. A line to another particle is drawn if
and only if that distance `d` is below 80, with opacity `0.1 * (1 - d / 80)`. -/
theorem proximity_lines_by_visit (M : JsMath α) (s : Page α) (c : Canvas α)
    (hc : s.particleCanvas = some c) (hctx : c.ctx = true) (hm : s.isMobile = false)
    (pre post : List (Interactive α)) (p : Interactive α)
    (hps : s.interactive = pre ++ p :: post) :
    (interactiveFrame M s).1.interactive =
        s.interactive.map (interactiveStep M s.mouseX s.mouseY) ∧
      (interactiveFrame M s).2 =
        .clearRect c.width c.height ::
          (interactiveLoop M s.mouseX s.mouseY [] s.interactive).2.flatten ∧
      (interactiveLoop M s.mouseX s.mouseY [] s.interactive).2.length =
        s.interactive.length ∧
      (interactiveLoop M s.mouseX s.mouseY [] s.interactive).2[pre.length]? =
        some (arcOf M (interactiveStep M s.mouseX s.mouseY p) ::
          (pre.map (interactiveStep M s.mouseX s.mouseY) ++ post).filterMap
            (lineTo M (interactiveStep M s.mouseX s.mouseY p))) ∧
      (∀ a b : Interactive α,
        ((lineTo M a b).isSome = true ↔
          M.sqrt ((a.x - b.x) * (a.x - b.x) + (a.y - b.y) * (a.y - b.y)) < 80) ∧
        (M.sqrt ((a.x - b.x) * (a.x - b.x) + (a.y - b.y) * (a.y - b.y)) < 80 →
          lineTo M a b = some (.line a.x a.y b.x b.y a.color
            (0.1 * (1 -
              M.sqrt ((a.x - b.x) * (a.x - b.x) + (a.y - b.y) * (a.y - b.y)) / 80))))) := by
  refine ⟨?_, ?_, interactiveLoop_length M _ _ _ [], ?_, fun a b => ?_⟩
  · rw [interactiveFrame_fst]
    simp only [animateInteractiveParticles, hc, hctx, hm, requestFrame, Bool.not_true,
      Bool.or_false, Bool.false_eq_true, if_false]
  · simp only [interactiveFrame, hc, hctx, hm, Bool.not_true, Bool.or_false, Bool.false_eq_true,
      if_false]
  · rw [hps]
    have h := interactiveLoop_block M s.mouseX s.mouseY p post pre []
    simpa using h
  · exact ⟨(lineTo_spec M a b).1, (lineTo_spec M a b).2.1⟩

/-- C19 amended, on the desktop page with the collection `[pairLeft, pairRight]`: the
visit of the second particle. -/
theorem proximity_lines_by_visit_witness :
    (interactiveLoop realMath (0 : ℝ) 0 [] [pairLeft ℝ, pairRight ℝ]).2[1]? =
      some (arcOf realMath (interactiveStep realMath 0 0 (pairRight ℝ)) ::
        ([pairLeft ℝ].map (interactiveStep realMath 0 0) ++ []).filterMap
          (lineTo realMath (interactiveStep realMath 0 0 (pairRight ℝ)))) :=
  (proximity_lines_by_visit realMath
    { desktopPage ℝ with interactive := [pairLeft ℝ, pairRight ℝ] } ⟨300, 150, true⟩
    rfl rfl rfl [pairLeft ℝ] [] (pairRight ℝ) rfl).2.2.2.1

/-! ## C20: the page-visibility flag -/

/-- C20. While `STATE.pageHidden` is set, one call of `animateStars` leaves the
collection of stars, and so every field of every star, unchanged and issues no draw
call. The three other animators do not read the flag: called on the hidden page they
do exactly what they do on the visible page, and with canvas and context present
they update their particles (clouds by day, interactive particles on desktop). -/
theorem hidden_freezes_stars_only (M : JsMath α) (s : Page α) (hh : s.pageHidden = true) :
    ((animateStars s).stars = s.stars ∧ animateStarsDraws M s = []) ∧
      (∀ b : Bool,
        animateNebula { s with pageHidden := b } =
            { animateNebula s with pageHidden := b } ∧
          animateClouds M { s with pageHidden := b } =
            { animateClouds M s with pageHidden := b } ∧
          animateInteractiveParticles M { s with pageHidden := b } =
            { animateInteractiveParticles M s with pageHidden := b } ∧
          (interactiveFrame M { s with pageHidden := b }).2 = (interactiveFrame M s).2) ∧
      (∀ c, s.nebulaCanvas = some c → c.ctx = true →
        (animateNebula s).nebula = s.nebula.map (nebulaStep c.width c.height)) ∧
      (∀ c, s.cloudCanvas = some c → c.ctx = true → isDaytime s.hour = true →
        (animateClouds M s).clouds = (cloudsFrame M c.width c.height s.clouds s.rng).1) ∧
      (∀ c, s.particleCanvas = some c → c.ctx = true → s.isMobile = false →
        (animateInteractiveParticles M s).interactive =
          s.interactive.map (interactiveStep M s.mouseX s.mouseY)) := by
  refine ⟨⟨?_, ?_⟩, fun b => ⟨?_, ?_, ?_, ?_⟩, ?_, ?_, ?_⟩
  · unfold animateStars requestFrame
    simp only [hh, Bool.true_or, if_true]
    split <;> rfl
  · unfold animateStarsDraws
    simp only [hh, Bool.true_or, if_true]
    split <;> rfl
  · unfold animateNebula requestFrame
    simp only []
    split
    · rfl
    · split <;> rfl
  · unfold animateClouds requestFrame
    simp only []
    split
    · rfl
    · split
      · rfl
      · split <;> rfl
  · unfold animateInteractiveParticles requestFrame
    simp only []
    split
    · rfl
    · split <;> rfl
  · unfold interactiveFrame
    simp only []
    split
    · rfl
    · split <;> rfl
  · intro c hc hctx
    simp only [animateNebula, hc, hctx, requestFrame, Bool.not_true, Bool.false_eq_true,
      if_false]
  · intro c hc hctx hd
    simp only [animateClouds, hc, hctx, hd, requestFrame, Bool.not_true, Bool.false_eq_true,
      if_false, if_true]
  · intro c hc hctx hm
    simp only [animateInteractiveParticles, hc, hctx, hm, requestFrame, Bool.not_true,
      Bool.or_false, Bool.false_eq_true, if_false]

/-- C20, on the hidden desktop page with one star. -/
theorem hidden_freezes_stars_only_witness :
    (animateStars (hiddenPage ℝ)).stars = (hiddenPage ℝ).stars ∧
      animateStarsDraws realMath (hiddenPage ℝ) = [] :=
  (hidden_freezes_stars_only realMath (hiddenPage ℝ) rfl).1

/-! ## C16: the cursor-move handler -/

theorem nudgeHomes_nudged (M : JsMath α) (cx cy : α) (ps : List (Interactive α)) :
    ∀ g : Rng α, g.Unit → List.Forall₂ (Nudged M cx cy) ps (nudgeHomes M cx cy ps g).1 := by
  induction ps with
  | nil => intro g _; exact List.Forall₂.nil
  | cons p ps ih =>
    intro g hg
    unfold nudgeHomes
    split
    · rename_i hlt
      refine List.Forall₂.cons ⟨rfl, fun _ => ?_, fun h => absurd hlt h⟩ (ih _ (hg.drop 2))
      have h0 := hg.get_nonneg 0
      have h0' := hg.get_lt_one 0
      have h1 := hg.get_nonneg 1
      have h1' := hg.get_lt_one 1
      refine ⟨?_, ?_, ?_, ?_⟩
      · show cx - 50 ≤ cx + (g.get 0 - 0.5) * 100
        norm_num; linarith
      · show cx + (g.get 0 - 0.5) * 100 ≤ cx + 50
        norm_num; linarith
      · show cy - 50 ≤ cy + (g.get 1 - 0.5) * 100
        norm_num; linarith
      · show cy + (g.get 1 - 0.5) * 100 ≤ cy + 50
        norm_num; linarith
    · rename_i hge
      exact List.Forall₂.cons ⟨rfl, fun h => absurd h hge, fun _ => ⟨rfl, rfl⟩⟩ (ih _ hg)

/-- C16 as stated fails: on the page `pageCursorAway`, where `STATE.cursorVisible` is
`false`, the handler for a cursor move to `(0, 100)` leaves the particle at the
origin, 100 units from the cursor, with its home `(10, 0)`, which is not within 50
units of the cursor on the `y` axis. -/
theorem mouse_move_counterexample :
    distTo realMath 0 100 (particleAtOrigin ℝ).x (particleAtOrigin ℝ).y < 200 ∧
      (handleMouseMove realMath 0 100 (pageCursorAway ℝ)).interactive =
        [particleAtOrigin ℝ] ∧
      ¬ ((100 : ℝ) - 50 ≤ (particleAtOrigin ℝ).baseY) := by
  refine ⟨?_, rfl, ?_⟩
  · show Real.sqrt ((0 - 0) * (0 - 0) + (100 - 0) * (100 - 0)) < (200 : ℝ)
    rw [sqrt_of_sq _ 100 (by norm_num) (by norm_num)]
    norm_num
  · show ¬ ((100 : ℝ) - 50 ≤ 0)
    norm_num

/-- C16, amended. The handler for a cursor move to `(cx, cy)` records the cursor
position. While `STATE.cursorVisible` is set (and the random draws are in `[0, 1)`)
it then gives every interactive particle within 200 units of `(cx, cy)` a home with
`cx - 50 ≤ baseX ≤ cx + 50` and `cy - 50 ≤ baseY ≤ cy + 50`, leaves the home of every
other particle as it is, and changes no other field of any particle, in particular no
position. While `STATE.cursorVisible` is not set it changes no particle at all. -/
theorem mouse_move_homes (M : JsMath α) (cx cy : α) (s : Page α) (hg : s.rng.Unit) :
    (handleMouseMove M cx cy s).mouseX = cx ∧ (handleMouseMove M cx cy s).mouseY = cy ∧
      (s.cursorVisible = true →
        List.Forall₂ (Nudged M cx cy) s.interactive (handleMouseMove M cx cy s).interactive) ∧
      (s.cursorVisible = false →
        (handleMouseMove M cx cy s).interactive = s.interactive) := by
  refine ⟨?_, ?_, fun hv => ?_, fun hv => ?_⟩
  · unfold handleMouseMove
    simp only []
    split <;> rfl
  · unfold handleMouseMove
    simp only []
    split <;> rfl
  · simp only [handleMouseMove, hv, Bool.not_true, Bool.false_eq_true, if_false]
    exact nudgeHomes_nudged M cx cy s.interactive s.rng hg
  · simp only [handleMouseMove, hv, Bool.not_false, if_true]

/-- C16 amended, for a cursor move to `(3, 4)` on the desktop page. -/
theorem mouse_move_homes_witness :
    List.Forall₂ (Nudged realMath 3 4) [particleAtOrigin ℝ]
      (handleMouseMove realMath 3 4
        { desktopPage ℝ with interactive := [particleAtOrigin ℝ] }).interactive :=
  (mouse_move_homes realMath 3 4 { desktopPage ℝ with interactive := [particleAtOrigin ℝ] }
    (fun _ => by show (0 : ℝ) ≤ 1 / 2 ∧ (1 / 2 : ℝ) < 1; norm_num)).2.2.1 rfl

/-! ## C15: a frame always requests the next frame -/

theorem animateStarsTry_scheduled (fault : Fault) (s : Page α) :
    (animateStarsTry fault s).scheduled = s.scheduled ++ [Animator.stars] := by
  unfold animateStarsTry
  split
  · rfl
  · split
    · rfl
    · rename_i c _ _
      have h : (starsBody fault c s).state.scheduled = s.scheduled := by
        unfold starsBody
        cases fault with
        | never => rfl
        | atClear => rfl
        | atParticle k => simp only []; split <;> rfl
      cases hb : starsBody fault c s with
      | normal t => rw [hb] at h; exact congrArg (· ++ [Animator.stars]) h
      | thrown t => rw [hb] at h; exact congrArg (· ++ [Animator.stars]) h

theorem animateNebulaTry_scheduled (fault : Fault) (s : Page α) :
    (animateNebulaTry fault s).scheduled = s.scheduled ++ [Animator.nebula] := by
  unfold animateNebulaTry
  split
  · rfl
  · split
    · rfl
    · rename_i c _ _
      have h : (nebulaBody fault c s).state.scheduled = s.scheduled := by
        unfold nebulaBody
        cases fault with
        | never => rfl
        | atClear => rfl
        | atParticle k => simp only []; split <;> rfl
      cases hb : nebulaBody fault c s with
      | normal t => rw [hb] at h; exact congrArg (· ++ [Animator.nebula]) h
      | thrown t => rw [hb] at h; exact congrArg (· ++ [Animator.nebula]) h

theorem animateCloudsTry_scheduled (M : JsMath α) (fault : Fault) (s : Page α) :
    (animateCloudsTry M fault s).scheduled = s.scheduled ++ [Animator.clouds] := by
  unfold animateCloudsTry
  split
  · rfl
  · split
    · rfl
    · rename_i c _ _
      have h : (cloudsBody M fault c s).state.scheduled = s.scheduled := by
        unfold cloudsBody
        cases fault with
        | never => simp only []; split <;> rfl
        | atClear => rfl
        | atParticle k =>
          simp only []
          split
          · rfl
          · split <;> rfl
      cases hb : cloudsBody M fault c s with
      | normal t => rw [hb] at h; exact congrArg (· ++ [Animator.clouds]) h
      | thrown t => rw [hb] at h; exact congrArg (· ++ [Animator.clouds]) h

theorem animateInteractiveTry_scheduled (M : JsMath α) (fault : Fault) (s : Page α) :
    (animateInteractiveTry M fault s).scheduled = s.scheduled ++ [Animator.interactive] := by
  unfold animateInteractiveTry
  split
  · rfl
  · split
    · rfl
    · have h : (interactiveBody M fault s).state.scheduled = s.scheduled := by
        unfold interactiveBody
        cases fault with
        | never => rfl
        | atClear => rfl
        | atParticle k => simp only []; split <;> rfl
      cases hb : interactiveBody M fault s with
      | normal t => rw [hb] at h; exact congrArg (· ++ [Animator.interactive]) h
      | thrown t => rw [hb] at h; exact congrArg (· ++ [Animator.interactive]) h

/-- Without an exception the frames are those of the animators. -/
theorem animateTry_never (M : JsMath α) (s : Page α) :
    animateStarsTry .never s = animateStars s ∧ animateNebulaTry .never s = animateNebula s ∧
      animateCloudsTry M .never s = animateClouds M s ∧
      animateInteractiveTry M .never s = animateInteractiveParticles M s := by
  refine ⟨?_, ?_, ?_, ?_⟩
  · unfold animateStarsTry animateStars
    split
    · rfl
    · split <;> rfl
  · unfold animateNebulaTry animateNebula
    split
    · rfl
    · split <;> rfl
  · unfold animateCloudsTry animateClouds cloudsBody
    split
    · rfl
    · split
      · rfl
      · simp only []
        split <;> rfl
  · unfold animateInteractiveTry animateInteractiveParticles
    split
    · rfl
    · split <;> rfl

/-- C15. Every call of each of the four animators returns to its caller and requests
exactly one next frame, whether it takes the early return, runs its body to the end,
or a drawing call throws anywhere in the body; such an exception does end the `try`
block (at `clearRect`, with nothing updated), but the `catch` clause of the same call
absorbs it. -/
theorem frame_requests_next_frame (M : JsMath α) (fault : Fault) (s : Page α) :
    (animateStarsTry fault s).scheduled = s.scheduled ++ [Animator.stars] ∧
      (animateNebulaTry fault s).scheduled = s.scheduled ++ [Animator.nebula] ∧
      (animateCloudsTry M fault s).scheduled = s.scheduled ++ [Animator.clouds] ∧
      (animateInteractiveTry M fault s).scheduled =
        s.scheduled ++ [Animator.interactive] ∧
      (animateStarsTry .never s = animateStars s ∧
        animateNebulaTry .never s = animateNebula s ∧
        animateCloudsTry M .never s = animateClouds M s ∧
        animateInteractiveTry M .never s = animateInteractiveParticles M s) ∧
      (∀ c : Canvas α,
        starsBody .atClear c s = .thrown s ∧ nebulaBody .atClear c s = .thrown s ∧
          cloudsBody M .atClear c s = .thrown s ∧ interactiveBody M .atClear s = .thrown s) :=
  ⟨animateStarsTry_scheduled fault s, animateNebulaTry_scheduled fault s,
    animateCloudsTry_scheduled M fault s, animateInteractiveTry_scheduled M fault s,
    animateTry_never M s, fun _ => ⟨rfl, rfl, rfl, rfl⟩⟩

/-! ## C14: reduced motion -/

theorem Completion.andThen_state {σ : Type} (P : σ → Prop) (c : Completion σ)
    (f : σ → Completion σ) (hc : P c.state) (hf : ∀ t, P t → P (f t).state) :
    P (c.andThen f).state := by
  cases c with
  | normal t => exact hf t hc
  | thrown t => exact hc

theorem still_of_shell {s t : Page α} (hs : Still s) (h : SameShell s t)
    (hsch : t.scheduled = s.scheduled) : Still t :=
  ⟨hsch.trans hs.1, h.2.2.1.trans hs.2⟩

theorem initParticles_still (M : JsMath α) (s : Page α) (hs : Still s)
    (f : Page α → Completion (Page α)) (hf : ∀ t, Still t → Still (f t).state) :
    Still ((initStars M s).andThen fun s =>
      (initNebula M s).andThen fun s =>
        (initClouds M s).andThen fun s =>
          (initInteractiveParticles M s).andThen f).state := by
  refine Completion.andThen_state Still _ _
    (still_of_shell hs (initStars_shell M s).1 (initStars_shell M s).2) fun t1 h1 => ?_
  refine Completion.andThen_state Still _ _
    (still_of_shell h1 (initNebula_shell M t1).1 (initNebula_shell M t1).2) fun t2 h2 => ?_
  refine Completion.andThen_state Still _ _
    (still_of_shell h2 (initClouds_shell M t2).1 (initClouds_shell M t2).2) fun t3 h3 => ?_
  exact Completion.andThen_state Still _ _
    (still_of_shell h3 (initInteractive_shell M t3).1 (initInteractive_shell M t3).2) hf

/-- With the reduced-motion preference set, `init` requests no frame. -/
theorem init_still (M : JsMath α) (s : Page α) (hs : Still s) : Still (init M s) := by
  unfold init
  split
  · exact hs
  · obtain ⟨t, et, sh, q⟩ := setupCanvas_spec M (setupEventListeners s)
    have hred : (resizeAllCanvas (setupEventListeners s)).isReducedMotion = true := hs.2
    have hloops : loopsStarted (resizeAllCanvas (setupEventListeners s)) = [] := by
      simp only [loopsStarted, hred, if_true]
    have ht : Still t := by
      refine ⟨?_, sh.2.2.1.trans hred⟩
      rw [q, hloops, List.append_nil]
      exact hs.1
    have hbody : Still (initBody M s).state := by
      unfold initBody
      rw [et]
      show Still ((initStars M t).andThen _).state
      refine initParticles_still M t ht _ fun u hu => ?_
      show Still { setupCustomCursor u with initialized := true }
      unfold setupCustomCursor
      split
      · exact hu
      · exact hu
    cases hb : initBody M s with
    | normal u => rw [hb] at hbody; exact hbody
    | thrown u =>
      rw [hb] at hbody
      show Still (showToast initErrorMessage "error" u)
      unfold showToast
      split
      · exact hbody
      · exact hbody

theorem pageStep_still (M : JsMath α) (e : Event α) (s : Page α) (hs : Still s) :
    Still (pageStep M e s) ∧ (∀ a, e = .frame a → pageStep M e s = s) := by
  cases e with
  | frame a =>
    have h : fireFrame M a s = s := by
      unfold fireFrame
      rw [hs.1]
      simp
    exact ⟨by show Still (fireFrame M a s); rw [h]; exact hs, fun _ _ => h⟩
  | resize w h =>
    refine ⟨?_, fun a ha => by cases ha⟩
    show Still (applyEvent M (.resize w h) s)
    have hk : Still ({ s with innerWidth := w, innerHeight := h } : Page α) := hs
    have hr : Still (handleResize M { s with innerWidth := w, innerHeight := h }).state := by
      have h1 := initParticles_still M
        (resizeAllCanvas { s with innerWidth := w, innerHeight := h }) hk
        (fun t => Completion.normal t) (fun t ht => ht)
      have e1 : ∀ c : Completion (Page α), (c.andThen fun t => Completion.normal t) = c := by
        intro c; cases c <;> rfl
      unfold handleResize
      simp only [e1] at h1
      exact h1
    simp only [applyEvent]
    cases hb : handleResize M { s with innerWidth := w, innerHeight := h } with
    | normal u => rw [hb] at hr; exact hr
    | thrown u =>
      rw [hb] at hr
      show Still (showToast globalErrorMessage "error" u)
      unfold showToast
      split
      · exact hr
      · exact hr
  | mouseMove cx cy =>
    refine ⟨?_, fun a ha => by cases ha⟩
    show Still (applyEvent M (.mouseMove cx cy) s)
    simp only [applyEvent]
    split
    · exact hs
    · unfold handleMouseMove
      simp only []
      split
      · exact hs
      · exact hs
  | mouseEnter =>
    refine ⟨?_, fun a ha => by cases ha⟩
    show Still (applyEvent M .mouseEnter s)
    simp only [applyEvent]
    split
    · exact hs
    · exact hs
  | mouseLeave =>
    refine ⟨?_, fun a ha => by cases ha⟩
    show Still (applyEvent M .mouseLeave s)
    simp only [applyEvent]
    split
    · exact hs
    · exact hs
  | visibility hidden => exact ⟨hs, fun a ha => by cases ha⟩
  | clock hour => exact ⟨hs, fun a ha => by cases ha⟩

theorem pageRun_still (M : JsMath α) (es : List (Event α)) :
    ∀ s : Page α, Still s → Still (pageRun M es s) ∧ framesFired M es s = [] := by
  induction es with
  | nil => intro s hs; exact ⟨hs, rfl⟩
  | cons e es ih =>
    intro s hs
    obtain ⟨h1, h2⟩ := ih _ (pageStep_still M e s hs).1
    refine ⟨h1, ?_⟩
    cases e with
    | frame a =>
      show (if a ∈ s.scheduled then [a] else []) ++ framesFired M es _ = []
      rw [h2, hs.1]
      simp
    | resize w h => exact h2
    | mouseMove cx cy => exact h2
    | mouseEnter => exact h2
    | mouseLeave => exact h2
    | visibility hidden => exact h2
    | clock hour => exact h2

/-- C14. On a page loaded with the reduced-motion preference set (and no frame
requested yet), `setupCanvas` calls no animator and requests no frame, and neither
does the rest of `init`; so in every later course of events no animator is ever
called: no render pass takes place (in particular not more than one) and no frame
changes the page, its particle collections included. -/
theorem reduced_motion_static (M : JsMath α) (s0 : Page α)
    (hred : s0.isReducedMotion = true) (hsch : s0.scheduled = []) (es : List (Event α)) :
    startLoops M s0 = s0 ∧ (setupCanvas M s0).state.scheduled = [] ∧
      (init M s0).scheduled = [] ∧ framesFired M es (init M s0) = [] ∧
      (pageRun M es (init M s0)).scheduled = [] ∧
      (∀ a, pageStep M (.frame a) (pageRun M es (init M s0)) = pageRun M es (init M s0)) := by
  have hs : Still s0 := ⟨hsch, hred⟩
  have hi := init_still M s0 hs
  obtain ⟨hr, hf⟩ := pageRun_still M es _ hi
  refine ⟨?_, ?_, hi.1, hf, hr.1, fun a => (pageStep_still M _ _ hr).2 a rfl⟩
  · simp only [startLoops, hred, Bool.not_true, Bool.false_eq_true, if_false]
  · obtain ⟨t, et, -, q⟩ := setupCanvas_spec M s0
    have hred2 : (resizeAllCanvas s0).isReducedMotion = true := hred
    rw [et]
    show t.scheduled = []
    rw [q, hsch]
    simp only [loopsStarted, hred2, if_true, List.append_nil]

/-- C14, on the reduced-motion desktop page, for two frame events after a resize. -/
theorem reduced_motion_static_witness :
    framesFired realMath [.resize 800 600, .frame .stars, .frame .clouds]
        (init realMath (reducedMotionPage ℝ)) = [] ∧
      (pageRun realMath [.resize 800 600, .frame .stars, .frame .clouds]
        (init realMath (reducedMotionPage ℝ))).scheduled = [] :=
  have h := reduced_motion_static realMath (reducedMotionPage ℝ) rfl rfl
    [.resize 800 600, .frame .stars, .frame .clouds]
  ⟨h.2.2.2.1, h.2.2.2.2.1⟩

/-! ## C17: the debounced resize handler -/

theorem debounceRuns_burst {A : Type} (wait : Nat) (l : List (Nat × A)) :
    ∀ (hl : l ≠ []) (d : Debounced A),
      List.Chain' (fun x y : Nat × A => x.1 ≤ y.1 ∧ y.1 < x.1 + wait) l →
      (∀ due args, d.timeout = some (due, args) → ∀ e ∈ l.head?, e.1 < due) →
      debounceRuns wait l d = [((l.getLast hl).1 + wait, (l.getLast hl).2)] := by
  induction l with
  | nil => intro hl; exact absurd rfl hl
  | cons e rest ih =>
    intro hl d hch hd
    obtain ⟨t, args⟩ := e
    have hel : d.elapse t = (d, []) := by
      unfold Debounced.elapse
      rcases hto : d.timeout with _ | ⟨due, a⟩
      · rfl
      · have := hd due a hto (t, args) (by simp)
        simp only [not_le.2 this, if_false]
    cases rest with
    | nil =>
      simp only [debounceRuns, hel, Debounced.call, List.nil_append, List.getLast_singleton]
    | cons e2 rest2 =>
      have hch2 := List.chain'_cons.1 hch
      have := ih (by simp) ((d.elapse t).1.call wait t args) hch2.2 (by
        intro due a hto e he
        simp only [Debounced.call] at hto
        simp only [List.head?_cons, Option.mem_def, Option.some.injEq] at he
        cases hto
        subst he
        exact hch2.1.2)
      rw [debounceRuns, hel, List.nil_append]
      rw [hel] at this
      rw [this]
      simp only [List.getLast_cons_cons]

theorem debounceRuns_append {A : Type} (wait : Nat) (pre es : List (Nat × A)) :
    ∀ d : Debounced A, ∃ (runs : List (Nat × A)) (d2 : Debounced A),
      debounceRuns wait (pre ++ es) d = runs ++ debounceRuns wait es d2 := by
  induction pre with
  | nil => intro d; exact ⟨[], d, rfl⟩
  | cons e pre ih =>
    intro d
    obtain ⟨t, args⟩ := e
    obtain ⟨runs, d2, h⟩ := ih ((d.elapse t).1.call wait t args)
    exact ⟨(d.elapse t).2 ++ runs, d2, by
      rw [List.cons_append, debounceRuns, h, List.append_assoc]⟩

theorem debounceRuns_quiet {A : Type} (wait : Nat) (pre post : List (Nat × A)) (t : Nat)
    (args : A) (d : Debounced A) (hq : ∀ e ∈ post.head?, t + wait ≤ e.1) :
    ∃ before : List (Nat × A),
      debounceRuns wait (pre ++ (t, args) :: post) d =
        before ++ (t + wait, args) :: debounceRuns wait post ⟨none⟩ := by
  obtain ⟨runs, d2, h⟩ := debounceRuns_append wait pre ((t, args) :: post) d
  refine ⟨runs ++ (d2.elapse t).2, ?_⟩
  rw [h, debounceRuns, List.append_assoc]
  congr 2
  cases post with
  | nil => simp [debounceRuns, Debounced.call]
  | cons e2 rest =>
    obtain ⟨t2, a2⟩ := e2
    have hle : t + wait ≤ t2 := hq (t2, a2) (by simp)
    simp [debounceRuns, Debounced.call, Debounced.elapse, hle]

/-- C17. Timers are taken to run exactly when they are due. For a sequence of resize
events in which each event follows the previous one by less than 250 ms,
`handleResize` is called exactly once, 250 ms after the last event and with the
arguments of that event; and a resize event that is followed by at least 250 ms
without a further resize event gives rise to a call 250 ms after it, whatever came
before, after which the handler is as it was at the start. -/
theorem debounce_resize {A : Type} (es : List (Nat × A)) (e : Nat × A)
    (hburst : List.Chain' (fun x y : Nat × A => x.1 ≤ y.1 ∧ y.1 < x.1 + 250) (es ++ [e])) :
    resizeRuns (es ++ [e]) = [(e.1 + 250, e.2)] ∧
      (∀ (pre post : List (Nat × A)) (t : Nat) (args : A) (d : Debounced A),
        (∀ x ∈ post.head?, t + 250 ≤ x.1) →
        ∃ before : List (Nat × A),
          debounceRuns 250 (pre ++ (t, args) :: post) d =
            before ++ (t + 250, args) :: debounceRuns 250 post ⟨none⟩) := by
  refine ⟨?_, fun pre post t args d hq => debounceRuns_quiet 250 pre post t args d hq⟩
  have h := debounceRuns_burst 250 (es ++ [e]) (by simp) ⟨none⟩ hburst
    (by intro due args hto; cases hto)
  unfold resizeRuns
  rw [h]
  simp only [List.getLast_append_singleton]

/-- C17, for resize events at 0, 100 and 300 ms. -/
theorem debounce_resize_witness :
    resizeRuns ([(0, "a"), (100, "b")] ++ [(300, "c")]) = [(300 + 250, "c")] :=
  (debounce_resize [(0, "a"), (100, "b")] (300, "c") (by
    simp [List.Chain'])).1

/-! ## C24: the typing effect -/

theorem getElem?_of_lt_length {β : Type} (l : List β) (i : Nat) (h : i < l.length) :
    ∃ b, l[i]? = some b ∧ b ∈ l :=
  ⟨l[i], List.getElem?_eq_getElem h, List.getElem_mem h⟩

/-- One call of `typeWriter` in a state that satisfies the invariant does not throw,
keeps the invariant, and leaves the prefix of length `charIndex` of the (new) current
text in the element. -/
theorem typeWriter_inv (texts : List (List Nat)) (hne : ∀ t ∈ texts, t ≠ [])
    (s : Typing) (hs : TypingInv texts s) (d : List Nat) (hd : s.textContent = some d) :
    ∃ s2 text2, typeWriter texts s = some s2 ∧ TypingInv texts s2 ∧
      texts[s2.textIndex]? = some text2 ∧
      s2.textContent = some (text2.take s2.charIndex.toNat) := by
  obtain ⟨text, ht, h0, h1, h2, h3⟩ := hs
  have hlt : s.textIndex < texts.length := (List.getElem?_eq_some_iff.1 ht).1
  unfold typeWriter
  simp only [hd, ht]
  cases hdel : s.isDeleting with
  | true =>
    have hc := h2 hdel
    simp only [if_true]
    by_cases hz : s.charIndex - 1 = 0
    · simp only [if_pos hz]
      have hn : 0 < texts.length := Nat.lt_of_le_of_lt (Nat.zero_le _) hlt
      obtain ⟨t2, ht2, hmem⟩ := getElem?_of_lt_length texts ((s.textIndex + 1) % texts.length)
        (Nat.mod_lt _ hn)
      have hlen : 0 < t2.length := List.length_pos.2 (hne t2 hmem)
      refine ⟨_, t2, rfl, ⟨t2, ht2, ?_, ?_, ?_, ?_⟩, ht2, ?_⟩
      · show 0 ≤ s.charIndex - 1
        omega
      · show s.charIndex - 1 ≤ (t2.length : Int)
        omega
      · intro h; cases h
      · intro _
        show s.charIndex - 1 < (t2.length : Int)
        omega
      · show some (text.take (s.charIndex - 1).toNat) = some (t2.take (s.charIndex - 1).toNat)
        rw [hz]
        rfl
    · simp only [if_neg hz]
      refine ⟨_, text, rfl, ⟨text, ht, ?_, ?_, ?_, ?_⟩, ht, rfl⟩
      · show 0 ≤ s.charIndex - 1
        omega
      · show s.charIndex - 1 ≤ (text.length : Int)
        omega
      · intro _
        show 1 ≤ s.charIndex - 1
        omega
      · intro h
        simp [hdel] at h
  | false =>
    have hc := h3 hdel
    simp only [Bool.false_eq_true, if_false]
    by_cases hz : s.charIndex + 1 = (text.length : Int)
    · simp only [if_pos hz]
      refine ⟨_, text, rfl, ⟨text, ht, ?_, ?_, ?_, ?_⟩, ht, rfl⟩
      · show 0 ≤ s.charIndex + 1
        omega
      · show s.charIndex + 1 ≤ (text.length : Int)
        omega
      · intro _
        show 1 ≤ s.charIndex + 1
        omega
      · intro h; cases h
    · simp only [if_neg hz]
      refine ⟨_, text, rfl, ⟨text, ht, ?_, ?_, ?_, ?_⟩, ht, rfl⟩
      · show 0 ≤ s.charIndex + 1
        omega
      · show s.charIndex + 1 ≤ (text.length : Int)
        omega
      · intro h
        simp [hdel] at h
      · intro _
        show s.charIndex + 1 < (text.length : Int)
        omega

/-- The invariant holds after every number of calls. -/
theorem typeWriterRun_inv (texts : List (List Nat)) (hne : ∀ t ∈ texts, t ≠ [])
    (hpos : 0 < texts.length) (content : List Nat) (n : Nat) :
    ∃ s text d, typeWriterRun texts n (typingStart content) = some s ∧
      TypingInv texts s ∧ texts[s.textIndex]? = some text ∧ s.textContent = some d ∧
      (0 < n → d = text.take s.charIndex.toNat) ∧ (n = 0 → d = content) := by
  induction n with
  | zero =>
    obtain ⟨t0, ht0, hmem⟩ := getElem?_of_lt_length texts 0 hpos
    have hlen : 0 < t0.length := List.length_pos.2 (hne t0 hmem)
    refine ⟨typingStart content, t0, content, rfl, ⟨t0, ht0, le_refl 0, ?_, ?_, ?_⟩, ht0, rfl,
      fun h => absurd h (lt_irrefl 0), fun _ => rfl⟩
    · exact Int.natCast_nonneg _
    · intro h; cases h
    · intro _
      exact Int.natCast_pos.2 hlen
  | succ n ih =>
    obtain ⟨s, text, d, hrun, hinv, -, hd, -, -⟩ := ih
    obtain ⟨s2, text2, hstep, hinv2, ht2, hd2⟩ := typeWriter_inv texts hne s hinv d hd
    refine ⟨s2, text2, _, ?_, hinv2, ht2, hd2, fun _ => rfl, fun h => by cases h⟩
    rw [typeWriterRun, hrun]
    exact hstep

theorem typeWriterRun_succ (texts : List (List Nat)) (n : Nat) (s t : Typing)
    (h : typeWriterRun texts n s = some t) :
    typeWriterRun texts (n + 1) s = typeWriter texts t := by
  rw [typeWriterRun, h]
  rfl

/-- Typing the text `i`: after `k` calls, `k` below the length, `k` units are typed. -/
theorem typing_phase (texts : List (List Nat)) (i : Nat) (text : List Nat)
    (ht : texts[i]? = some text) (c : List Nat) :
    ∀ k, k < text.length →
      ∃ d, typeWriterRun texts k ⟨i, 0, false, some c⟩ = some ⟨i, (k : Int), false, some d⟩ := by
  intro k
  induction k with
  | zero => intro _; exact ⟨c, rfl⟩
  | succ k ih =>
    intro hk
    obtain ⟨d, hd⟩ := ih (Nat.lt_of_succ_lt hk)
    have hz : ¬ ((k : Int) + 1 = (text.length : Int)) := by omega
    refine ⟨substring0 text ((k : Int) + 1), ?_⟩
    rw [typeWriterRun_succ texts k _ _ hd]
    simp only [typeWriter, ht, Bool.false_eq_true, if_false, if_neg hz, Nat.cast_succ]

/-- After as many calls as the text `i` is long the text is typed and deleting
begins. -/
theorem typed_fully (texts : List (List Nat)) (i : Nat) (text : List Nat)
    (ht : texts[i]? = some text) (hlen : 0 < text.length) (c : List Nat) :
    typeWriterRun texts text.length ⟨i, 0, false, some c⟩ =
      some ⟨i, (text.length : Int), true, some text⟩ := by
  obtain ⟨k, hk⟩ : ∃ k, text.length = k + 1 := ⟨text.length - 1, by omega⟩
  obtain ⟨d, hd⟩ := typing_phase texts i text ht c k (by omega)
  have hz : (k : Int) + 1 = (text.length : Int) := by omega
  rw [hk, typeWriterRun_succ texts k _ _ hd]
  simp only [typeWriter, ht, Bool.false_eq_true, if_false, if_pos hz, Nat.cast_succ,
    substring0]
  have htake : text.take ((k : Int) + 1).toNat = text := by
    rw [hz, Int.toNat_ofNat]
    exact List.take_length text
  rw [htake]

/-- Deleting the text `i`: `j` calls after it was typed, `j` below the length, `j`
units are deleted. -/
theorem deleting_phase (texts : List (List Nat)) (i : Nat) (text : List Nat)
    (ht : texts[i]? = some text) (hlen : 0 < text.length) (c : List Nat) :
    ∀ j, j < text.length →
      typeWriterRun texts (text.length + j) ⟨i, 0, false, some c⟩ =
        some ⟨i, (text.length : Int) - j, true,
          some (text.take ((text.length : Int) - j).toNat)⟩ := by
  intro j
  induction j with
  | zero =>
    intro _
    rw [Nat.add_zero, typed_fully texts i text ht hlen c]
    simp
  | succ j ih =>
    intro hj
    have hprev := ih (Nat.lt_of_succ_lt hj)
    have hz : ¬ ((text.length : Int) - (j : Int) - 1 = 0) := by omega
    rw [← Nat.add_assoc, typeWriterRun_succ texts _ _ _ hprev]
    simp only [typeWriter, ht, if_true, if_neg hz, substring0, Nat.cast_succ]
    have e : (text.length : Int) - (j : Int) - 1 = (text.length : Int) - ((j : Int) + 1) := by
      omega
    rw [e]

/-- Typing and deleting the text `i` takes twice its length in calls, during which
`textIndex` is `i`, and ends at the start of the next text. -/
theorem typing_cycle (texts : List (List Nat)) (i : Nat) (text : List Nat)
    (ht : texts[i]? = some text) (hlen : 0 < text.length) (c : List Nat) :
    typeWriterRun texts (2 * text.length) ⟨i, 0, false, some c⟩ =
        some ⟨(i + 1) % texts.length, 0, false, some []⟩ ∧
      (∀ k, k < 2 * text.length →
        ∃ s, typeWriterRun texts k ⟨i, 0, false, some c⟩ = some s ∧ s.textIndex = i) := by
  constructor
  · obtain ⟨j, hj⟩ : ∃ j, text.length = j + 1 := ⟨text.length - 1, by omega⟩
    have hprev := deleting_phase texts i text ht hlen c j (by omega)
    have hz : (text.length : Int) - (j : Int) - 1 = 0 := by omega
    have e : 2 * text.length = text.length + j + 1 := by omega
    rw [e, typeWriterRun_succ texts _ _ _ hprev]
    simp only [typeWriter, ht, if_true, if_pos hz, substring0, hz, Int.toNat_zero,
      List.take_zero]
  · intro k hk
    by_cases h : k < text.length
    · obtain ⟨d, hd⟩ := typing_phase texts i text ht c k h
      exact ⟨_, hd, rfl⟩
    · obtain ⟨j, hj⟩ : ∃ j, k = text.length + j := ⟨k - text.length, by omega⟩
      have hprev := deleting_phase texts i text ht hlen c j (by omega)
      rw [hj]
      exact ⟨_, hprev, rfl⟩

theorem typingTexts_nonempty : ∀ t ∈ typingTexts, t ≠ [] := by
  decide

/-- C24. From the state in which the page is loaded (`textIndex = 0`, `charIndex = 0`,
not deleting; the element `typing` present, whatever it shows), no call of
`typeWriter` throws, and after every number `n` of calls `textIndex` is a valid index
into `typingTexts`, `0 ≤ charIndex ≤` the length of the current text, and, once a call
has been made, the element shows the prefix of length `charIndex` of the current
text. Typing and deleting a text takes twice its length in calls, during which
`textIndex` does not change, and ends with `textIndex` advanced by one modulo the
number of texts, `charIndex = 0` and the element empty. Lengths are in UTF-16 code
units. -/
theorem typing_effect_invariant (content : List Nat) (n : Nat) :
    (∃ s text, typeWriterRun typingTexts n (typingStart content) = some s ∧
        typingTexts[s.textIndex]? = some text ∧ s.textIndex < typingTexts.length ∧
        0 ≤ s.charIndex ∧ s.charIndex ≤ (text.length : Int) ∧
        (0 < n → s.textContent = some (text.take s.charIndex.toNat)) ∧
        (n = 0 → s.textContent = some content)) ∧
      (∀ (i : Nat) (text c : List Nat), typingTexts[i]? = some text →
        typeWriterRun typingTexts (2 * text.length) ⟨i, 0, false, some c⟩ =
            some ⟨(i + 1) % typingTexts.length, 0, false, some []⟩ ∧
          (∀ k, k < 2 * text.length →
            ∃ s, typeWriterRun typingTexts k ⟨i, 0, false, some c⟩ = some s ∧
              s.textIndex = i)) := by
  constructor
  · obtain ⟨s, text, d, hrun, ⟨t, ht, h0, h1, -, -⟩, htext, hd, hshow, hstart⟩ :=
      typeWriterRun_inv typingTexts typingTexts_nonempty (by decide) content n
    have htt : t = text := Option.some.inj (ht.symm.trans htext)
    subst htt
    refine ⟨s, t, hrun, htext, (List.getElem?_eq_some_iff.1 htext).1, h0, h1, ?_, ?_⟩
    · intro hn
      rw [hd, hshow hn]
    · intro hn
      rw [hd, hstart hn]
  · intro i text c ht
    have hmem : text ∈ typingTexts := by
      obtain ⟨h, e⟩ := List.getElem?_eq_some_iff.1 ht
      rw [← e]
      exact List.getElem_mem h
    exact typing_cycle typingTexts i text ht
      (List.length_pos.2 (typingTexts_nonempty text hmem)) c

/-! ## C21: clouds by day and by night -/

theorem isDaytime_iff (hour : Nat) : isDaytime hour = true ↔ 6 ≤ hour ∧ hour < 18 := by
  simp [isDaytime]

/-- The drift speed of every cloud of the cloud system is at least `0.05`. -/
theorem reachableCloud_dx (M : JsMath α) (c : Cloud α) (hc : ReachableCloud M c) :
    0.05 ≤ c.dx := by
  induction hc with
  | init cw ch g hg =>
    show (0.05 : α) ≤ 0.05 + g.get 4 * 0.15
    have := hg.get_nonneg 4
    norm_num
    linarith
  | step cw ch c g hg _ ih =>
    unfold cloudStep
    simp only []
    split
    · show (0.05 : α) ≤ 0.05 + g.get 3 * 0.15
      have := hg.get_nonneg 3
      norm_num
      linarith
    · exact ih

/-- The daytime pass over the clouds makes of every cloud what `cloudStep` makes of
it, with some state of the random source. -/
theorem cloudsFrame_pointwise (M : JsMath α) (cw ch : α) (cs : List (Cloud α)) :
    ∀ g : Rng α,
      List.Forall₂ (fun c d => ∃ g2 : Rng α, d = (cloudStep M cw ch c g2).1) cs
        (cloudsFrame M cw ch cs g).1 := by
  induction cs with
  | nil => intro g; exact List.Forall₂.nil
  | cons c cs ih =>
    intro g
    exact List.Forall₂.cons ⟨g, rfl⟩ (ih _)

/-- C21. When the local hour is outside `[6, 18)`, one call of `animateClouds` draws
no cloud (at most it clears the canvas) and leaves the collection of clouds, and so
every field of every cloud, unchanged. When the hour is inside `[6, 18)` and canvas
and context are present, the call makes one update step of every cloud; a step that
does not respawn the cloud advances `x` by exactly the drift speed `dx` and the breath
phase by exactly `0.01` (and keeps `y`, the base size, `dx` and `alpha`); and the
drift speed of every cloud of the cloud system is positive. -/
theorem clouds_day_and_night (M : JsMath α) (s : Page α) :
    (¬ (6 ≤ s.hour ∧ s.hour < 18) →
        (animateClouds M s).clouds = s.clouds ∧
        (∀ d ∈ animateCloudsDraws s, ∃ w h, d = CloudDraw.clearRect w h)) ∧
      ((6 ≤ s.hour ∧ s.hour < 18) → ∀ cv, s.cloudCanvas = some cv → cv.ctx = true →
        List.Forall₂ (fun c d => ∃ g2 : Rng α, d = (cloudStep M cv.width cv.height c g2).1)
          s.clouds (animateClouds M s).clouds) ∧
      (∀ (cw ch : α) (c : Cloud α) (g : Rng α),
        ¬ cw < c.x + c.dx - c.baseW * (1 + M.sin (c.breath + 0.01) * 0.05) →
        Drifted c (cloudStep M cw ch c g).1) ∧
      (∀ c : Cloud α, ReachableCloud M c → 0 < c.dx) := by
  refine ⟨fun hn => ?_, fun hd cv hc hctx => ?_, fun cw ch c g hin => ?_, fun c hc => ?_⟩
  · have hnight : isDaytime s.hour = false := by
      rw [Bool.eq_false_iff]
      exact fun h => hn ((isDaytime_iff _).1 h)
    constructor
    · unfold animateClouds requestFrame
      split
      · rfl
      · split
        · rfl
        · simp only [hnight, Bool.false_eq_true, if_false]
    · intro d hd
      unfold animateCloudsDraws at hd
      split at hd
      · simp at hd
      · split at hd
        · simp at hd
        · rename_i cv _ _
          simp only [hnight, Bool.false_eq_true, if_false, List.mem_singleton] at hd
          exact ⟨cv.width, cv.height, hd⟩
  · have hday : isDaytime s.hour = true := (isDaytime_iff _).2 hd
    simp only [animateClouds, hc, hctx, hday, requestFrame, Bool.not_true, Bool.false_eq_true,
      if_false, if_true]
    exact cloudsFrame_pointwise M cv.width cv.height s.clouds s.rng
  · unfold Drifted
    simp only [cloudStep, gt_iff_lt, if_neg hin, and_self]
  · have h := reachableCloud_dx M c hc
    have h5 : (0 : α) < 0.05 := by norm_num
    exact lt_of_lt_of_le h5 h

/-- C21, on the desktop page at 22 o'clock. -/
theorem clouds_day_and_night_witness :
    (animateClouds realMath (nightPage ℝ)).clouds = (nightPage ℝ).clouds ∧
      (∀ d ∈ animateCloudsDraws (nightPage ℝ), ∃ w h, d = CloudDraw.clearRect w h) :=
  (clouds_day_and_night realMath (nightPage ℝ)).1 (by
    show ¬ (6 ≤ 22 ∧ 22 < 18)
    omega)

/-! ## C22: the repulsion branch at distance zero -/

/-- C22 fails on the code. For the particle at the origin and the cursor at `(0, 0)`
(the values `STATE.mouseX` and `STATE.mouseY` have until the first cursor move) the
distance is `0`, which is below 100, so the update step takes the repulsion branch and
divides by that distance: `(0 - x) / 0`. (In JavaScript `0 / 0` is `NaN`; the value the
field division of this model gives is of no significance.) -/
theorem repulsion_divides_by_zero :
    distTo realMath 0 0 (particleAtOrigin ℝ).x (particleAtOrigin ℝ).y = 0 ∧
      distTo realMath 0 0 (particleAtOrigin ℝ).x (particleAtOrigin ℝ).y < 100 ∧
      (interactiveStep realMath 0 0 (particleAtOrigin ℝ)).x =
        (particleAtOrigin ℝ).x - ((0 - (particleAtOrigin ℝ).x) / 0) * ((100 - 0) / 100) * 2 := by
  have hd : Real.sqrt ((0 - (particleAtOrigin ℝ).x) * (0 - (particleAtOrigin ℝ).x) +
      (0 - (particleAtOrigin ℝ).y) * (0 - (particleAtOrigin ℝ).y)) = 0 := by
    simp [particleAtOrigin]
  have hd2 : distTo realMath 0 0 (particleAtOrigin ℝ).x (particleAtOrigin ℝ).y = 0 := hd
  have hlt : Real.sqrt ((0 - (particleAtOrigin ℝ).x) * (0 - (particleAtOrigin ℝ).x) +
      (0 - (particleAtOrigin ℝ).y) * (0 - (particleAtOrigin ℝ).y)) < 100 := by
    rw [hd]; norm_num
  refine ⟨hd2, by rw [hd2]; norm_num, ?_⟩
  simp only [interactiveStep, realMath, if_pos hlt]
  rw [hd]

/-! ## C23: the homes of the interactive particles -/

/-- Every particle `initInteractiveParticles` creates has the home `(0, 0)`; when all
random draws are `r` it lies at `(r * width, r * height)`. -/
theorem initInteractive_created (M : JsMath α) (s t : Page α) (c : Canvas α)
    (hc : s.particleCanvas = some c) (r : α) (hr : ∀ i, s.rng.draws i = r)
    (ht : initInteractiveParticles M s = .normal t) :
    ∀ p ∈ t.interactive,
      p.x = r * c.width ∧ p.y = r * c.height ∧ p.baseX = 0 ∧ p.baseY = 0 := by
  simp only [initInteractiveParticles, hc, Completion.normal.injEq] at ht
  rw [← ht]
  exact forPush_forall_of _ (fun g => ∀ i, g.draws i = r) _
    (fun g hg => ⟨⟨by show g.draws (g.pos + 0) * c.width = _; rw [hg],
      by show g.draws (g.pos + 1) * c.height = _; rw [hg], rfl, rfl⟩, hg⟩) _ [] _ hr (by simp)

/-- When `handleResize` returns, its last step was `initInteractiveParticles`. -/
theorem handleResize_last (M : JsMath α) (s t : Page α) (h : handleResize M s = .normal t) :
    ∃ t3, SameShell (resizeAllCanvas s) t3 ∧ initInteractiveParticles M t3 = .normal t := by
  unfold handleResize at h
  have p1 := (initStars_shell M (resizeAllCanvas s)).1
  cases h1 : initStars M (resizeAllCanvas s) with
  | thrown u => rw [h1] at h; cases h
  | normal t1 =>
    rw [h1] at h p1
    have p2 := (initNebula_shell M t1).1
    cases h2 : initNebula M t1 with
    | thrown u => simp only [Completion.andThen, h2] at h; cases h
    | normal t2 =>
      rw [h2] at p2
      have p3 := (initClouds_shell M t2).1
      cases h3 : initClouds M t2 with
      | thrown u => simp only [Completion.andThen, h2, h3] at h; cases h
      | normal t3 =>
        rw [h3] at p3
        simp only [Completion.andThen, h2, h3] at h
        exact ⟨t3, (p1.trans p2).trans p3, h⟩

/-- After `handleResize` every interactive particle has the home `(0, 0)`. -/
theorem handleResize_homes (M : JsMath α) (m : Bool) (s : Page α) (hk : Keeps m s)
    (r : α) (hr : ∀ i, s.rng.draws i = r) :
    ∃ t, handleResize M s = .normal t ∧
      t.interactive.length = (if m then 20 else 50) ∧
      ∀ p ∈ t.interactive,
        p.x = r * s.innerWidth ∧ p.y = r * s.innerHeight ∧ p.baseX = 0 ∧ p.baseY = 0 := by
  obtain ⟨t, et, -, hcount, -⟩ := handleResize_spec M m s hk
  obtain ⟨t3, sh, e4⟩ := handleResize_last M s t et
  obtain ⟨-, c1, c2, c3, c4, -, -, -, h4, -, -, -, ⟨w4, v4⟩⟩ := resizeAllCanvas_keeps hk
  have hc3 : t3.particleCanvas = some c4 := by
    rw [sh.2.2.2.2.2.2.2.2.1]; exact h4
  have hr3 : ∀ i, t3.rng.draws i = r := by
    intro i
    rw [sh.2.2.2.2.2.2.2.2.2]
    exact hr i
  refine ⟨t, et, ?_, ?_⟩
  · have := congrArg (fun x => x.2.2.2) hcount
    simpa [counts, fixedCounts] using this
  · intro p hp
    have := initInteractive_created M t3 t c4 hc3 r hr3 e4 p hp
    rw [w4, v4] at this
    exact this

/-- On a fresh page with its four canvases `init` runs to its end: the page it leaves
is the one `setupCustomCursor` makes of the freshly initialised collections. -/
theorem init_shape (M : JsMath α) (m : Bool) (s : Page α) (h0 : s.initialized = false)
    (hk : Keeps m s) :
    ∃ t4, init M s = { setupCustomCursor t4 with initialized := true } ∧
      t4.isMobile = s.isMobile ∧ t4.isReducedMotion = s.isReducedMotion ∧
      t4.rng.draws = s.rng.draws := by
  obtain ⟨t, et, sh, -⟩ := setupCanvas_spec M (setupEventListeners s)
  have hk1 : Keeps m (setupEventListeners s) := hk
  have hkt : Keeps m t := (resizeAllCanvas_keeps hk1).1.of_shell sh
  obtain ⟨k1, k2, k3, k4, k5, k6⟩ := hkt
  obtain ⟨c1, h1⟩ := Option.isSome_iff_exists.1 k2
  obtain ⟨c2, h2⟩ := Option.isSome_iff_exists.1 k3
  obtain ⟨c3, h3⟩ := Option.isSome_iff_exists.1 k4
  obtain ⟨c4, h4⟩ := Option.isSome_iff_exists.1 k5
  obtain ⟨t1, t2, t3, t4, e1, e2, e3, e4, sh4, -, -⟩ :=
    initParticles_ok M t c1 c2 c3 c4 h1 h2 h3 h4
  have hinit : init M s = { setupCustomCursor t4 with initialized := true } := by
    simp only [init, h0, initBody, et, e1, e2, e3, e4, Completion.andThen, Bool.false_eq_true,
      if_false]
  have shall := sh.trans sh4
  exact ⟨t4, hinit, shall.2.1, shall.2.2.1, shall.2.2.2.2.2.2.2.2.2⟩

/-- After `init` on a desktop page without reduced motion the home of every
interactive particle is its position, and `init` leaves the sequence of random draws
as it is. -/
theorem init_homes (M : JsMath α) (s : Page α) (h0 : s.initialized = false)
    (hk : Keeps false s) (hr : s.isReducedMotion = false) :
    (∀ p ∈ (init M s).interactive, p.baseX = p.x ∧ p.baseY = p.y) ∧
      (init M s).rng.draws = s.rng.draws := by
  obtain ⟨t4, hinit, hm, hred, hdraws⟩ := init_shape M false s h0 hk
  have hm4 : t4.isMobile = false := hm.trans hk.1
  have hr4 : t4.isReducedMotion = false := hred.trans hr
  rw [hinit]
  constructor
  · intro p hp
    have hp2 : p ∈ (setupCustomCursor t4).interactive := hp
    simp only [setupCustomCursor, hm4, hr4, Bool.or_self, Bool.false_eq_true, if_false,
      List.mem_map] at hp2
    obtain ⟨q, -, hq⟩ := hp2
    rw [← hq]
    exact ⟨rfl, rfl⟩
  · show (setupCustomCursor t4).rng.draws = s.rng.draws
    rw [(setupCustomCursor_spec t4).1.2.2.2.2.2.2.2.2.2]
    exact hdraws

theorem desktopPage_keeps : Keeps false (desktopPage ℝ) :=
  ⟨rfl, rfl, rfl, rfl, rfl, fun _ => by show (0 : ℝ) ≤ 1 / 2 ∧ (1 / 2 : ℝ) < 1; norm_num⟩

/-- C23 fails on the code in its second part. On the desktop page `init` leaves every
interactive particle with its home at its position; but after a resize to 800 by 600
`handleResize` has created 50 new particles, each at `(400, 300)` (all random draws
being `1/2`) with the home `(0, 0)`: `handleResize` does not call `setupCustomCursor`,
which is the function that sets the homes to the positions. -/
theorem resize_homes_at_origin :
    (∀ p ∈ (init realMath (desktopPage ℝ)).interactive, p.baseX = p.x ∧ p.baseY = p.y) ∧
      ∃ t, handleResize realMath
            { init realMath (desktopPage ℝ) with innerWidth := 800, innerHeight := 600 } =
          .normal t ∧
        t.interactive.length = 50 ∧
        ∀ p ∈ t.interactive, p.x = 400 ∧ p.y = 300 ∧ p.baseX = 0 ∧ p.baseY = 0 := by
  obtain ⟨hhome, hdraws⟩ := init_homes realMath (desktopPage ℝ) rfl desktopPage_keeps rfl
  obtain ⟨hk, -⟩ := init_ready realMath false (desktopPage ℝ) rfl desktopPage_keeps
  have hk2 : Keeps false
      { init realMath (desktopPage ℝ) with innerWidth := 800, innerHeight := 600 } := hk
  have hr : ∀ i,
      ({ init realMath (desktopPage ℝ) with innerWidth := 800, innerHeight := 600 } :
        Page ℝ).rng.draws i = 1 / 2 := by
    intro i
    show (init realMath (desktopPage ℝ)).rng.draws i = 1 / 2
    rw [hdraws]
    rfl
  obtain ⟨t, et, hlen, hall⟩ := handleResize_homes realMath false _ hk2 (1 / 2) hr
  refine ⟨hhome, t, et, hlen, fun p hp => ?_⟩
  obtain ⟨a1, a2, a3, a4⟩ := hall p hp
  refine ⟨?_, ?_, a3, a4⟩
  · rw [a1]
    show (1 / 2 : ℝ) * 800 = 400
    norm_num
  · rw [a2]
    show (1 / 2 : ℝ) * 600 = 300
    norm_num

end Portfolio
